import Mathlib

/-!
Verification development for the SOFS13 file system core (sofs13).

The definitions below are a shallow embedding of the C sources: machine
integers become Nat (with explicit modular arithmetic where 32-bit
wrap-around matters), fallible functions return Except with the errno
value as a Nat, and the mutable on-disk state (superblock, inode table,
cluster-to-inode map, free-cluster bitmap, data zone) is threaded
explicitly as a state record.  The buffered block-cache layer of
sofs_basicoper.c is embedded as direct state access guarded by the same
range checks the load functions perform; device I/O failures (EIO, EBADF)
are not modelled, so a load or store only fails for the reasons checked
in code.  Loops are embedded as recursions, with fuel where the C loop
has no syntactic bound; exhausting fuel yields a sentinel error, which
models divergence, so theorems about successful runs are unaffected.
-/

set_option maxRecDepth 8000

namespace Sofs13

/-! ### Constants

sofs_const.h is not among the sources; the values below are modelled
from the spec (section 3) together with the sizes implied by the run
scripts (a 1000-block device formats to 247 data clusters, which pins
BLOCK_SIZE = 512 and BLOCKS_PER_CLUSTER = 4, hence IPB = 8, RPB = 128,
DPC = 32, N_DIRECT = 7, MAX_NAME = 59). -/

def BLOCK_SIZE : Nat := 512

def BLOCKS_PER_CLUSTER : Nat := 4

def CLUSTER_SIZE : Nat := BLOCK_SIZE * BLOCKS_PER_CLUSTER

def IPB : Nat := 8

def RPB : Nat := BLOCK_SIZE / 4

def RPC : Nat := RPB * BLOCKS_PER_CLUSTER

def DPC : Nat := 32

def BSLPC : Nat := CLUSTER_SIZE

def N_DIRECT : Nat := 7

def MAX_NAME : Nat := 59

def MAX_FILE_CLUSTERS : Nat := N_DIRECT + RPC + RPC * RPC

def MAX_FILE_SIZE : Nat := MAX_FILE_CLUSTERS * BSLPC

def BITS_PER_BLOCK : Nat := 8 * BLOCK_SIZE

def NULL_INODE : Nat := 4294967295

def NULL_CLUSTER : Nat := 4294967295

def DZONE_CACHE_SIZE : Nat := 50

/-- Mode bits of an inode (sofs_inode.h is not among the sources; the
permission masks are pinned by the shift amounts used in
soAccessGranted.c, the free bit and the type-bit positions by the bit
tests in soReadInode.c). -/
def INODE_EX_OTH : Nat := 1

def INODE_WR_OTH : Nat := 2

def INODE_RD_OTH : Nat := 4

def INODE_EX_GRP : Nat := 8

def INODE_WR_GRP : Nat := 16

def INODE_RD_GRP : Nat := 32

def INODE_EX_USR : Nat := 64

def INODE_WR_USR : Nat := 128

def INODE_RD_USR : Nat := 256

def INODE_FILE : Nat := 512

def INODE_DIR : Nat := 1024

def INODE_SYMLINK : Nat := 2048

def INODE_FREE : Nat := 4096

def INODE_TYPE_MASK : Nat := INODE_FILE + INODE_DIR + INODE_SYMLINK

/-- Inode status arguments of soReadInode / soWriteInode. -/
def IUIN : Nat := 0

def FDIN : Nat := 1

/-- Operation codes of soHandleFileCluster.c / soHandleFileClusters.c. -/
def GET : Nat := 0

def ALLOC : Nat := 1

def FREE : Nat := 2

def FREE_CLEAN : Nat := 3

def CLEAN : Nat := 4

/-- Operation codes of soRemDetachDirEntry (sofs_ifuncs_4). -/
def REM : Nat := 0

def DETACH : Nat := 1

/-- Operation codes of soAddAttDirEntry (sofs_ifuncs_4). -/
def ADD : Nat := 0

def ATTACH : Nat := 1

/-- Access-request bits of soAccessGranted. -/
def R : Nat := 4

def W : Nat := 2

def X : Nat := 1

/-- Cluster status values returned by soQCheckStatDC. -/
def ALLOC_CLT : Nat := 0

def FREE_CLT : Nat := 1

/-! ### Error codes

Errors are carried as the positive errno value (the C functions return
its negation).  The SOFS-specific codes live in the missing
sofs_basicconsist.h; they are given arbitrary distinct values. -/

def EPERM : Nat := 1

def ENOENT : Nat := 2

def EIO : Nat := 5

def EBADF : Nat := 9

def EACCES : Nat := 13

def EEXIST : Nat := 17

def ENOTDIR : Nat := 20

def EINVAL : Nat := 22

def EFBIG : Nat := 27

def ENOSPC : Nat := 28

def EMLINK : Nat := 31

def ENAMETOOLONG : Nat := 36

def ENOTEMPTY : Nat := 39

def ELIBBAD : Nat := 80

def EIUININVAL : Nat := 1001

def EFDININVAL : Nat := 1002

def ELDCININVAL : Nat := 1003

def ESBTINPINVAL : Nat := 1004

def ETINDLLINVAL : Nat := 1005

def EFININVAL : Nat := 1006

def ESBDZINVAL : Nat := 1007

def ESBFCCINVAL : Nat := 1008

def EFCTINVAL : Nat := 1009

def EDCNALINVAL : Nat := 1010

def EDCMINVAL : Nat := 1011

def EDCARDYIL : Nat := 1012

def EDCNOTIL : Nat := 1013

def EWGINODENB : Nat := 1014

def EDIRINVAL : Nat := 1015

def EDEINVAL : Nat := 1016

/-- Sentinel error used when a fuelled loop runs out of fuel; it models
a C loop that would not have terminated (or would have run longer than
any bound relevant here), so theorems about successful runs never see
it. -/
def EFUEL : Nat := 9999

/-! ### Data structures -/

/-- Pointwise update of a table represented as a function. -/
def upd {α : Type} (f : Nat → α) (i : Nat) (v : α) : Nat → α :=
  fun j => if j = i then v else f j

/-- An inode (sofs_inode.h).  The two variant 32-bit words are vD1
(atime, or prev when free) and vD2 (mtime, or next when free).  The
direct-reference list d has N_DIRECT meaningful slots. -/
structure SOInode where
  mode : Nat
  refcount : Nat
  owner : Nat
  group : Nat
  size : Nat
  clucount : Nat
  vD1 : Nat
  vD2 : Nat
  d : Nat → Nat
  i1 : Nat
  i2 : Nat

/-- A directory entry (sofs_direntry.h): MAX_NAME + 1 name bytes and an
inode number. -/
structure SODirEntry where
  name : Nat → Nat
  nInode : Nat

/-- A data cluster (sofs_datacluster.h) as the C union of its three
views: an array of RPC references, an array of DPC directory entries,
and raw bytes.  The views are embedded as parallel fields; this is
sound here because no run examined by a theorem writes a cluster under
one view and reads it under another. -/
structure SODataClust where
  ref : Nat → Nat
  de : Nat → SODirEntry
  data : Nat → Nat

/-- A cluster of zero bytes, as each view reads it. -/
def zeroClust : SODataClust :=
  { ref := fun _ => 0, de := fun _ => { name := fun _ => 0, nInode := 0 }, data := fun _ => 0 }

/-- A free-cluster reference cache inside the superblock. -/
structure FCNode where
  cache_idx : Nat
  cache : Nat → Nat

/-- The superblock (sofs_superblock.h), omitting the volume name and the
reserved padding, which no claim mentions. -/
structure SOSuperBlock where
  magic : Nat
  version : Nat
  ntotal : Nat
  mstat : Nat
  itable_start : Nat
  itable_size : Nat
  itotal : Nat
  ifree : Nat
  ihead : Nat
  itail : Nat
  ciutable_start : Nat
  ciutable_size : Nat
  dzone_retriev : FCNode
  dzone_insert : FCNode
  fctable_start : Nat
  fctable_size : Nat
  fctable_pos : Nat
  dzone_start : Nat
  dzone_total : Nat
  dzone_free : Nat

/-- The file-system state: the superblock plus the four on-disk tables,
and the process context (uid, gid, current time).  The inode table is
indexed by inode number, the cluster-to-inode map by logical cluster
number, the bitmap by absolute byte index.  A data-zone cluster is used
by the code either as an array of RPC references, as an array of DPC
directory entries, or as raw bytes; the C union is embedded as three
parallel views, which is sound because no run examined here writes a
cluster under one view and reads it under another. -/
structure FSState where
  sb : SOSuperBlock
  itable : Nat → SOInode
  ciu : Nat → Nat
  bmap : Nat → Nat
  dz : Nat → SODataClust
  uid : Nat
  gid : Nat
  now : Nat

/-! ### Address arithmetic (sofs_basicoper.c)

Each conversion loads the superblock first (always succeeds in the
model) and then performs the same range checks as the source. -/

/-- soConvertRefInT: inode number to (block of the inode table, offset
within the block). -/
def soConvertRefInT (s : FSState) (nInode : Nat) : Except Nat (Nat × Nat) :=
  if nInode ≥ s.sb.itotal then .error EINVAL
  else .ok (nInode / IPB, nInode % IPB)

/-- soConvertRefCInMT: cluster reference to (block of the
cluster-to-inode table, offset within the block). -/
def soConvertRefCInMT (s : FSState) (ref : Nat) : Except Nat (Nat × Nat) :=
  if ref ≥ s.sb.dzone_total then .error EINVAL
  else .ok (ref / RPB, ref % RPB)

/-- soConvertRefBMapT: cluster reference to (block of the bitmap table,
byte offset within the block, bit offset within the byte). -/
def soConvertRefBMapT (s : FSState) (ref : Nat) : Except Nat (Nat × Nat × Nat) :=
  if ref ≥ s.sb.dzone_total then .error EINVAL
  else .ok (ref / (8 * BLOCK_SIZE), ((ref % (8 * BLOCK_SIZE)) / 8, (ref % (8 * BLOCK_SIZE)) % 8))

/-- soConvertBPIDC: byte position in a file to (index into the list of
direct references, offset within the cluster).  The two Bools model the
two output pointers being NULL. -/
def soConvertBPIDC (p : Nat) (clustIndIsNull offsetIsNull : Bool) :
    Except Nat (Nat × Nat) :=
  if p ≥ MAX_FILE_SIZE ∨ clustIndIsNull = true ∨ offsetIsNull = true then .error EINVAL
  else .ok (p / BSLPC, p % BSLPC)

/-! ### Block-cache loads (sofs_basicoper.c)

Only the range checks of the load functions are observable in the model;
a successful load makes the block available, which the embedding reads
directly from the state. -/

/-- soLoadBlockInT range check. -/
def soLoadBlockInT (s : FSState) (nBlk : Nat) : Except Nat Unit :=
  if nBlk ≥ s.sb.itable_size then .error EINVAL else .ok ()

/-- soLoadBlockCTInMT range check. -/
def soLoadBlockCTInMT (s : FSState) (nBlk : Nat) : Except Nat Unit :=
  if nBlk ≥ s.sb.ciutable_size then .error EINVAL else .ok ()

/-- soLoadBlockBMapT range check. -/
def soLoadBlockBMapT (s : FSState) (nBlk : Nat) : Except Nat Unit :=
  if nBlk ≥ s.sb.fctable_size then .error EINVAL else .ok ()

/-- soLoadSngIndRefClust / soLoadDirRefClust range check on a physical
cluster number (first block of the cluster). -/
def soLoadRefClust (s : FSState) (nClust : Nat) : Except Nat Unit :=
  if nClust < s.sb.dzone_start ∨ (nClust - s.sb.dzone_start) % BLOCKS_PER_CLUSTER ≠ 0 ∨
     nClust ≥ s.sb.dzone_start + s.sb.dzone_total * BLOCKS_PER_CLUSTER then .error EINVAL
  else .ok ()

/-- Logical cluster number of a physical cluster number, the inverse of
phys = dzone_start + logical * BLOCKS_PER_CLUSTER. -/
def logOfPhys (s : FSState) (nClust : Nat) : Nat :=
  (nClust - s.sb.dzone_start) / BLOCKS_PER_CLUSTER

def MAGIC_NUMBER : Nat := 26110

def VERSION_NUMBER : Nat := 8211

/-! ### Quick consistency checks

sofs_basicconsist.c is not among the sources; the predicates below are
modelled from the spec (the global invariants of section 3 and the
error taxonomy of section 7), kept to the fields their C signatures can
see. -/

/-- A cluster reference inside an inode is legal when it is NULL_CLUSTER
or in range.  Modelled from the spec: reference-list consistency. -/
def refLegal (sb : SOSuperBlock) (r : Nat) : Prop :=
  r = NULL_CLUSTER ∨ r < sb.dzone_total

instance (sb : SOSuperBlock) (r : Nat) : Decidable (refLegal sb r) := by
  unfold refLegal; infer_instance

/-- Modelled from the spec: quick check of an inode in use
(sofs_basicconsist.c is missing): the free bit is clear, exactly one
type bit is set, and every cluster reference is legal. -/
def soQCheckInodeIU (sb : SOSuperBlock) (ino : SOInode) : Except Nat Unit :=
  if ino.mode &&& INODE_FREE ≠ 0 then .error EIUININVAL
  else if ¬ (ino.mode &&& INODE_TYPE_MASK = INODE_FILE ∨
             ino.mode &&& INODE_TYPE_MASK = INODE_DIR ∨
             ino.mode &&& INODE_TYPE_MASK = INODE_SYMLINK) then .error EIUININVAL
  else if ¬ ((∀ k ∈ List.range N_DIRECT, refLegal sb (ino.d k)) ∧
             refLegal sb ino.i1 ∧ refLegal sb ino.i2) then .error ELDCININVAL
  else .ok ()

/-- Modelled from the spec: quick check of a free inode in the dirty
state (sofs_basicconsist.c is missing): the free bit is set and the
list pointers and cluster references are legal. -/
def soQCheckFDInode (sb : SOSuperBlock) (ino : SOInode) : Except Nat Unit :=
  if ino.mode &&& INODE_FREE = 0 then .error EFDININVAL
  else if ¬ ((ino.vD1 = NULL_INODE ∨ ino.vD1 < sb.itotal) ∧
             (ino.vD2 = NULL_INODE ∨ ino.vD2 < sb.itotal)) then .error EFDININVAL
  else if ¬ ((∀ k ∈ List.range N_DIRECT, refLegal sb (ino.d k)) ∧
             refLegal sb ino.i1 ∧ refLegal sb ino.i2) then .error ELDCININVAL
  else .ok ()

/-- Modelled from the spec: quick check of the inode-table metadata in
the superblock (sofs_basicconsist.c is missing). -/
def soQCheckInT (sb : SOSuperBlock) : Except Nat Unit :=
  if ¬ (sb.ifree ≤ sb.itotal ∧
        (sb.ifree = 0 → sb.ihead = NULL_INODE ∧ sb.itail = NULL_INODE) ∧
        (sb.ifree ≠ 0 → sb.ihead < sb.itotal ∧ sb.itail < sb.itotal)) then
    .error ESBTINPINVAL
  else .ok ()

/-- Modelled from the spec: quick check of the data-zone metadata in the
superblock (sofs_basicconsist.c is missing): the cache indices are
within bounds. -/
def soQCheckDZ (sb : SOSuperBlock) : Except Nat Unit :=
  if ¬ (sb.dzone_retriev.cache_idx ≤ DZONE_CACHE_SIZE ∧
        sb.dzone_insert.cache_idx ≤ DZONE_CACHE_SIZE) then .error ESBFCCINVAL
  else .ok ()

/-- Modelled from the spec: quick check of the superblock
(sofs_basicconsist.c is missing): header values and layout equations of
the section 3 invariants, plus the inode-table and data-zone checks. -/
def soQCheckSuperBlock (sb : SOSuperBlock) : Except Nat Unit :=
  if ¬ (sb.magic = MAGIC_NUMBER ∧ sb.version = VERSION_NUMBER ∧
        sb.itable_start = 1 ∧ sb.ciutable_start = sb.itable_start + sb.itable_size ∧
        sb.fctable_start = sb.ciutable_start + sb.ciutable_size ∧
        sb.dzone_start = sb.fctable_start + sb.fctable_size ∧
        sb.itotal = sb.itable_size * IPB) then .error ELIBBAD
  else match soQCheckInT sb with
  | .error e => .error e
  | .ok _ => soQCheckDZ sb

/-- Modelled from the spec: quick check of the directory contents seen
from the inode (sofs_basicconsist.c is missing): the size of a
directory is a positive multiple of CLUSTER_SIZE within the file-size
bound. -/
def soQCheckDirCont (sb : SOSuperBlock) (ino : SOInode) : Except Nat Unit :=
  if ¬ (ino.size % CLUSTER_SIZE = 0 ∧ 0 < ino.size ∧ ino.size ≤ MAX_FILE_SIZE) then
    .error EDIRINVAL
  else .ok ()

/-! ### Bitmap access helpers -/

/-- The mask 0x80 >> bitOff used on bitmap bytes. -/
def byteMask (bitOff : Nat) : Nat := 128 >>> bitOff

/-- Absolute byte index of a bitmap reference: block (ref div
BITS_PER_BLOCK) at byte offset (ref mod BITS_PER_BLOCK) div 8. -/
def bmapByteIdx (ref : Nat) : Nat :=
  (ref / BITS_PER_BLOCK) * BLOCK_SIZE + (ref % BITS_PER_BLOCK) / 8

/-- The bit of a cluster reference is set in a bitmap table given as a
byte-indexed function. -/
def bmBit (bm : Nat → Nat) (ref : Nat) : Prop :=
  (bm (bmapByteIdx ref)) &&& byteMask (ref % BITS_PER_BLOCK % 8) =
    byteMask (ref % BITS_PER_BLOCK % 8)

instance (bm : Nat → Nat) (ref : Nat) : Decidable (bmBit bm ref) := by
  unfold bmBit; infer_instance

/-- The bitmap bit of a cluster reference is set (the cluster is free
for the purpose of the circular scan). -/
def bmapBitSet (s : FSState) (ref : Nat) : Prop := bmBit s.bmap ref

instance (s : FSState) (ref : Nat) : Decidable (bmapBitSet s ref) := by
  unfold bmapBitSet; infer_instance

/-- A reference is a valid entry of the insertion cache (one of the
slots below cache_idx). -/
def inInsertCache (sb : SOSuperBlock) (ref : Nat) : Prop :=
  ∃ k ∈ List.range sb.dzone_insert.cache_idx, sb.dzone_insert.cache k = ref

instance (sb : SOSuperBlock) (ref : Nat) : Decidable (inInsertCache sb ref) := by
  unfold inInsertCache; infer_instance

/-- A reference is a valid entry of the retrieval cache (one of the
slots from cache_idx up). -/
def inRetrievCache (sb : SOSuperBlock) (ref : Nat) : Prop :=
  ∃ k ∈ List.range DZONE_CACHE_SIZE,
    sb.dzone_retriev.cache_idx ≤ k ∧ sb.dzone_retriev.cache k = ref

instance (sb : SOSuperBlock) (ref : Nat) : Decidable (inRetrievCache sb ref) := by
  unfold inRetrievCache; infer_instance

/-- Modelled from the spec: quick check of the allocation status of a
data cluster (sofs_basicconsist.c is missing).  Spec 4.4: the cluster
is currently allocated when its map entry differs from NULL_INODE or
its bitmap bit is 0 and it is not in the insertion cache. -/
def soQCheckStatDC (s : FSState) (nClust : Nat) : Except Nat Nat :=
  if s.ciu nClust ≠ NULL_INODE ∨ (¬ bmapBitSet s nClust ∧ ¬ inInsertCache s.sb nClust) then
    .ok ALLOC_CLT
  else .ok FREE_CLT

/-! ### soReadInode (sofs_ifuncs_2/soReadInode.c) -/

/-- soReadInode: read one inode from the table of inodes.  For the
in-use status the access time of the stored inode is set to the current
time and the block is written back; the returned buffer is copied after
that update. -/
def soReadInode (s : FSState) (nInode status : Nat) : Except Nat (SOInode × FSState) :=
  if status ≠ IUIN ∧ status ≠ FDIN then .error EINVAL
  else
  let blockin := s.sb.itable_size * IPB
  if nInode > blockin then .error EINVAL
  else
  match soConvertRefInT s nInode with
  | .error e => .error e
  | .ok (p_nBlk, p_offset) =>
  match soLoadBlockInT s p_nBlk with
  | .error e => .error e
  | .ok _ =>
  let cr := s.itable (p_nBlk * IPB + p_offset)
  if status = FDIN then
    if (cr.mode.testBit 12) = false then .error EFDININVAL
    else match soQCheckFDInode s.sb cr with
    | .error e => .error e
    | .ok _ => .ok (cr, s)
  else
    if (cr.mode.testBit 9 ∨ cr.mode.testBit 10 ∨ cr.mode.testBit 11) = false then
      .error EIUININVAL
    else match soQCheckInodeIU s.sb cr with
    | .error e => .error e
    | .ok _ =>
      let cr2 := { cr with vD1 := s.now }
      .ok (cr2, { s with itable := upd s.itable (p_nBlk * IPB + p_offset) cr2 })

/-! ### soWriteInode (part of sofs_ifuncs_2) -/

/-- soWriteInode: write one inode to the table of inodes; for the
in-use status the stored access and modification times are set to the
current time. -/
def soWriteInode (s : FSState) (p_inode : SOInode) (nInode status : Nat) :
    Except Nat FSState :=
  if nInode ≥ s.sb.itotal then .error EINVAL
  else if status ≠ IUIN ∧ status ≠ FDIN then .error EINVAL
  else
  match (if status = IUIN then soQCheckInodeIU s.sb p_inode
         else soQCheckFDInode s.sb p_inode) with
  | .error e => .error e
  | .ok _ =>
    let w := if status = IUIN then { p_inode with vD1 := s.now, vD2 := s.now } else p_inode
    .ok { s with itable := upd s.itable nInode w }

/-! ### soAccessGranted (sofs_ifuncs_2, unnamed part_004) -/

/-- soAccessGranted: check the access rights of the calling process on
an inode.  The source dispatches on the owner field of the inode being
0, not on the uid of the calling process. -/
def soAccessGranted (s : FSState) (nInode opRequested : Nat) :
    Except Nat (Unit × FSState) :=
  if opRequested = 0 ∨ opRequested &&& (R ||| W ||| X) ≠ opRequested then .error EINVAL
  else
  if nInode > s.sb.itotal - 1 then .error EINVAL
  else
  match soQCheckInT s.sb with
  | .error e => .error e
  | .ok _ =>
  match soReadInode s nInode IUIN with
  | .error e => .error e
  | .ok (checkinode, s1) =>
  match soQCheckInodeIU s1.sb checkinode with
  | .error e => .error e
  | .ok _ =>
  match soConvertRefInT s1 nInode with
  | .error e => .error e
  | .ok (p_nBlk, p_offset) =>
  match soLoadBlockInT s1 p_nBlk with
  | .error e => .error e
  | .ok _ =>
  let ino := s1.itable (p_nBlk * IPB + p_offset)
  if ino.owner ≠ 0 then
    if s1.uid = ino.owner ∧
       ((opRequested = R ∧ (ino.mode &&& INODE_RD_USR) >>> 8 = 1) ∨
        (opRequested = X ∧ (ino.mode &&& INODE_EX_USR) >>> 6 = 1) ∨
        (opRequested = W ∧ (ino.mode &&& INODE_WR_USR) >>> 7 = 1) ∨
        (ino.mode &&& (INODE_RD_USR ||| INODE_WR_USR ||| INODE_EX_USR)) >>> 6 = opRequested)
    then .ok ((), s1)
    else if s1.gid = ino.group ∧
       ((opRequested = R ∧ (ino.mode &&& INODE_RD_GRP) >>> 5 = 1) ∨
        (opRequested = W ∧ (ino.mode &&& INODE_WR_GRP) >>> 4 = 1) ∨
        (opRequested = X ∧ (ino.mode &&& INODE_EX_GRP) >>> 3 = 1) ∨
        (ino.mode &&& (INODE_RD_GRP ||| INODE_WR_GRP ||| INODE_EX_GRP)) >>> 3 = opRequested)
    then .ok ((), s1)
    else if (opRequested = R ∧ (ino.mode &&& INODE_RD_OTH) >>> 2 = 1) ∨
            (opRequested = W ∧ (ino.mode &&& INODE_WR_OTH) >>> 1 = 1) ∨
            (opRequested = X ∧ ino.mode &&& INODE_EX_OTH = 1) ∨
            ino.mode &&& (INODE_RD_OTH ||| INODE_WR_OTH ||| INODE_EX_OTH) = opRequested
    then .ok ((), s1)
    else .error EACCES
  else
    if opRequested = R ∨ opRequested = W ∨ opRequested = (R ||| W) then .ok ((), s1)
    else if (ino.mode &&& INODE_EX_USR) >>> 6 ≠ 0 ∨
            (ino.mode &&& INODE_EX_GRP) >>> 3 ≠ 0 ∨
            ino.mode &&& INODE_EX_OTH ≠ 0 then .ok ((), s1)
    else .error EACCES

/-! ### Data-cluster allocator (sofs_ifuncs_1)

soFreeDataCluster.c and soDeplete come from
sofs_ifuncs_1/soFreeDataCluster.c, soAllocDataCluster and soReplenish
from the unnamed sources (part_005).  Both soDeplete and soReplenish
call soConvertRefBMapT without checking its result; the conversion is
therefore embedded as the plain arithmetic it performs. -/

/-- Clear a bit in a bitmap byte (C stores an int expression into an
unsigned char, so the value is truncated to 8 bits). -/
def byteClr (b mask : Nat) : Nat := (b % 256) &&& (255 - mask)

/-- Set a bit in a bitmap byte. -/
def byteSet (b mask : Nat) : Nat := (b % 256) ||| mask

/-- One iteration of the soDeplete loop: move insertion-cache slot n to
the bitmap and blank the slot. -/
def soDepleteStep (s : FSState) (n : Nat) : Except Nat FSState :=
  let ref := s.sb.dzone_insert.cache n
  let p_nBlk := ref / (8 * BLOCK_SIZE)
  let p_byteOff := (ref % (8 * BLOCK_SIZE)) / 8
  let p_bitOff := (ref % (8 * BLOCK_SIZE)) % 8
  match soLoadBlockBMapT s p_nBlk with
  | .error e => .error e
  | .ok _ =>
    let idx := p_nBlk * BLOCK_SIZE + p_byteOff
    .ok { s with
      bmap := upd s.bmap idx (byteSet (s.bmap idx) (byteMask p_bitOff)),
      sb := { s.sb with dzone_insert := { s.sb.dzone_insert with
                cache := upd s.sb.dzone_insert.cache n NULL_CLUSTER } } }

/-- The soDeplete loop over the occupied insertion-cache slots; returns
the state reached so far even on error, because soReplenish ignores the
status of its soDeplete call. -/
def soDepleteLoop (s : FSState) (n remaining : Nat) : (Except Nat Unit) × FSState :=
  match remaining with
  | 0 => (.ok (), s)
  | rem + 1 =>
    match soDepleteStep s n with
    | .error e => (.error e, s)
    | .ok s1 => soDepleteLoop s1 (n + 1) rem

/-- soDeplete, with the partially updated state preserved on error. -/
def soDepleteRaw (s : FSState) : (Except Nat Unit) × FSState :=
  match soDepleteLoop s 0 s.sb.dzone_insert.cache_idx with
  | (.error e, s1) => (.error e, s1)
  | (.ok _, s1) =>
    let s2 := { s1 with sb := { s1.sb with
      dzone_insert := { s1.sb.dzone_insert with cache_idx := 0 } } }
    match soQCheckDZ s2.sb with
    | .error e => (.error e, s2)
    | .ok _ => (.ok (), s2)

/-- soDeplete as seen by callers that check its status. -/
def soDeplete (s : FSState) : Except Nat FSState :=
  match soDepleteRaw s with
  | (.error e, _) => .error e
  | (.ok _, s1) => .ok s1

/-- First scan loop of soReplenish (a do-while): capture free bits into
the retrieval cache, stopping when n reaches DZONE_CACHE_SIZE or the
scan is back at its starting position.  The fuel bounds the iteration
count; dzone_total units suffice for the loop as written. -/
def replLoop1 (start : Nat) :
    Nat → FSState → Nat → Nat → Except Nat (FSState × Nat × Nat)
  | fuel, s, n, pos =>
    let nBlk := pos / (8 * BLOCK_SIZE)
    let nByte := (pos % (8 * BLOCK_SIZE)) / 8
    let nBit := (pos % (8 * BLOCK_SIZE)) % 8
    match soLoadBlockBMapT s nBlk with
    | .error e => .error e
    | .ok _ =>
      let idx := nBlk * BLOCK_SIZE + nByte
      let mask := byteMask nBit
      let hit := s.bmap idx &&& mask = mask
      let s1 := if hit then
          { s with
            bmap := upd s.bmap idx (byteClr (s.bmap idx) mask),
            sb := { s.sb with dzone_retriev := { s.sb.dzone_retriev with
                      cache := upd s.sb.dzone_retriev.cache n pos } } }
        else s
      let n1 := if hit then n + 1 else n
      let pos1 := (pos + 1) % s.sb.dzone_total
      if n1 < DZONE_CACHE_SIZE ∧ pos1 ≠ start then
        match fuel with
        | 0 => .error EFUEL
        | f + 1 => replLoop1 start f s1 n1 pos1
      else .ok (s1, n1, pos1)

/-- Second scan loop of soReplenish (run after depleting the insertion
cache when the first revolution captured too few references).  The
source loads the bitmap block whose number is the byte offset nByte
rather than the block number nBlk, and then tests byte nByte of that
block, so the byte examined is the one at absolute index
nByte * BLOCK_SIZE + nByte; the loop only ends once n reaches
DZONE_CACHE_SIZE, which the fuel turns into an error when the bitmap
never supplies enough bits. -/
def replLoop2 : Nat → FSState → Nat → Nat → Except Nat (FSState × Nat × Nat)
  | fuel, s, n, pos =>
    let nByte := (pos % (8 * BLOCK_SIZE)) / 8
    let nBit := (pos % (8 * BLOCK_SIZE)) % 8
    match soLoadBlockBMapT s nByte with
    | .error e => .error e
    | .ok _ =>
      let idx := nByte * BLOCK_SIZE + nByte
      let mask := byteMask nBit
      let hit := s.bmap idx &&& mask = mask
      let s1 := if hit then
          { s with
            bmap := upd s.bmap idx (byteClr (s.bmap idx) mask),
            sb := { s.sb with dzone_retriev := { s.sb.dzone_retriev with
                      cache := upd s.sb.dzone_retriev.cache n pos } } }
        else s
      let n1 := if hit then n + 1 else n
      let pos1 := (pos + 1) % s.sb.dzone_total
      if n1 < DZONE_CACHE_SIZE then
        match fuel with
        | 0 => .error EFUEL
        | f + 1 => replLoop2 f s1 n1 pos1
      else .ok (s1, n1, pos1)

/-- soReplenish (unnamed part_005): refill the retrieval cache from the
bitmap, depleting the insertion cache first when a full revolution of
the bitmap did not supply DZONE_CACHE_SIZE references.  The status of
the inner soDeplete call is ignored by the source. -/
def soReplenish (s : FSState) : Except Nat FSState :=
  let nclustt := if s.sb.dzone_free < DZONE_CACHE_SIZE then s.sb.dzone_free
                 else DZONE_CACHE_SIZE
  let start := s.sb.fctable_pos
  match replLoop1 start s.sb.dzone_total s (DZONE_CACHE_SIZE - nclustt) s.sb.fctable_pos with
  | .error e => .error e
  | .ok (s1, n1, pos1) =>
    match (if n1 ≠ DZONE_CACHE_SIZE then
             replLoop2 ((s.sb.dzone_total + 1) * (DZONE_CACHE_SIZE + 1))
               (soDepleteRaw s1).2 n1 pos1
           else .ok (s1, n1, pos1) : Except Nat (FSState × Nat × Nat)) with
    | .error e => .error e
    | .ok (s4, _, pos4) =>
      .ok { s4 with sb := { s4.sb with
        dzone_retriev := { s4.sb.dzone_retriev with cache_idx := DZONE_CACHE_SIZE - nclustt },
        fctable_pos := pos4 } }

/-- Modelled from the spec: clean a data cluster in the dirty state
(sofs_ifuncs_3/soCleanDataCluster.c is not among the sources).  Spec
4.4: the clean operation clears the reference to the cluster from the
former owner inode reference lists (direct list, single indirect and
double indirect chains) and sets the cluster-to-inode map entry to
NULL_INODE. -/
def soCleanDataCluster (s : FSState) (nInode nClust : Nat) : Except Nat FSState :=
  let ino := s.itable nInode
  let ino1 := { ino with
    d := fun k => if k < N_DIRECT ∧ ino.d k = nClust then NULL_CLUSTER else ino.d k,
    i1 := if ino.i1 = nClust then NULL_CLUSTER else ino.i1,
    i2 := if ino.i2 = nClust then NULL_CLUSTER else ino.i2 }
  let owned : Nat → Prop := fun c =>
    (ino.i1 ≠ NULL_CLUSTER ∧ c = ino.i1) ∨ (ino.i2 ≠ NULL_CLUSTER ∧ c = ino.i2) ∨
    (ino.i2 ≠ NULL_CLUSTER ∧ ∃ j ∈ List.range RPC, (s.dz ino.i2).ref j = c)
  have : ∀ c, Decidable (owned c) := fun c => by unfold owned; infer_instance
  .ok { s with
    itable := upd s.itable nInode ino1,
    dz := fun c =>
      let old := s.dz c
      { old with ref := fun k =>
          if owned c ∧ old.ref k = nClust then NULL_CLUSTER else old.ref k },
    ciu := upd s.ciu nClust NULL_INODE }

/-- soAllocDataCluster (unnamed part_005): pop one reference from the
retrieval cache, replenishing it first when empty, and clean the
cluster when its map entry shows a former owner. -/
def soAllocDataCluster (s : FSState) : Except Nat (Nat × FSState) :=
  if s.sb.dzone_free = 0 then .error ENOSPC
  else match soQCheckDZ s.sb with
  | .error e => .error e
  | .ok _ =>
  match (if s.sb.dzone_retriev.cache_idx = DZONE_CACHE_SIZE then soReplenish s
         else .ok s) with
  | .error e => .error e
  | .ok s1 =>
  let nClust := s1.sb.dzone_retriev.cache s1.sb.dzone_retriev.cache_idx
  match soConvertRefCInMT s1 nClust with
  | .error e => .error e
  | .ok (nBlk, off) =>
  match soLoadBlockCTInMT s1 nBlk with
  | .error e => .error e
  | .ok _ =>
  let mapv := s1.ciu (nBlk * RPB + off)
  match (if mapv ≠ NULL_INODE then soCleanDataCluster s1 mapv nClust else .ok s1) with
  | .error e => .error e
  | .ok s2 =>
  let retr := s2.sb.dzone_retriev
  .ok (nClust, { s2 with sb := { s2.sb with
    dzone_retriev := { cache_idx := retr.cache_idx + 1,
                       cache := upd retr.cache retr.cache_idx NULL_CLUSTER },
    dzone_free := s2.sb.dzone_free - 1 } })

/-- soFreeDataCluster (sofs_ifuncs_1/soFreeDataCluster.c): append an
allocated cluster to the insertion cache, depleting it first when
full.  The cluster-to-inode map entry is not touched. -/
def soFreeDataCluster (s : FSState) (nClust : Nat) : Except Nat FSState :=
  match soQCheckDZ s.sb with
  | .error e => .error e
  | .ok _ =>
  if nClust > s.sb.dzone_total - 1 ∨ nClust = 0 then .error EINVAL
  else match soQCheckSuperBlock s.sb with
  | .error e => .error e
  | .ok _ =>
  match soQCheckStatDC s nClust with
  | .error e => .error e
  | .ok data_stat =>
  if data_stat = FREE_CLT then .error EDCNALINVAL
  else
  match (if s.sb.dzone_insert.cache_idx = DZONE_CACHE_SIZE then soDeplete s
         else .ok s) with
  | .error e => .error e
  | .ok s1 =>
  let ins := s1.sb.dzone_insert
  .ok { s1 with sb := { s1.sb with
    dzone_insert := { cache_idx := ins.cache_idx + 1,
                      cache := upd ins.cache ins.cache_idx nClust },
    dzone_free := s1.sb.dzone_free + 1 } }

/-! ### soFreeInode (unnamed part_005) -/

/-- soFreeInode: mark an inode free in the dirty state and append it at
the tail of the double-linked list of free inodes.  When the list is
empty the owner and group fields are left untouched and both list
pointers are set to NULL_INODE; otherwise owner and group are cleared
and prev is set to the old tail.  The reference count is not
examined. -/
def soFreeInode (s : FSState) (nInode : Nat) : Except Nat FSState :=
  if nInode = 0 then .error EINVAL
  else
  match soConvertRefInT s nInode with
  | .error e => .error e
  | .ok (p_blk, p_offset) =>
  match soLoadBlockInT s p_blk with
  | .error e => .error e
  | .ok _ =>
  let ino := s.itable (p_blk * IPB + p_offset)
  match soQCheckInodeIU s.sb ino with
  | .error e => .error e
  | .ok _ =>
  if s.sb.ifree = 0 then
    let ino1 := { ino with mode := ino.mode ||| INODE_FREE,
                           vD1 := NULL_INODE, vD2 := NULL_INODE }
    .ok { s with
      itable := upd s.itable (p_blk * IPB + p_offset) ino1,
      sb := { s.sb with ihead := nInode, itail := nInode, ifree := s.sb.ifree + 1 } }
  else
    let ino1 := { ino with vD1 := s.sb.itail, vD2 := NULL_INODE,
                           owner := 0, group := 0, mode := ino.mode ||| INODE_FREE }
    let s1 := { s with itable := upd s.itable (p_blk * IPB + p_offset) ino1 }
    match soConvertRefInT s1 s.sb.itail with
    | .error e => .error e
    | .ok (p_blkTail, p_offTail) =>
    match soLoadBlockInT s1 p_blkTail with
    | .error e => .error e
    | .ok _ =>
    let tl := s1.itable (p_blkTail * IPB + p_offTail)
    .ok { s1 with
      itable := upd s1.itable (p_blkTail * IPB + p_offTail) { tl with vD2 := nInode },
      sb := { s1.sb with itail := nInode, ifree := s1.sb.ifree + 1 } }

/-! ### File-cluster indexing (sofs_ifuncs_3/soHandleFileCluster.c) -/

/-- soMapDCtoIn: associate a data cluster to an inode in the
cluster-to-inode mapping table.  The source rejects nInode equal to 0,
an error its own documentation does not list. -/
def soMapDCtoIn (s : FSState) (nInode nClust : Nat) : Except Nat FSState :=
  if nClust < 1 ∨ nClust > s.sb.dzone_total - 1 then .error EINVAL
  else if nInode = 0 ∨ nInode ≥ s.sb.itotal then .error EINVAL
  else
  match soConvertRefCInMT s nClust with
  | .error e => .error e
  | .ok (p_blk, p_off) =>
  match soLoadBlockCTInMT s p_blk with
  | .error e => .error e
  | .ok _ => .ok { s with ciu := upd s.ciu (p_blk * RPB + p_off) nInode }

/-- soUnmapDCtoIn: dissociate a data cluster from its inode in the
cluster-to-inode mapping table; fails when the stored owner differs. -/
def soUnmapDCtoIn (s : FSState) (nInode nClust : Nat) : Except Nat FSState :=
  if nClust < 1 ∨ nClust > s.sb.dzone_total - 1 then .error EINVAL
  else if nInode = 0 ∨ nInode ≥ s.sb.itotal then .error EINVAL
  else
  match soConvertRefCInMT s nClust with
  | .error e => .error e
  | .ok (p_blk, p_off) =>
  match soLoadBlockCTInMT s p_blk with
  | .error e => .error e
  | .ok _ =>
    if s.ciu (p_blk * RPB + p_off) ≠ nInode then .error EDCMINVAL
    else .ok { s with ciu := upd s.ciu (p_blk * RPB + p_off) NULL_INODE }

/-- soHandleDirect: the direct-references slot handler.  The result
carries the value written through p_outVal (when any), the updated
inode buffer and the updated state. -/
def soHandleDirect (s : FSState) (nInode : Nat) (p_inode : SOInode) (clustInd op : Nat) :
    Except Nat (Option Nat × SOInode × FSState) :=
  if op = GET then .ok (some (p_inode.d clustInd), p_inode, s)
  else if op = ALLOC then
    if p_inode.d clustInd ≠ NULL_CLUSTER then .error EDCARDYIL
    else match soAllocDataCluster s with
    | .error e => .error e
    | .ok (c, s1) =>
      let ino1 := { p_inode with d := upd p_inode.d clustInd c,
                                 clucount := p_inode.clucount + 1 }
      match soMapDCtoIn s1 nInode c with
      | .error e => .error e
      | .ok s2 => .ok (some c, ino1, s2)
  else if op = FREE then
    if p_inode.d clustInd = NULL_CLUSTER then .error EDCNOTIL
    else match soFreeDataCluster s (p_inode.d clustInd) with
    | .error e => .error e
    | .ok s1 => .ok (none, p_inode, s1)
  else if op = FREE_CLEAN then
    if p_inode.d clustInd = NULL_CLUSTER then .error EDCNOTIL
    else match soFreeDataCluster s (p_inode.d clustInd) with
    | .error e => .error e
    | .ok s1 =>
    match soUnmapDCtoIn s1 nInode (p_inode.d clustInd) with
    | .error e => .error e
    | .ok s2 =>
      .ok (none, { p_inode with d := upd p_inode.d clustInd NULL_CLUSTER,
                                clucount := p_inode.clucount - 1 }, s2)
  else if op = CLEAN then
    if p_inode.d clustInd = NULL_CLUSTER then .error EDCNOTIL
    else match soUnmapDCtoIn s nInode (p_inode.d clustInd) with
    | .error e => .error e
    | .ok s1 =>
      .ok (none, { p_inode with d := upd p_inode.d clustInd NULL_CLUSTER,
                                clucount := p_inode.clucount - 1 }, s1)
  else .ok (none, p_inode, s)

/-- Blank all RPC references of a cluster (the initialization loop run
on a freshly allocated indirection cluster). -/
def blankRefs (c : SODataClust) : SODataClust :=
  { c with ref := fun k => if k < RPC then NULL_CLUSTER else c.ref k }

/-- soHandleSIndirect: the single-indirect slot handler. -/
def soHandleSIndirect (s : FSState) (nInode : Nat) (p_inode : SOInode) (clustInd op : Nat)
    (outIsNull : Bool) : Except Nat (Option Nat × SOInode × FSState) :=
  if op = GET then
    if outIsNull then .error EIO
    else if p_inode.i1 = NULL_CLUSTER then .ok (some NULL_CLUSTER, p_inode, s)
    else
    match soLoadRefClust s (s.sb.dzone_start + p_inode.i1 * BLOCKS_PER_CLUSTER) with
    | .error e => .error e
    | .ok _ => .ok (some ((s.dz p_inode.i1).ref (clustInd - N_DIRECT)), p_inode, s)
  else if op = ALLOC then
    if outIsNull then .error EIO
    else
    match (if p_inode.i1 = NULL_CLUSTER then
             match soAllocDataCluster s with
             | .error e => .error e
             | .ok (c, s1) =>
               match soMapDCtoIn s1 nInode c with
               | .error e => .error e
               | .ok s2 =>
                 .ok (true, { p_inode with i1 := c, clucount := p_inode.clucount + 1 }, s2)
           else .ok (false, p_inode, s) : Except Nat (Bool × SOInode × FSState)) with
    | .error e => .error e
    | .ok (iflag, ino1, s2) =>
    match soLoadRefClust s2 (s2.sb.dzone_start + ino1.i1 * BLOCKS_PER_CLUSTER) with
    | .error e => .error e
    | .ok _ =>
    let s3 := if iflag then { s2 with dz := upd s2.dz ino1.i1 (blankRefs (s2.dz ino1.i1)) }
              else s2
    if (s3.dz ino1.i1).ref (clustInd - N_DIRECT) ≠ NULL_CLUSTER then .error EDCARDYIL
    else
    match soAllocDataCluster s3 with
    | .error e => .error e
    | .ok (c2, s4) =>
    match soLoadRefClust s4 (s4.sb.dzone_start + ino1.i1 * BLOCKS_PER_CLUSTER) with
    | .error e => .error e
    | .ok _ =>
    let cl := s4.dz ino1.i1
    let cl2 := { cl with ref := upd cl.ref (clustInd - N_DIRECT) c2 }
    let s5 := { s4 with dz := upd s4.dz ino1.i1 cl2 }
    let ino2 := { ino1 with clucount := ino1.clucount + 1 }
    match soMapDCtoIn s5 nInode c2 with
    | .error e => .error e
    | .ok s6 => .ok (some ((s6.dz ino2.i1).ref (clustInd - N_DIRECT)), ino2, s6)
  else if op = FREE ∨ op = FREE_CLEAN ∨ op = CLEAN then
    if p_inode.i1 = NULL_CLUSTER then .error EDCNOTIL
    else
    match soLoadRefClust s (s.sb.dzone_start + p_inode.i1 * BLOCKS_PER_CLUSTER) with
    | .error e => .error e
    | .ok _ =>
    let n_cluster := clustInd - N_DIRECT
    if (s.dz p_inode.i1).ref n_cluster = NULL_CLUSTER then .error EDCNOTIL
    else
    match (if op ≠ CLEAN then soFreeDataCluster s ((s.dz p_inode.i1).ref n_cluster)
           else .ok s : Except Nat FSState) with
    | .error e => .error e
    | .ok s1 =>
    if op = CLEAN ∨ op = FREE_CLEAN then
      match soUnmapDCtoIn s1 nInode ((s1.dz p_inode.i1).ref n_cluster) with
      | .error e => .error e
      | .ok s2 =>
      let cl := s2.dz p_inode.i1
      let clB := { cl with ref := upd cl.ref n_cluster NULL_CLUSTER }
      let s3 := { s2 with dz := upd s2.dz p_inode.i1 clB }
      let ino1 := { p_inode with clucount := p_inode.clucount - 1 }
      if ∀ i ∈ List.range RPC, (s3.dz ino1.i1).ref i = NULL_CLUSTER then
        match soUnmapDCtoIn s3 nInode ino1.i1 with
        | .error e => .error e
        | .ok s4 =>
        match soFreeDataCluster s4 ino1.i1 with
        | .error e => .error e
        | .ok s5 =>
          .ok (none, { ino1 with i1 := NULL_CLUSTER, clucount := ino1.clucount - 1 }, s5)
      else .ok (none, ino1, s3)
    else .ok (none, p_inode, s1)
  else .error EINVAL

/-- soHandleDIndirect: the double-indirect slot handler. -/
def soHandleDIndirect (s : FSState) (nInode : Nat) (p_inode : SOInode) (clustInd op : Nat)
    (outIsNull : Bool) : Except Nat (Option Nat × SOInode × FSState) :=
  if op = ALLOC then
    if outIsNull then .error EIO
    else
    match (if p_inode.i2 = NULL_CLUSTER then
             match soAllocDataCluster s with
             | .error e => .error e
             | .ok (c, s1) =>
               match soMapDCtoIn s1 nInode c with
               | .error e => .error e
               | .ok s2 =>
                 .ok (true, { p_inode with i2 := c, clucount := p_inode.clucount + 1 }, s2)
           else .ok (false, p_inode, s) : Except Nat (Bool × SOInode × FSState)) with
    | .error e => .error e
    | .ok (iflagSI, ino1, s2) =>
    match soLoadRefClust s2 (s2.sb.dzone_start + ino1.i2 * BLOCKS_PER_CLUSTER) with
    | .error e => .error e
    | .ok _ =>
    let s3 := if iflagSI then { s2 with dz := upd s2.dz ino1.i2 (blankRefs (s2.dz ino1.i2)) }
              else s2
    let kSI := (clustInd - N_DIRECT - RPC) / RPC
    let refSI0 := (s3.dz ino1.i2).ref kSI
    match (if refSI0 = NULL_CLUSTER then
             match soAllocDataCluster s3 with
             | .error e => .error e
             | .ok (c, s4) =>
               match soLoadRefClust s4 (s4.sb.dzone_start + ino1.i2 * BLOCKS_PER_CLUSTER) with
               | .error e => .error e
               | .ok _ =>
               let cl := s4.dz ino1.i2
               let clA := { cl with ref := upd cl.ref kSI c }
               let s5 := { s4 with dz := upd s4.dz ino1.i2 clA }
               match soMapDCtoIn s5 nInode c with
               | .error e => .error e
               | .ok s6 =>
                 .ok (true, c, { ino1 with clucount := ino1.clucount + 1 }, s6)
           else .ok (false, refSI0, ino1, s3) : Except Nat (Bool × Nat × SOInode × FSState)) with
    | .error e => .error e
    | .ok (iflagD, refSI, ino2, s6) =>
    match soLoadRefClust s6 (s6.sb.dzone_start + refSI * BLOCKS_PER_CLUSTER) with
    | .error e => .error e
    | .ok _ =>
    let s7 := if iflagD then { s6 with dz := upd s6.dz refSI (blankRefs (s6.dz refSI)) }
              else s6
    let kD := clustInd - N_DIRECT - RPC * (kSI + 1)
    if (s7.dz refSI).ref kD ≠ NULL_CLUSTER then .error EDCARDYIL
    else
    match soAllocDataCluster s7 with
    | .error e => .error e
    | .ok (c2, s8) =>
    match soLoadRefClust s8 (s8.sb.dzone_start + refSI * BLOCKS_PER_CLUSTER) with
    | .error e => .error e
    | .ok _ =>
    let cl := s8.dz refSI
    let s9 := { s8 with dz := upd s8.dz refSI ({ cl with ref := upd cl.ref kD c2 }) }
    let ino3 := { ino2 with clucount := ino2.clucount + 1 }
    match soMapDCtoIn s9 nInode c2 with
    | .error e => .error e
    | .ok s10 => .ok (some c2, ino3, s10)
  else if op = GET then
    if outIsNull then .error EIO
    else if p_inode.i2 = NULL_CLUSTER then .ok (some NULL_CLUSTER, p_inode, s)
    else
    match soLoadRefClust s (s.sb.dzone_start + p_inode.i2 * BLOCKS_PER_CLUSTER) with
    | .error e => .error e
    | .ok _ =>
    let kSI := (clustInd - N_DIRECT - RPC) / RPC
    if (s.dz p_inode.i2).ref kSI = NULL_CLUSTER then .ok (some NULL_CLUSTER, p_inode, s)
    else
    match soLoadRefClust s (s.sb.dzone_start + (s.dz p_inode.i2).ref kSI * BLOCKS_PER_CLUSTER) with
    | .error e => .error e
    | .ok _ =>
    let kD := clustInd - N_DIRECT - RPC * (kSI + 1)
    if (s.dz ((s.dz p_inode.i2).ref kSI)).ref kD = NULL_CLUSTER then
      .ok (some NULL_CLUSTER, p_inode, s)
    else .ok (some ((s.dz ((s.dz p_inode.i2).ref kSI)).ref kD), p_inode, s)
  else
    if p_inode.i2 = NULL_CLUSTER then .error EDCNOTIL
    else
    match soLoadRefClust s (s.sb.dzone_start + p_inode.i2 * BLOCKS_PER_CLUSTER) with
    | .error e => .error e
    | .ok _ =>
    let kSI := (clustInd - N_DIRECT - RPC) / RPC
    let refSI := (s.dz p_inode.i2).ref kSI
    if refSI = NULL_CLUSTER then .error EDCNOTIL
    else
    match soLoadRefClust s (s.sb.dzone_start + refSI * BLOCKS_PER_CLUSTER) with
    | .error e => .error e
    | .ok _ =>
    let kD := clustInd - N_DIRECT - RPC * (kSI + 1)
    if (s.dz refSI).ref kD = NULL_CLUSTER then .error EDCNOTIL
    else
    match (if op = FREE ∨ op = FREE_CLEAN then soFreeDataCluster s ((s.dz refSI).ref kD)
           else .ok s : Except Nat FSState) with
    | .error e => .error e
    | .ok s1 =>
    if op = CLEAN ∨ op = FREE_CLEAN then
      match soUnmapDCtoIn s1 nInode ((s1.dz refSI).ref kD) with
      | .error e => .error e
      | .ok s2 =>
      let cl := s2.dz refSI
      let s3 := { s2 with dz := upd s2.dz refSI ({ cl with ref := upd cl.ref kD NULL_CLUSTER }) }
      let ino1 := { p_inode with clucount := p_inode.clucount - 1 }
      match (if ∀ i ∈ List.range RPC, (s3.dz refSI).ref i = NULL_CLUSTER then
               match soFreeDataCluster s3 ((s3.dz ino1.i2).ref kSI) with
               | .error e => .error e
               | .ok s4 =>
               match soUnmapDCtoIn s4 nInode ((s4.dz ino1.i2).ref kSI) with
               | .error e => .error e
               | .ok s5 =>
                 let cl2 := s5.dz ino1.i2
                 .ok ({ ino1 with clucount := ino1.clucount - 1 },
                      { s5 with dz := upd s5.dz ino1.i2 ({ cl2 with ref := upd cl2.ref kSI NULL_CLUSTER }) })
             else .ok (ino1, s3) : Except Nat (SOInode × FSState)) with
      | .error e => .error e
      | .ok (ino2, s6) =>
      match soLoadRefClust s6 (s6.sb.dzone_start + ino2.i2 * BLOCKS_PER_CLUSTER) with
      | .error e => .error e
      | .ok _ =>
      if ∀ i ∈ List.range RPC, (s6.dz ino2.i2).ref i = NULL_CLUSTER then
        match soFreeDataCluster s6 ino2.i2 with
        | .error e => .error e
        | .ok s7 =>
        match soUnmapDCtoIn s7 nInode ino2.i2 with
        | .error e => .error e
        | .ok s8 =>
          .ok (none, { ino2 with i2 := NULL_CLUSTER, clucount := ino2.clucount - 1 }, s8)
      else .ok (none, ino2, s6)
    else .ok (none, p_inode, s1)

/-- soHandleFileCluster: dispatch one file-cluster operation to the
direct, single-indirect or double-indirect handler.  On a handler error
the source still persists the superblock before returning the status;
the Except embedding keeps only the error code. -/
def soHandleFileCluster (s : FSState) (nInode clustInd op : Nat) (outIsNull : Bool) :
    Except Nat (Option Nat × FSState) :=
  if nInode > s.sb.itotal then .error EINVAL
  else if op ≠ GET ∧ op ≠ ALLOC ∧ op ≠ FREE ∧ op ≠ FREE_CLEAN ∧ op ≠ CLEAN then
    .error EINVAL
  else if outIsNull ∧ (op = GET ∨ op = ALLOC) then .error EINVAL
  else if ¬ outIsNull ∧ (op = FREE ∨ op = FREE_CLEAN ∨ op = CLEAN) then .error EINVAL
  else
  let inode_status := if op = CLEAN then 1 else 0
  match soReadInode s nInode inode_status with
  | .error e => .error e
  | .ok (p_inode, s1) =>
  match (if op ≠ CLEAN then soQCheckInodeIU s1.sb p_inode
         else soQCheckFDInode s1.sb p_inode) with
  | .error e => .error e
  | .ok _ =>
  match (if clustInd < N_DIRECT then soHandleDirect s1 nInode p_inode clustInd op
         else if clustInd < N_DIRECT + RPC then
           soHandleSIndirect s1 nInode p_inode clustInd op outIsNull
         else soHandleDIndirect s1 nInode p_inode clustInd op outIsNull) with
  | .error e => .error e
  | .ok (out, ino1, s2) =>
  match (if op ≠ GET then soWriteInode s2 ino1 nInode inode_status
         else .ok s2 : Except Nat FSState) with
  | .error e => .error e
  | .ok s3 => .ok (out, s3)

/-! ### soHandleFileClusters (sofs_ifuncs_3/soHandleFileClusters.c)

The reference arrays the loops walk are copies taken when the cluster
is loaded (ref1 = *p_ref, ref2 = *p_ref in the source), so they are
captured as function values and do not see later mutations. -/

/-- Inner loop of the double-indirect walk. -/
def hfcsInner2 (nInode op idx : Nat) (ref2 : Nat → Nat) :
    Nat → Nat → FSState → Except Nat FSState
  | 0, _, s => .ok s
  | rem + 1, offset, s =>
    if ref2 offset ≠ NULL_CLUSTER then
      match soHandleFileCluster s nInode (offset + idx * RPC + RPC + N_DIRECT) op true with
      | .error e => .error e
      | .ok (_, s1) => hfcsInner2 nInode op idx ref2 rem (offset + 1) s1
    else hfcsInner2 nInode op idx ref2 rem (offset + 1) s

/-- Outer loop of the double-indirect walk. -/
def hfcsOuter2 (nInode op : Nat) (ref1 : Nat → Nat) :
    Nat → Nat → Nat → FSState → Except Nat FSState
  | 0, _, _, s => .ok s
  | rem + 1, idx, offset, s =>
    if ref1 idx ≠ NULL_CLUSTER then
      match soLoadRefClust s (s.sb.dzone_start + ref1 idx * BLOCKS_PER_CLUSTER) with
      | .error e => .error e
      | .ok _ =>
        match hfcsInner2 nInode op idx ((s.dz (ref1 idx)).ref) (RPC - offset) offset s with
        | .error e => .error e
        | .ok s1 => hfcsOuter2 nInode op ref1 rem (idx + 1) 0 s1
    else hfcsOuter2 nInode op ref1 rem (idx + 1) 0 s

/-- Loop of the single-indirect walk. -/
def hfcsLoop1 (nInode op : Nat) (ref1 : Nat → Nat) :
    Nat → Nat → FSState → Except Nat FSState
  | 0, _, s => .ok s
  | rem + 1, idx, s =>
    if ref1 idx ≠ NULL_CLUSTER then
      match soHandleFileCluster s nInode (idx + N_DIRECT) op true with
      | .error e => .error e
      | .ok (_, s1) => hfcsLoop1 nInode op ref1 rem (idx + 1) s1
    else hfcsLoop1 nInode op ref1 rem (idx + 1) s

/-- Loop of the direct walk. -/
def hfcsDirect (nInode op : Nat) (d : Nat → Nat) :
    Nat → Nat → FSState → Except Nat FSState
  | 0, _, s => .ok s
  | rem + 1, k, s =>
    if d k ≠ NULL_CLUSTER then
      match soHandleFileCluster s nInode k op true with
      | .error e => .error e
      | .ok (_, s1) => hfcsDirect nInode op d rem (k + 1) s1
    else hfcsDirect nInode op d rem (k + 1) s

/-- soHandleFileClusters: apply FREE / FREE_CLEAN / CLEAN to every
allocated cluster of a file from a starting index upward, walking the
double-indirect chain, then the single-indirect chain, then the direct
references.  Any other operation code is rejected with EINVAL. -/
def soHandleFileClusters (s : FSState) (nInode clustIndIn op : Nat) :
    Except Nat FSState :=
  if nInode ≥ s.sb.itotal then .error EINVAL
  else if op ≠ FREE ∧ op ≠ FREE_CLEAN ∧ op ≠ CLEAN then .error EINVAL
  else
  match soReadInode s nInode (if op ≠ CLEAN then IUIN else FDIN) with
  | .error e => .error e
  | .ok (p_inode, s1) =>
  if clustIndIn ≥ MAX_FILE_CLUSTERS then .error EINVAL
  else
  match (if p_inode.i2 ≠ NULL_CLUSTER then
           match soLoadRefClust s1 (s1.sb.dzone_start + p_inode.i2 * BLOCKS_PER_CLUSTER) with
           | .error e => .error e
           | .ok _ =>
             let ref1 := (s1.dz p_inode.i2).ref
             let idx0 := if clustIndIn ≥ N_DIRECT + RPC then
                 (clustIndIn - (N_DIRECT + RPC)) / RPC else 0
             let off0 := if clustIndIn ≥ N_DIRECT + RPC then
                 (clustIndIn - (N_DIRECT + RPC)) % RPC else 0
             hfcsOuter2 nInode op ref1 (RPC - idx0) idx0 off0 s1
         else .ok s1 : Except Nat FSState) with
  | .error e => .error e
  | .ok s2 =>
  match (if p_inode.i1 ≠ NULL_CLUSTER ∧ clustIndIn < N_DIRECT + RPC then
           match soLoadRefClust s2 (s2.sb.dzone_start + p_inode.i1 * BLOCKS_PER_CLUSTER) with
           | .error e => .error e
           | .ok _ =>
             let ref1 := (s2.dz p_inode.i1).ref
             let idx0 := if clustIndIn ≥ N_DIRECT then clustIndIn - N_DIRECT else 0
             hfcsLoop1 nInode op ref1 (RPC - idx0) idx0 s2
         else .ok s2 : Except Nat FSState) with
  | .error e => .error e
  | .ok s3 =>
  if clustIndIn < N_DIRECT then
    hfcsDirect nInode op p_inode.d (N_DIRECT - clustIndIn) clustIndIn s3
  else .ok s3

/-! ### soReadFileCluster (unnamed part_003) and soWriteFileCluster
(sofs_ifuncs_3/soWriteFileCluster.c) -/

/-- soReadFileCluster: read the cluster at a logical index of a file; a
hole reads as zeros.  The source checks its arguments against a
superblock pointer it has not yet initialized; the embedding reads the
loaded superblock. -/
def soReadFileCluster (s : FSState) (nInode clustInd : Nat) :
    Except Nat (SODataClust × FSState) :=
  if nInode ≥ s.sb.itotal then .error EINVAL
  else if clustInd ≥ MAX_FILE_CLUSTERS then .error EINVAL
  else
  match soQCheckInodeIU s.sb (s.itable nInode) with
  | .error e => .error e
  | .ok _ =>
  match soHandleFileCluster s nInode clustInd GET false with
  | .error e => .error e
  | .ok (out, s1) =>
  match out with
  | some v => if v = NULL_CLUSTER then .ok (zeroClust, s1) else .ok (s1.dz v, s1)
  | none => .error EIO

/-- soWriteFileCluster: write a buffer to the cluster at a logical
index of a file, allocating the cluster when the slot is empty. -/
def soWriteFileCluster (s : FSState) (nInode clustInd : Nat) (buff : SODataClust) :
    Except Nat FSState :=
  if nInode ≥ s.sb.itotal ∨ clustInd ≥ MAX_FILE_CLUSTERS then .error EINVAL
  else if (s.itable nInode).mode = INODE_FREE then .error EINVAL
  else
  match soHandleFileCluster s nInode clustInd GET false with
  | .error e => .error e
  | .ok (out, s1) =>
  match (if out.getD NULL_CLUSTER = NULL_CLUSTER then
           match soHandleFileCluster s1 nInode clustInd ALLOC false with
           | .error e => .error e
           | .ok (out2, s2) => .ok (out2.getD NULL_CLUSTER, s2)
         else .ok (out.getD NULL_CLUSTER, s1) : Except Nat (Nat × FSState)) with
  | .error e => .error e
  | .ok (nLogicalDC, s2) => .ok { s2 with dz := upd s2.dz nLogicalDC buff }

/-! ### C-string helpers for the directory layer

A name argument is a list of bytes without the terminating zero. -/

/-- The bytes of a C string up to the terminator. -/
def cstr (l : List Nat) : List Nat := l.takeWhile (fun b => b ≠ 0)

/-- strlen. -/
def cstrlen (l : List Nat) : Nat := (cstr l).length

/-- strcmp(field, eName) == 0, for a stored name field read byte by
byte and an argument without embedded zeros. -/
def nameEqB (f : Nat → Nat) (l : List Nat) : Bool :=
  ((List.range l.length).all fun i => f i == l.getD i 0) && (f l.length == 0)

/-- strncpy of a name into a fixed MAX_NAME + 1 field (zero padded). -/
def strncpyName (l : List Nat) : Nat → Nat :=
  fun i => if i < l.length then l.getD i 0 else 0

/-! ### soGetDirEntryByName (sofs_ifuncs_4/soGetDirEntryByName.c) -/

/-- Result of soGetDirEntryByName: the status is 0 on success and the
positive errno otherwise (the source returns its negation); the output
fields hold what the source wrote through the output pointers, which it
also does on the not-found path. -/
structure GDEOut where
  status : Nat
  nInodeEnt : Option Nat
  idx : Option Nat
  st : FSState

/-- Inner scan of one directory cluster: find a match or remember the
first entry whose first two name bytes are zero.  Returns the match (if
any) and the updated remembered index. -/
def gdeInner (de : Nat → SODirEntry) (eName : List Nat) (i : Nat) :
    Nat → Nat → Nat → (Option (Nat × Nat)) × Nat
  | 0, _, indice => (none, indice)
  | rem + 1, j, indice =>
    let e := de j
    if e.name 0 = 0 ∧ e.name 1 = 0 then
      gdeInner de eName i rem (j + 1)
        (if indice = 4294967295 then i * DPC + j else indice)
    else if nameEqB e.name eName then (some (e.nInode, i * DPC + j), indice)
    else gdeInner de eName i rem (j + 1) indice

/-- Outer scan over the directory clusters, threading the state through
the cluster reads. -/
def gdeOuter (nInodeDir : Nat) (eName : List Nat) :
    Nat → Nat → Nat → FSState → Except Nat ((Option (Nat × Nat)) × Nat × FSState)
  | 0, _, indice, s => .ok (none, indice, s)
  | rem + 1, i, indice, s =>
    match soReadFileCluster s nInodeDir i with
    | .error e => .error e
    | .ok (clust, s1) =>
      match gdeInner clust.de eName i DPC 0 indice with
      | (some hit, indice1) => .ok (some hit, indice1, s1)
      | (none, indice1) => gdeOuter nInodeDir eName rem (i + 1) indice1 s1

/-- soGetDirEntryByName: locate a directory entry by name; on no match
the outputs are NULL_INODE and the remembered index of the first entry
with two leading zero name bytes, or the final value of the inner loop
counter (DPC) when none was remembered.  When the directory has no
clusters that counter is never written by the source (an uninitialized
local); the embedding returns 0 for it. -/
def soGetDirEntryByName (s : FSState) (nInodeDir : Nat) (eName : List Nat) : GDEOut :=
  if 47 ∈ cstr eName then { status := EINVAL, nInodeEnt := none, idx := none, st := s }
  else if cstrlen eName = 0 then { status := EINVAL, nInodeEnt := none, idx := none, st := s }
  else if cstrlen eName > MAX_NAME then
    { status := ENAMETOOLONG, nInodeEnt := none, idx := none, st := s }
  else if nInodeDir ≥ s.sb.itotal then
    { status := EINVAL, nInodeEnt := none, idx := none, st := s }
  else
  match soReadInode s nInodeDir IUIN with
  | .error e => { status := e, nInodeEnt := none, idx := none, st := s }
  | .ok (inode, s1) =>
  if inode.mode &&& INODE_TYPE_MASK ≠ INODE_DIR then
    { status := ENOTDIR, nInodeEnt := none, idx := none, st := s1 }
  else
  match soAccessGranted s1 nInodeDir X with
  | .error e => { status := e, nInodeEnt := none, idx := none, st := s1 }
  | .ok (_, s2) =>
  match soQCheckDirCont s2.sb inode with
  | .error e => { status := e, nInodeEnt := none, idx := none, st := s2 }
  | .ok _ =>
  let nclusters := inode.size / (DPC * (MAX_NAME + 1 + 4))
  match gdeOuter nInodeDir eName nclusters 0 4294967295 s2 with
  | .error e => { status := e, nInodeEnt := none, idx := none, st := s2 }
  | .ok (some (nI, idxHit), _, s3) =>
    { status := 0, nInodeEnt := some nI, idx := some idxHit, st := s3 }
  | .ok (none, indice, s3) =>
    { status := ENOENT, nInodeEnt := some NULL_INODE,
      idx := some (if indice = 4294967295 then (if nclusters = 0 then 0 else DPC)
                   else indice),
      st := s3 }

/-! ### soRemDetachDirEntry (unnamed part_000) and
soAddAttDirEntry (unnamed part_002) -/

/-- Modelled from the spec: check that a directory is empty, meaning no
entry beyond its own first two (dot and dot-dot) is in use
(soCheckDirectoryEmptiness is not among the sources).  Returns 0 when
empty, 1 otherwise; the scan walks the clusters reachable through the
direct reference list of the inode. -/
def soCheckDirectoryEmptiness (s : FSState) (nInodeDir : Nat) : Nat :=
  let ino := s.itable nInodeDir
  let nclusters := ino.size / (DPC * (MAX_NAME + 1 + 4))
  if (List.range nclusters).all (fun i =>
       (List.range DPC).all (fun j =>
         if i = 0 ∧ j < 2 then true
         else
           let c := ino.d i
           if c = NULL_CLUSTER then true
           else
             let e := (s.dz c).de j
             !(e.name 0 != 0 && e.nInode != NULL_INODE)))
  then 0 else 1

/-- soRemDetachDirEntry: remove (REM) or detach (DETACH) a directory
entry.  The source passes its op argument where soReadInode,
soWriteInode and soHandleFileClusters expect a status or an operation
code of a different enumeration, and ignores the status of its two
soWriteInode calls (embedded as keeping the old state on failure). -/
def soRemDetachDirEntry (s : FSState) (nInodeDir : Nat) (eName : List Nat) (op : Nat) :
    Except Nat FSState :=
  if cstr eName = [46] ∨ cstr eName = [46, 46] then .error EPERM
  else
  match soReadInode s nInodeDir op with
  | .error e => .error e
  | .ok (inodeDir, s1) =>
  if inodeDir.mode &&& INODE_TYPE_MASK ≠ INODE_DIR then .error ENOTDIR
  else
  match soAccessGranted s1 nInodeDir W with
  | .error e => .error e
  | .ok (_, s2) =>
  match soAccessGranted s2 nInodeDir X with
  | .error e => .error e
  | .ok (_, s3) =>
  let g := soGetDirEntryByName s3 nInodeDir eName
  if g.status ≠ 0 then .error g.status
  else
  let nInodeEnt := g.nInodeEnt.getD 0
  let index0 := g.idx.getD 0
  if nInodeEnt = NULL_INODE then .error ENOENT
  else
  let i := index0 / DPC
  let index := index0 % DPC
  match soReadFileCluster g.st nInodeDir i with
  | .error e => .error e
  | .ok (cluster, s4) =>
  match soReadInode s4 nInodeEnt op with
  | .error e => .error e
  | .ok (inodeEnt, s5) =>
  match (if op = REM then
           (if inodeEnt.mode &&& INODE_DIR ≠ 0 ∧ soCheckDirectoryEmptiness s5 nInodeEnt ≠ 0
            then .error ENOTEMPTY
            else
              let e := cluster.de index
              let e1 := { e with name := fun k =>
                            if k = MAX_NAME then e.name 0
                            else if k = 0 then 0 else e.name k }
              .ok ({ cluster with de := upd cluster.de index e1 }, s5))
         else if op = DETACH then
           let e := cluster.de index
           let e1 : SODirEntry :=
             { name := fun k => if k ≤ MAX_NAME then 0 else e.name k,
               nInode := NULL_CLUSTER }
           let cluster1 := { cluster with de := upd cluster.de index e1 }
           (if inodeEnt.mode &&& INODE_DIR ≠ 0 then
              match soReadFileCluster s5 nInodeEnt 0 with
              | .error e => .error e
              | .ok (_, s6) => .ok (cluster1, s6)
            else .ok (cluster1, s5))
         else .ok (cluster, s5) : Except Nat (SODataClust × FSState)) with
  | .error e => .error e
  | .ok (cluster1, s6) =>
  let entRc := inodeEnt.refcount - 1 -
    (if inodeEnt.mode &&& INODE_DIR ≠ 0 ∧ op = REM then 1 else 0)
  let inodeEnt1 := { inodeEnt with refcount := entRc }
  let inodeDir1 := { inodeDir with refcount :=
    inodeDir.refcount - (if inodeEnt.mode &&& INODE_DIR ≠ 0 then 1 else 0) }
  let s7 := match soWriteInode s6 inodeEnt1 nInodeEnt op with
            | .ok t => t
            | .error _ => s6
  let s8 := match soWriteInode s7 inodeDir1 nInodeDir op with
            | .ok t => t
            | .error _ => s7
  match (if op = REM ∧ (inodeEnt1.refcount = 0 ∨
           (inodeEnt1.refcount = 1 ∧ inodeEnt1.mode &&& INODE_DIR ≠ 0)) then
           match soHandleFileClusters s8 nInodeEnt 0 op with
           | .error e => .error e
           | .ok s9 => soFreeInode s9 nInodeEnt
         else .ok s8 : Except Nat FSState) with
  | .error e => .error e
  | .ok s10 => soWriteFileCluster s10 nInodeDir i cluster1

/-- soAddAttDirEntry: add a generic entry (ADD) or attach a directory
entry (ATTACH).  The dot and dot-dot rejection in the source compares C
string pointers, which is never true and is therefore absent here; the
ATTACH branch rejects a directory target with EIUININVAL and proceeds
for any other target whose size is not zero (returning the literal -1,
numerically -EPERM, for size 0). -/
def soAddAttDirEntry (s : FSState) (nInodeDir : Nat) (eName : List Nat)
    (nInodeEnt op : Nat) : Except Nat FSState :=
  if nInodeDir ≥ s.sb.itotal ∨ nInodeEnt ≥ s.sb.itotal then .error EINVAL
  else if cstrlen eName > MAX_NAME then .error ENAMETOOLONG
  else if 47 ∈ cstr eName then .error EINVAL
  else
  match soReadInode s nInodeDir IUIN with
  | .error e => .error e
  | .ok (inodedir, s1) =>
  if op ≠ ADD ∧ op ≠ ATTACH then .error EINVAL
  else
  match soAccessGranted s1 nInodeDir X with
  | .error e => .error e
  | .ok (_, s2) =>
  match (match soAccessGranted s2 nInodeDir W with
         | .error e => if e = EACCES then .error EPERM else .error e
         | .ok (_, t) => .ok t : Except Nat FSState) with
  | .error e => .error e
  | .ok s3 =>
  if inodedir.mode &&& INODE_TYPE_MASK ≠ INODE_DIR then .error ENOTDIR
  else if inodedir.size = MAX_FILE_SIZE then .error EFBIG
  else
  match soReadInode s3 nInodeEnt IUIN with
  | .error e => .error e
  | .ok (inodeent, s4) =>
  if inodedir.refcount = 65535 ∨ inodeent.refcount = 65535 then .error EMLINK
  else
  let g := soGetDirEntryByName s4 nInodeDir eName
  if g.status ≠ ENOENT then .error EEXIST
  else
  let indice := g.idx.getD 0
  let indicecluster := indice / DPC
  let idir := indice % DPC
  match (if op = ADD then
           if inodeent.mode &&& INODE_TYPE_MASK = INODE_DIR then
             let clust1 : SODataClust :=
               { ref := zeroClust.ref, data := zeroClust.data,
                 de := fun j =>
                   if j = 0 then { name := strncpyName [46], nInode := nInodeEnt }
                   else if j = 1 then { name := strncpyName [46, 46], nInode := nInodeDir }
                   else { name := fun _ => 0, nInode := NULL_INODE } }
             match soWriteFileCluster g.st nInodeEnt 0 clust1 with
             | .error e => .error e
             | .ok s5 =>
             match soReadInode s5 nInodeEnt IUIN with
             | .error e => .error e
             | .ok (inodeent1, s6) =>
               .ok ({ inodedir with refcount := inodedir.refcount + 1 },
                    { inodeent1 with size := BSLPC, refcount := inodeent1.refcount + 2 },
                    s6)
           else if inodeent.mode &&& INODE_TYPE_MASK = INODE_SYMLINK ∨
                   inodeent.mode &&& INODE_TYPE_MASK = INODE_FILE then
             let inodeent1 := { inodeent with refcount := inodeent.refcount + 1 }
             match soWriteInode g.st inodeent1 nInodeEnt IUIN with
             | .error e => .error e
             | .ok s5 => .ok (inodedir, inodeent1, s5)
           else .ok (inodedir, inodeent, g.st)
         else
           if inodeent.mode &&& INODE_TYPE_MASK = INODE_DIR then .error EIUININVAL
           else if inodeent.size = 0 then .error EPERM
           else
           match soReadFileCluster g.st nInodeEnt 0 with
           | .error e => .error e
           | .ok (clust1, s5) =>
           let e1 := { clust1.de 1 with nInode := nInodeDir }
           match soWriteFileCluster s5 nInodeEnt 0
                   ({ clust1 with de := upd clust1.de 1 e1 }) with
           | .error e => .error e
           | .ok s6 =>
           match soReadInode s6 nInodeEnt IUIN with
           | .error e => .error e
           | .ok (inodeent1, s7) =>
           let inodedir1 := { inodedir with refcount := inodedir.refcount + 1 }
           let inodeent2 := { inodeent1 with refcount := inodeent1.refcount + 2 }
           match soWriteInode s7 inodedir1 nInodeDir IUIN with
           | .error e => .error e
           | .ok s8 =>
           match soWriteInode s8 inodeent2 nInodeEnt IUIN with
           | .error e => .error e
           | .ok s9 => .ok (inodedir1, inodeent2, s9)
         : Except Nat (SOInode × SOInode × FSState)) with
  | .error e => .error e
  | .ok (inodedir1, inodeent1, sA) =>
  match soReadFileCluster sA nInodeDir indicecluster with
  | .error e => .error e
  | .ok (clust2, sB) =>
  let (clust2a, inodedir2) :=
    if idir = 0 then
      ({ clust2 with de := fun j =>
           if j = 0 then clust2.de 0
           else if j < DPC then { name := fun _ => 0, nInode := NULL_INODE }
           else clust2.de j },
       { inodedir1 with size := inodedir1.size + BSLPC })
    else (clust2, inodedir1)
  let eNew : SODirEntry := { name := strncpyName eName, nInode := nInodeEnt }
  let clust2b := { clust2a with de := upd clust2a.de idir eNew }
  match soWriteInode sB inodedir2 nInodeDir IUIN with
  | .error e => .error e
  | .ok sC =>
  match soWriteFileCluster sC nInodeDir indicecluster clust2b with
  | .error e => .error e
  | .ok sD => soWriteInode sD inodeent1 nInodeEnt IUIN

/-! ### The formatter (mkfs13/mkfs_sofs13.c)

The fill-in functions are embedded over the state record; the table
sizes arrive as parameters exactly as fillInSuperBlock receives them.
Loops whose iterations touch disjoint slots (the inode table, the
cluster-to-inode table) are embedded per index; the bitmap loop is
sequential because consecutive bits share bytes, and is embedded as a
fold. -/

def PRU : Nat := 0

/-- fillInSuperBlock: all superblock fields as the formatter sets them
(the volume name and the 0xEE padding are not modelled).  The magic
number is left at 0xFFFF; main sets it to MAGIC_NUMBER at the end. -/
def fillInSuperBlock (ntotal itotal ctinmblktotal fcblktotal nclusttotal : Nat) :
    SOSuperBlock :=
  { magic := 65535
    version := VERSION_NUMBER
    ntotal := ntotal
    mstat := PRU
    itable_start := 1
    itable_size := itotal / IPB
    itotal := itotal
    ifree := itotal - 1
    ihead := 1
    itail := itotal - 1
    ciutable_start := 1 + itotal / IPB
    ciutable_size := ctinmblktotal
    dzone_retriev := { cache_idx := DZONE_CACHE_SIZE, cache := fun _ => NULL_CLUSTER }
    dzone_insert := { cache_idx := 0, cache := fun _ => NULL_CLUSTER }
    fctable_start := 1 + itotal / IPB + ctinmblktotal
    fctable_size := fcblktotal
    fctable_pos := 1
    dzone_start := 1 + itotal / IPB + ctinmblktotal + fcblktotal
    dzone_total := nclusttotal
    dzone_free := nclusttotal - 1 }

/-- fillInINT, per inode: the loop body of the formatter writes each
inode of each block independently, so it is embedded as a function of
the inode number.  The general free-inode initialization runs first and
the node 0 / node 1 / node itotal - 1 special cases override it in the
order of the source; the list pointers use 32-bit arithmetic (node - 1
underflows to NULL_INODE at node 0). -/
def fillInINTInode (itotal uid gid now node : Nat) : SOInode :=
  let base : SOInode :=
    { mode := INODE_FREE, refcount := 0, owner := 0, group := 0, size := 0,
      clucount := 0,
      vD1 := (node + 4294967295) % 4294967296,
      vD2 := (node + 1) % 4294967296,
      d := fun _ => NULL_CLUSTER, i1 := NULL_CLUSTER, i2 := NULL_CLUSTER }
  let b0 := if node = 0 then
      { base with
        mode := INODE_RD_OTH ||| INODE_WR_OTH ||| INODE_EX_OTH |||
                INODE_RD_GRP ||| INODE_WR_GRP ||| INODE_EX_GRP |||
                INODE_RD_USR ||| INODE_WR_USR ||| INODE_EX_USR ||| INODE_DIR,
        refcount := 2, owner := uid, group := gid, size := CLUSTER_SIZE,
        clucount := 1, vD1 := now, vD2 := now, d := upd base.d 0 0 }
    else base
  let b1 := if node = 1 then
      { b0 with vD1 := NULL_INODE, vD2 := (node + 1) % 4294967296 } else b0
  if node = itotal - 1 then
    { b1 with vD1 := (node + 4294967295) % 4294967296, vD2 := NULL_INODE } else b1

/-- fillInINT over the state: every inode of the itable_size blocks. -/
def fillInINT (s : FSState) : FSState :=
  { s with itable := fun node =>
      if node < s.sb.itable_size * IPB then
        fillInINTInode s.sb.itotal s.uid s.gid s.now node
      else s.itable node }

/-- fillInCIT: entry 0 becomes inode 0, entries 1 to dzone_total - 1
become NULL_INODE, and the remaining slots of the last touched block
are written 0xFFFFFFFE; blocks beyond it are untouched.  The loop
iterations touch disjoint slots, so the table is embedded per entry. -/
def fillInCIT (s : FSState) : FSState :=
  let lastEnd := ((s.sb.dzone_total - 1) / RPB + 1) * RPB
  { s with ciu := fun r =>
      if r = 0 then 0
      else if r < s.sb.dzone_total then NULL_INODE
      else if r < lastEnd then 4294967294
      else s.ciu r }

/-- fillInRootDir: cluster 0 holds dot and dot-dot, both referring to
inode 0, followed by DPC - 2 clean-empty entries. -/
def rootDirClust : SODataClust :=
  { ref := zeroClust.ref, data := zeroClust.data,
    de := fun j =>
      if j = 0 then { name := strncpyName [46], nInode := 0 }
      else if j = 1 then { name := strncpyName [46, 46], nInode := 0 }
      else { name := strncpyName [], nInode := NULL_INODE } }

/-- fillInRootDir applied to the state. -/
def fillInRootDir (s : FSState) : FSState :=
  { s with dz := upd s.dz 0 rootDirClust }

/-- One iteration of the fillInBitMapT loop for cluster i of 1 to
dzone_total - 1: zero the whole bitmap block when i is its first bit,
then set bit i; in zero mode also zero-fill data cluster i. -/
def fibmStep (zero : Bool) (s : FSState) (i : Nat) : FSState :=
  let bloco := i / BITS_PER_BLOCK
  let byteoff := (i % BITS_PER_BLOCK) / 8
  let bitoff := i % BITS_PER_BLOCK % 8
  let bm1 := if byteoff = 0 ∧ bitoff = 0 then
      (fun a => if bloco * BLOCK_SIZE ≤ a ∧ a < (bloco + 1) * BLOCK_SIZE then 0 else s.bmap a)
    else s.bmap
  let idx := bloco * BLOCK_SIZE + byteoff
  { s with bmap := upd bm1 idx (byteSet (bm1 idx) (byteMask bitoff)),
           dz := if zero then upd s.dz i zeroClust else s.dz }

/-- The fillInBitMapT loop over i = 1 to dzone_total - 1. -/
def fibmLoop (zero : Bool) : Nat → Nat → FSState → FSState
  | 0, _, s => s
  | rem + 1, i, s => fibmLoop zero rem (i + 1) (fibmStep zero s i)

/-- fillInBitMapT: zero the first bitmap block, write 0x7F into its
first byte (bit 0 of cluster 0 is 0, bits 1 to 7 are 1), then run the
loop that sets the bit of every other cluster. -/
def fillInBitMapT (s : FSState) (zero : Bool) : FSState :=
  let bm0 : Nat → Nat := fun a => if a < BLOCK_SIZE then 0 else s.bmap a
  let s1 := { s with bmap := upd bm0 0 127 }
  fibmLoop zero (s.sb.dzone_total - 1) 1 s1

/-- The formatter main: fill in the superblock, the inode table, the
cluster-to-inode table, the root directory and the bitmap, then set the
magic number.  The init state supplies the untouched storage. -/
def mkfsState (ntotal itotal ctinmblktotal fcblktotal nclusttotal : Nat) (zero : Bool)
    (init : FSState) : FSState :=
  let s0 := { init with
    sb := fillInSuperBlock ntotal itotal ctinmblktotal fcblktotal nclusttotal }
  let s1 := fillInINT s0
  let s2 := fillInCIT s1
  let s3 := fillInRootDir s2
  let s4 := fillInBitMapT s3 zero
  { s4 with sb := { s4.sb with magic := MAGIC_NUMBER } }

/-- A blank storage device and process context, used to instantiate
concrete states. -/
def blankFS (uid gid now : Nat) : FSState :=
  { sb := fillInSuperBlock 0 0 0 0 0
    itable := fun _ => fillInINTInode 0 0 0 0 2
    ciu := fun _ => 0
    bmap := fun _ => 0
    dz := fun _ => zeroClust
    uid := uid, gid := gid, now := now }

/-! ### Concrete states for witnesses and counterexamples

A small device, written out literally so that runs on it evaluate
cheaply: 44 blocks, 8 inodes (1 inode-table block), 1 cluster-to-inode
block, 1 bitmap block, 10 data clusters; cluster 0 holds the root
directory, clusters 1 to 9 are free.  The process has uid = gid = 1000
and the clock reads 5000. -/

/-- The freshly formatted small device (through the formatter model),
kept for cross-checking the formatter claims. -/
def fmtState : FSState := mkfsState 44 8 1 1 10 false (blankFS 1000 1000 5000)

/-- An in-use regular file inode, mode r-------- (0x100), owned by user
1000, with one hard link and no clusters. -/
def exInode1 : SOInode :=
  { mode := INODE_FILE ||| INODE_RD_USR, refcount := 1, owner := 1000, group := 1000,
    size := 0, clucount := 0, vD1 := 7, vD2 := 8,
    d := fun _ => NULL_CLUSTER, i1 := NULL_CLUSTER, i2 := NULL_CLUSTER }

/-- The root-directory inode of the tiny device. -/
def tinyRoot : SOInode :=
  { mode := 511 ||| INODE_DIR, refcount := 2, owner := 1000, group := 1000,
    size := CLUSTER_SIZE, clucount := 1, vD1 := 5000, vD2 := 5000,
    d := upd (fun _ => NULL_CLUSTER) 0 0, i1 := NULL_CLUSTER, i2 := NULL_CLUSTER }

/-- A free-clean inode of the tiny device free list 2 through 7. -/
def tinyFree (n : Nat) : SOInode :=
  { mode := INODE_FREE, refcount := 0, owner := 0, group := 0, size := 0, clucount := 0,
    vD1 := if n = 2 then NULL_INODE else n - 1,
    vD2 := if n = 7 then NULL_INODE else n + 1,
    d := fun _ => NULL_CLUSTER, i1 := NULL_CLUSTER, i2 := NULL_CLUSTER }

/-- The inode table of the tiny device: root, the file exInode1, free
inodes 2 through 7. -/
def tinyItable : Nat → SOInode := fun n =>
  if n = 0 then tinyRoot else if n = 1 then exInode1 else tinyFree n

/-- The superblock of the tiny device. -/
def tinySB : SOSuperBlock :=
  { magic := MAGIC_NUMBER, version := VERSION_NUMBER, ntotal := 44, mstat := PRU,
    itable_start := 1, itable_size := 1, itotal := 8, ifree := 6, ihead := 2, itail := 7,
    ciutable_start := 2, ciutable_size := 1,
    dzone_retriev := { cache_idx := DZONE_CACHE_SIZE, cache := fun _ => NULL_CLUSTER },
    dzone_insert := { cache_idx := 0, cache := fun _ => NULL_CLUSTER },
    fctable_start := 3, fctable_size := 1, fctable_pos := 1,
    dzone_start := 4, dzone_total := 10, dzone_free := 9 }

/-- The bitmap of the tiny device: bit 0 is 0, bits 1 to 9 are 1. -/
def tinyBmap : Nat → Nat := fun a => if a = 0 then 127 else if a = 1 then 192 else 0

/-- The tiny device state. -/
def tinyFS : FSState :=
  { sb := tinySB, itable := tinyItable,
    ciu := fun r => if r = 0 then 0 else NULL_INODE,
    bmap := tinyBmap,
    dz := upd (fun _ => zeroClust) 0 rootDirClust,
    uid := 1000, gid := 1000, now := 5000 }

/-- The buffer soReadInode returns for inode 1 of tinyFS. -/
def rdBuf : SOInode := { exInode1 with vD1 := 5000 }

/-- The state soReadInode leaves for inode 1 of tinyFS. -/
def rdPost : FSState := { tinyFS with itable := upd tinyFS.itable 1 rdBuf }

/-- tinyFS as seen by a root process (uid 0, gid 0). -/
def rootProcState : FSState := { tinyFS with uid := 0, gid := 0 }

/-- exInode1 with owner changed to root. -/
def ownerZeroInode : SOInode := { exInode1 with owner := 0 }

/-- The tiny device with a root-owned r-------- file as inode 1,
accessed by the non-root process uid 1000. -/
def ownerZeroState : FSState :=
  { tinyFS with itable := upd tinyFS.itable 1 ownerZeroInode }

/-- An in-use file inode with three hard links, owner 5 and group 6. -/
def c5Inode : SOInode :=
  { mode := INODE_FILE, refcount := 3, owner := 5, group := 6, size := 0, clucount := 0,
    vD1 := 7, vD2 := 8, d := fun _ => NULL_CLUSTER, i1 := NULL_CLUSTER, i2 := NULL_CLUSTER }

/-- The tiny device with c5Inode as inode 1 and an empty free-inode
list. -/
def c5State : FSState :=
  { tinyFS with
    sb := { tinyFS.sb with ifree := 0, ihead := NULL_INODE, itail := NULL_INODE },
    itable := upd tinyFS.itable 1 c5Inode }

/-- The inode soFreeInode makes of exInode1 when the free list is not
empty: free bit set, owner and group cleared, prev pointing at the old
tail 7. -/
def c5WitInode : SOInode :=
  { exInode1 with vD1 := 7, vD2 := NULL_INODE, owner := 0, group := 0,
                  mode := exInode1.mode ||| INODE_FREE }

/-- The old tail inode of tinyFS relinked to the freed inode 1. -/
def c5WitTail : SOInode := { tinyFS.itable 7 with vD2 := 1 }

/-- The state soFreeInode leaves when freeing inode 1 of tinyFS. -/
def c5WitPost : FSState :=
  { tinyFS with
    itable := upd (upd tinyFS.itable 1 c5WitInode) 7 c5WitTail,
    sb := { tinyFS.sb with itail := 1, ifree := tinyFS.sb.ifree + 1 } }

/-- An in-use directory entry of a full directory: the one-letter name
e, pointing at inode 3. -/
def fullDirEntry : SODirEntry := { name := strncpyName [101], nInode := 3 }

/-- The first cluster of the full two-cluster directory: dot, dot-dot
and 30 in-use entries. -/
def fullClust1 : SODataClust :=
  { ref := zeroClust.ref, data := zeroClust.data,
    de := fun j =>
      if j = 0 then { name := strncpyName [46], nInode := 2 }
      else if j = 1 then { name := strncpyName [46, 46], nInode := 0 }
      else fullDirEntry }

/-- The second cluster of the full directory: 32 in-use entries. -/
def fullClust2 : SODataClust :=
  { ref := zeroClust.ref, data := zeroClust.data, de := fun _ => fullDirEntry }

/-- A directory inode of two clusters (64 entries), all in use, mode
rwx------ for its owner 1000. -/
def bigDirInode : SOInode :=
  { mode := INODE_RD_USR ||| INODE_WR_USR ||| INODE_EX_USR ||| INODE_DIR,
    refcount := 2, owner := 1000, group := 1000, size := 2 * CLUSTER_SIZE,
    clucount := 2, vD1 := 5000, vD2 := 5000,
    d := upd (upd (fun _ => NULL_CLUSTER) 0 1) 1 2,
    i1 := NULL_CLUSTER, i2 := NULL_CLUSTER }

/-- The tiny device carrying the full two-cluster directory as inode 2
(clusters 1 and 2). -/
def c7State : FSState :=
  { tinyFS with
    itable := upd tinyFS.itable 2 bigDirInode,
    dz := upd (upd tinyFS.dz 1 fullClust1) 2 fullClust2 }

/-- A subsidiary directory inode of one cluster (cluster 1). -/
def c6ChildDir : SOInode :=
  { mode := INODE_RD_USR ||| INODE_WR_USR ||| INODE_EX_USR ||| INODE_DIR,
    refcount := 2, owner := 1000, group := 1000, size := CLUSTER_SIZE,
    clucount := 1, vD1 := 5000, vD2 := 5000,
    d := upd (fun _ => NULL_CLUSTER) 0 1, i1 := NULL_CLUSTER, i2 := NULL_CLUSTER }

/-- The contents of the subsidiary directory: its own dot and dot-dot. -/
def c6ChildClust : SODataClust :=
  { ref := zeroClust.ref, data := zeroClust.data,
    de := fun j =>
      if j = 0 then { name := strncpyName [46], nInode := 2 }
      else if j = 1 then { name := strncpyName [46, 46], nInode := 0 }
      else { name := strncpyName [], nInode := NULL_INODE } }

/-- An in-use file inode of one cluster (cluster 2), used as a
non-directory ATTACH target. -/
def c6FileInode : SOInode :=
  { mode := INODE_FILE ||| INODE_RD_USR ||| INODE_WR_USR, refcount := 1,
    owner := 1000, group := 1000, size := CLUSTER_SIZE, clucount := 1,
    vD1 := 5000, vD2 := 5000,
    d := upd (fun _ => NULL_CLUSTER) 0 2, i1 := NULL_CLUSTER, i2 := NULL_CLUSTER }

/-- The tiny device with the subsidiary directory as inode 2 and the
file as inode 3. -/
def c6State : FSState :=
  { tinyFS with
    itable := upd (upd tinyFS.itable 2 c6ChildDir) 3 c6FileInode,
    dz := upd tinyFS.dz 1 c6ChildClust }

/-- The root-directory cluster of the tiny device with the entry b
pointing at the file inode 1 in slot 2. -/
def c2RootClust : SODataClust :=
  { rootDirClust with
    de := upd rootDirClust.de 2 { name := strncpyName [98], nInode := 1 } }

/-- The tiny device whose root directory carries the entry b for the
one-link file inode 1. -/
def c2State : FSState := { tinyFS with dz := upd tinyFS.dz 0 c2RootClust }

/-- A retrieval cache holding the single reference 1 in its last slot. -/
def allocCache : FCNode :=
  { cache_idx := 49, cache := fun k => if k = 49 then 1 else NULL_CLUSTER }

/-- The tiny device with cluster 1 already captured into the retrieval
cache (its bitmap bit cleared accordingly), so that an allocation pops
it without replenishing: bits of clusters 2 to 9 are 1, bits 0 and 1
are 0, dzone_free = 8 bitmap bits + 1 cache entry = 9. -/
def allocReadyState : FSState :=
  { tinyFS with
    sb := { tinyFS.sb with dzone_retriev := allocCache },
    bmap := fun a => if a = 0 then 63 else if a = 1 then 192 else 0 }

/-! ### The free-cluster partition invariant (for the allocator claims)

The three locations that make a cluster free: its bitmap bit, the valid
slots of the retrieval cache (from cache_idx up) and the valid slots of
the insertion cache (below cache_idx). -/

/-- The valid entries of the retrieval cache, in slot order. -/
def retrList (sb : SOSuperBlock) : List Nat :=
  (List.range' sb.dzone_retriev.cache_idx
    (DZONE_CACHE_SIZE - sb.dzone_retriev.cache_idx)).map sb.dzone_retriev.cache

/-- The valid entries of the insertion cache, in slot order. -/
def insList (sb : SOSuperBlock) : List Nat :=
  (List.range sb.dzone_insert.cache_idx).map sb.dzone_insert.cache

/-- The set of clusters below a bound whose bitmap bit is 1. -/
def bmapFreeT (T : Nat) (bm : Nat → Nat) : Finset Nat :=
  (Finset.range T).filter (fun c => bmBit bm c)

/-- The free-cluster bookkeeping invariant over the superblock and the
bitmap: the cache indices are in bounds, the two cache lists hold
distinct in-range clusters whose bitmap bits are 0, the two lists are
disjoint, and the bitmap-free count plus the two cache populations
equals dzone_free. -/
def DzInvSB (sb : SOSuperBlock) (bm : Nat → Nat) : Prop :=
  sb.dzone_retriev.cache_idx ≤ DZONE_CACHE_SIZE ∧
  sb.dzone_insert.cache_idx ≤ DZONE_CACHE_SIZE ∧
  (retrList sb).Nodup ∧ (insList sb).Nodup ∧
  (∀ c ∈ retrList sb, c < sb.dzone_total ∧ ¬ bmBit bm c ∧ c ∉ insList sb) ∧
  (∀ c ∈ insList sb, c < sb.dzone_total ∧ ¬ bmBit bm c) ∧
  (bmapFreeT sb.dzone_total bm).card + (retrList sb).length + (insList sb).length =
    sb.dzone_free

instance (sb : SOSuperBlock) (bm : Nat → Nat) : Decidable (DzInvSB sb bm) := by
  unfold DzInvSB; infer_instance

/-- The free-cluster bookkeeping invariant of a state. -/
def DzInv (s : FSState) : Prop := DzInvSB s.sb s.bmap

instance (s : FSState) : Decidable (DzInv s) := by
  unfold DzInv; infer_instance

/-- Modelled from the spec: the claimed partition of the data zone.
Every cluster falls in exactly one of the four cases (bitmap bit 1,
valid retrieval-cache entry, valid insertion-cache entry, mapped to an
inode), and the number of clusters in the first three cases equals
dzone_free. -/
def specPartition (s : FSState) : Prop :=
  (∀ c < s.sb.dzone_total,
    (bmapBitSet s c ∧ ¬ inRetrievCache s.sb c ∧ ¬ inInsertCache s.sb c ∧
      s.ciu c = NULL_INODE) ∨
    (¬ bmapBitSet s c ∧ inRetrievCache s.sb c ∧ ¬ inInsertCache s.sb c ∧
      s.ciu c = NULL_INODE) ∨
    (¬ bmapBitSet s c ∧ ¬ inRetrievCache s.sb c ∧ inInsertCache s.sb c ∧
      s.ciu c = NULL_INODE) ∨
    (¬ bmapBitSet s c ∧ ¬ inRetrievCache s.sb c ∧ ¬ inInsertCache s.sb c ∧
      s.ciu c ≠ NULL_INODE)) ∧
  ((Finset.range s.sb.dzone_total).filter
    (fun c => bmapBitSet s c ∨ inRetrievCache s.sb c ∨ inInsertCache s.sb c)).card =
    s.sb.dzone_free

instance (s : FSState) : Decidable (specPartition s) := by
  unfold specPartition; infer_instance

/-- The state a successful allocation leaves from allocReadyState. -/
def c1AllocPost : FSState :=
  match soAllocDataCluster allocReadyState with
  | .ok (_, t) => t
  | .error _ => allocReadyState

/-- The tiny device with cluster 1 allocated to inode 1 (bitmap bit 0,
map entry set, in no cache), ready to be freed. -/
def c1FreeState : FSState :=
  { tinyFS with
    sb := { tinySB with dzone_free := 8 },
    ciu := fun r => if r = 0 then 0 else if r = 1 then 1 else NULL_INODE,
    bmap := fun a => if a = 0 then 63 else if a = 1 then 192 else 0 }

/-- The state soFreeDataCluster leaves when freeing cluster 1 of
c1FreeState. -/
def c1FreePost : FSState :=
  match soFreeDataCluster c1FreeState 1 with
  | .ok t => t
  | .error _ => c1FreeState

/-- The tiny device with cluster 3 parked in the insertion cache (its
bitmap bit cleared accordingly). -/
def c1DepState : FSState :=
  { tinyFS with
    sb := { tinySB with
      dzone_insert := { cache_idx := 1,
                        cache := fun k => if k = 0 then 3 else NULL_CLUSTER } },
    bmap := fun a => if a = 0 then 111 else if a = 1 then 192 else 0 }

/-- The state soDeplete leaves from c1DepState. -/
def c1DepPost : FSState :=
  match soDeplete c1DepState with
  | .ok t => t
  | .error _ => c1DepState

/-- A two-cluster variant of the tiny device with one free cluster
(cluster 1) in the bitmap and both caches empty, ready for a cheap
replenish run. -/
def c1RepState : FSState :=
  { tinyFS with
    sb := { tinySB with dzone_total := 2, dzone_free := 1, fctable_pos := 0 },
    bmap := fun a => if a = 0 then 64 else 0 }

/-- The state soReplenish leaves from c1RepState. -/
def c1RepPost : FSState :=
  match soReplenish c1RepState with
  | .ok t => t
  | .error _ => c1RepState

/-! ## Theorems -/

theorem upd_same {α : Type} (f : Nat → α) (i : Nat) (v : α) : upd f i v i = v := by
  simp [upd]

theorem upd_other {α : Type} (f : Nat → α) (i : Nat) (v : α) (j : Nat) (h : j ≠ i) :
    upd f i v j = f j := by
  simp [upd, h]

/-- C9: for every byte position p below MAX_FILE_SIZE, the
file-byte-position conversion returns (p div BSLPC, p mod BSLPC), and
clustInd * BSLPC + offset recomposes p exactly; for p at or above
MAX_FILE_SIZE, or a NULL output pointer, it fails with EINVAL. -/
theorem C9_convertBPIDC_roundtrip (p : Nat) :
    (p < MAX_FILE_SIZE →
       soConvertBPIDC p false false = .ok (p / BSLPC, p % BSLPC) ∧
       (p / BSLPC) * BSLPC + p % BSLPC = p) ∧
    (∀ a b : Bool, MAX_FILE_SIZE ≤ p ∨ a = true ∨ b = true →
       soConvertBPIDC p a b = .error EINVAL) := by
  constructor
  · intro hp
    constructor
    · simp [soConvertBPIDC, Nat.not_le.mpr hp]
    · exact Nat.div_add_mod' p BSLPC
  · intro a b hab
    simp only [soConvertBPIDC, ge_iff_le]
    rw [if_pos hab]

/-- Witness for C9 at p = 12345. -/
theorem C9_convertBPIDC_roundtrip_witness :
    12345 < MAX_FILE_SIZE ∧
    soConvertBPIDC 12345 false false = .ok (6, 57) ∧
    6 * BSLPC + 57 = 12345 := by
  refine ⟨by decide, ?_, ?_⟩
  · exact ((C9_convertBPIDC_roundtrip 12345).1 (by decide)).1
  · exact ((C9_convertBPIDC_roundtrip 12345).1 (by decide)).2

/-- C10: a successful soReadInode with the in-use status is not a pure
read: it sets the stored inode access-time field to the current time
and writes the inode-table block back, leaves every other field of that
inode and all other inodes unchanged, and returns a copy of the stored
inode taken after the update. -/
theorem C10_readInode_atime_update (s : FSState) (nInode : Nat) (buf : SOInode)
    (s1 : FSState) (h : soReadInode s nInode IUIN = Except.ok (buf, s1)) :
    buf = { s.itable nInode with vD1 := s.now } ∧
    s1.itable nInode = buf ∧
    (∀ m, m ≠ nInode → s1.itable m = s.itable m) ∧
    s1.sb = s.sb ∧ s1.ciu = s.ciu ∧ s1.bmap = s.bmap ∧ s1.dz = s.dz ∧
    s1.uid = s.uid ∧ s1.gid = s.gid ∧ s1.now = s.now := by
  have hidx : nInode / IPB * IPB + nInode % IPB = nInode := Nat.div_add_mod' nInode IPB
  by_cases h1 : nInode > s.sb.itable_size * IPB
  · simp [soReadInode, IUIN, FDIN, h1] at h
  by_cases h2 : nInode ≥ s.sb.itotal
  · simp [soReadInode, soConvertRefInT, IUIN, FDIN, h1, h2] at h
  by_cases h3 : nInode / IPB ≥ s.sb.itable_size
  · simp [soReadInode, soConvertRefInT, soLoadBlockInT, IUIN, FDIN, h1, h2, h3] at h
  simp only [soReadInode, soConvertRefInT, soLoadBlockInT, IUIN, FDIN, if_neg h1,
    if_neg h2, if_neg h3, hidx] at h
  rw [if_neg (by simp)] at h
  rw [if_neg (by norm_num)] at h
  split at h
  · exact absurd h (by simp)
  split at h
  · exact absurd h (by simp)
  obtain ⟨hb, hs⟩ := Prod.mk.inj (Except.ok.inj h)
  subst hb
  subst hs
  exact ⟨rfl, upd_same _ _ _, fun m hm => upd_other _ _ _ _ hm,
         rfl, rfl, rfl, rfl, rfl, rfl, rfl⟩

/-- Witness for C10: reading inode 1 of rdState with the in-use status
returns the buffer rdBuf whose access time is the current time 5000 and
rewrites the stored inode to it, leaving inode 2 unchanged. -/
theorem C10_readInode_atime_update_witness :
    soReadInode tinyFS 1 IUIN = Except.ok (rdBuf, rdPost) ∧
    rdBuf.vD1 = tinyFS.now ∧ rdPost.itable 1 = rdBuf ∧
    rdPost.itable 2 = tinyFS.itable 2 := by
  have hrun : soReadInode tinyFS 1 IUIN = Except.ok (rdBuf, rdPost) := by rfl
  have h := C10_readInode_atime_update tinyFS 1 rdBuf rdPost hrun
  exact ⟨hrun, by rw [h.1], h.2.1, h.2.2.1 2 (by decide)⟩

/-- C3: evaluation of soAccessGranted at the failing input.  A root
process (uid 0) requesting R and W on an in-use file with mode
r-------- owned by user 1000 is denied with EACCES, against the claim
(and the source doc comment) that root is always granted R and W; the
source instead dispatches on the owner field being 0, so the same
request by the non-root process uid 1000 on the same file owned by root
is granted. -/
theorem C3_accessGranted_root_misdispatch :
    soAccessGranted rootProcState 1 (R ||| W) = Except.error EACCES ∧
    rootProcState.uid = 0 ∧
    (rootProcState.itable 1).owner = 1000 ∧
    (rootProcState.itable 1).mode = INODE_FILE ||| INODE_RD_USR ∧
    (soAccessGranted ownerZeroState 1 (R ||| W)).toOption.isSome = true ∧
    ownerZeroState.uid = 1000 ∧ (ownerZeroState.itable 1).owner = 0 := by
  exact ⟨rfl, rfl, rfl, rfl, rfl, rfl, rfl⟩

/-- C5 counterexample: freeing inode 1 of c5State succeeds although its
reference count is 3 (the claimed refcount = 0 precondition is not
required), and, the free-inode list being empty, the owner and group
fields are left at 5 and 6 instead of being cleared. -/
theorem C5_freeInode_counterexample :
    (c5State.itable 1).refcount = 3 ∧ c5State.sb.ifree = 0 ∧
    (soFreeInode c5State 1).toOption.map
        (fun t => ((t.itable 1).owner, (t.itable 1).group, (t.itable 1).refcount,
                   t.sb.ifree, t.sb.ihead, t.sb.itail)) =
      some (5, 6, 3, 1, 1, 1) := by
  exact ⟨rfl, rfl, rfl⟩

/-- C5 amended: for every inode nInode in use (nInode different from 0;
the reference count is not examined), a successful soFreeInode sets
INODE_FREE, sets prev to the old itail and next to NULL_INODE (both to
NULL_INODE when the list was empty), appends the inode at the tail of
the free list (ihead = itail = nInode when the list was empty,
otherwise the old tail next field becomes nInode and itail becomes
nInode), clears owner and group only when the list was non-empty,
leaves the data-cluster references and the reference count untouched,
and increments ifree. -/
theorem C5_freeInode_amended (s : FSState) (nInode : Nat) (s1 : FSState)
    (h : soFreeInode s nInode = Except.ok s1) :
    nInode ≠ 0 ∧ nInode < s.sb.itotal ∧
    s1.sb.ifree = s.sb.ifree + 1 ∧ s1.sb.itail = nInode ∧
    s1.ciu = s.ciu ∧ s1.bmap = s.bmap ∧ s1.dz = s.dz ∧
    (s.sb.ifree = 0 →
       s1.sb.ihead = nInode ∧
       s1.itable nInode = { s.itable nInode with
         mode := (s.itable nInode).mode ||| INODE_FREE,
         vD1 := NULL_INODE, vD2 := NULL_INODE } ∧
       (∀ m, m ≠ nInode → s1.itable m = s.itable m)) ∧
    (s.sb.ifree ≠ 0 →
       s1.sb.ihead = s.sb.ihead ∧ s.sb.itail < s.sb.itotal ∧
       (s.sb.itail ≠ nInode →
          s1.itable nInode = { s.itable nInode with
            mode := (s.itable nInode).mode ||| INODE_FREE,
            owner := 0, group := 0, vD1 := s.sb.itail, vD2 := NULL_INODE } ∧
          s1.itable s.sb.itail = { s.itable s.sb.itail with vD2 := nInode } ∧
          (∀ m, m ≠ nInode → m ≠ s.sb.itail → s1.itable m = s.itable m))) := by
  have hidx : nInode / IPB * IPB + nInode % IPB = nInode := Nat.div_add_mod' nInode IPB
  have hidxT : s.sb.itail / IPB * IPB + s.sb.itail % IPB = s.sb.itail :=
    Nat.div_add_mod' s.sb.itail IPB
  by_cases h0 : nInode = 0
  · simp [soFreeInode, h0] at h
  by_cases h2 : nInode ≥ s.sb.itotal
  · simp [soFreeInode, soConvertRefInT, h0, h2] at h
  by_cases h3 : nInode / IPB ≥ s.sb.itable_size
  · simp [soFreeInode, soConvertRefInT, soLoadBlockInT, h0, h2, h3] at h
  simp only [soFreeInode, soConvertRefInT, soLoadBlockInT, if_neg h0, if_neg h2,
    if_neg h3, hidx] at h
  split at h
  · exact absurd h (by simp)
  by_cases hfe : s.sb.ifree = 0
  · rw [if_pos hfe] at h
    obtain hs := Except.ok.inj h
    subst hs
    refine ⟨h0, Nat.lt_of_not_le h2, rfl, rfl, rfl, rfl, rfl, ?_, ?_⟩
    · exact fun _ => ⟨rfl, upd_same _ _ _, fun m hm => upd_other _ _ _ _ hm⟩
    · exact fun hc => absurd hfe hc
  · rw [if_neg hfe] at h
    by_cases h4 : s.sb.itail ≥ s.sb.itotal
    · simp [h4] at h
    by_cases h5 : s.sb.itail / IPB ≥ s.sb.itable_size
    · simp [if_neg h4, h5] at h
    simp only [if_neg h4, if_neg h5, hidxT] at h
    obtain hs := Except.ok.inj h
    subst hs
    refine ⟨h0, Nat.lt_of_not_le h2, rfl, rfl, rfl, rfl, rfl, fun hc => absurd hc hfe, ?_⟩
    intro _
    refine ⟨rfl, Nat.lt_of_not_le h4, fun htne => ?_⟩
    have hnet : nInode ≠ s.sb.itail := fun hc => htne hc.symm
    refine ⟨?_, ?_, ?_⟩
    · dsimp only
      rw [upd_other _ _ _ _ hnet, upd_same]
    · dsimp only
      rw [upd_same, upd_other _ _ _ _ htne]
    · intro m hm1 hm2
      dsimp only
      rw [upd_other _ _ _ _ hm2, upd_other _ _ _ _ hm1]

/-- Witness for the amended C5: freeing the in-use inode 1 of rdState
(free list non-empty, old tail 7) succeeds; the theorem instantiated
there gives the appended-at-tail shape, with owner and group cleared. -/
theorem C5_freeInode_amended_witness :
    soFreeInode tinyFS 1 = Except.ok c5WitPost ∧
    c5WitPost.sb.ifree = tinyFS.sb.ifree + 1 ∧ c5WitPost.sb.itail = 1 ∧
    c5WitPost.itable 1 = { tinyFS.itable 1 with
      mode := (tinyFS.itable 1).mode ||| INODE_FREE,
      owner := 0, group := 0, vD1 := tinyFS.sb.itail, vD2 := NULL_INODE } := by
  have hrun : soFreeInode tinyFS 1 = Except.ok c5WitPost := by rfl
  have h := C5_freeInode_amended tinyFS 1 c5WitPost hrun
  exact ⟨hrun, h.2.2.1, h.2.2.2.1,
         ((h.2.2.2.2.2.2.2.2 (by decide)).2.2 (by decide)).1⟩

/-- C7: evaluation of soGetDirEntryByName at the failing input.  The
directory inode 2 of c7State has two clusters and 64 entries, all in
use; looking up the absent name zz returns not-found with the inode
output NULL_INODE, but the index output is the leftover inner-loop
counter DPC = 32 instead of the append point size / entrySize = 64. -/
theorem C7_getDirEntryByName_append_point :
    (soGetDirEntryByName c7State 2 [122, 122]).status = ENOENT ∧
    (soGetDirEntryByName c7State 2 [122, 122]).nInodeEnt = some NULL_INODE ∧
    (soGetDirEntryByName c7State 2 [122, 122]).idx = some DPC ∧
    (c7State.itable 2).size / (MAX_NAME + 1 + 4) = 64 ∧ DPC = 32 := by
  exact ⟨rfl, rfl, rfl, rfl, rfl⟩

/-- C6: evaluation of soAddAttDirEntry at the failing input.  Attaching
the subsidiary directory inode 2 under the root fails with the
inode-inconsistency error EIUININVAL, while attaching the regular file
inode 3 proceeds: the directory type test of the ATTACH branch is
inverted with respect to the claim and to the doc comment of the
function, which requires the target to be a directory. -/
theorem C6_attach_type_test_inverted :
    soAddAttDirEntry c6State 0 [120] 2 ATTACH = Except.error EIUININVAL ∧
    (c6State.itable 2).mode &&& INODE_TYPE_MASK = INODE_DIR ∧
    (soAddAttDirEntry c6State 0 [120] 3 ATTACH).toOption.isSome = true ∧
    (c6State.itable 3).mode &&& INODE_TYPE_MASK = INODE_FILE := by
  exact ⟨rfl, rfl, rfl, rfl⟩

/-- C2: soHandleFileClusters only accepts the operation codes FREE (2),
FREE_CLEAN (3) and CLEAN (4), while soRemDetachDirEntry passes its own
REM code (0) when the removed entry inode reaches reference count 0;
the removal therefore fails with EINVAL instead of freeing the data
clusters and the inode.  The concrete run removes the entry b for the
one-link file inode 1 of c2State. -/
theorem C2_rem_free_path_rejected :
    soRemDetachDirEntry c2State 0 [98] REM = Except.error EINVAL ∧
    (c2State.itable 1).refcount = 1 ∧ REM = 0 ∧ FREE_CLEAN = 3 ∧
    (∀ s : FSState, ∀ nInode clustIndIn : Nat, nInode < s.sb.itotal →
       soHandleFileClusters s nInode clustIndIn REM = Except.error EINVAL) := by
  refine ⟨rfl, rfl, rfl, rfl, ?_⟩
  intro s nInode clustIndIn hlt
  simp [soHandleFileClusters, REM, FREE, FREE_CLEAN, CLEAN, Nat.not_le.mpr hlt]

/-- Witness for C2 (the universally quantified part): the op check
rejects REM on the tiny device as well. -/
theorem C2_rem_free_path_rejected_witness :
    1 < tinyFS.sb.itotal ∧
    soHandleFileClusters tinyFS 1 0 REM = Except.error EINVAL := by
  exact ⟨by decide, C2_rem_free_path_rejected.2.2.2.2 tinyFS 1 0 (by decide)⟩

/-- C4: evaluation of soHandleFileCluster at the failing input.  The
root-directory inode 0 is in use, of directory type, and its direct
slot 1 is empty, yet ALLOC fails with EINVAL: soMapDCtoIn rejects inode
number 0 (an error its own doc comment does not list), so the root
directory can never grow a new cluster.  The same ALLOC on the file
inode 1 succeeds and returns the allocated cluster 1. -/
theorem C4_alloc_root_inode_rejected :
    soHandleFileCluster allocReadyState 0 1 ALLOC false = Except.error EINVAL ∧
    (allocReadyState.itable 0).mode &&& INODE_TYPE_MASK = INODE_DIR ∧
    (allocReadyState.itable 0).mode &&& INODE_FREE = 0 ∧
    (allocReadyState.itable 0).d 1 = NULL_CLUSTER ∧
    allocReadyState.sb.dzone_free = 9 ∧
    (soHandleFileCluster allocReadyState 1 0 ALLOC false).toOption.map Prod.fst =
      some (some 1) := by
  exact ⟨rfl, rfl, rfl, rfl, rfl, rfl⟩

/-! ### Bit-level helper lemmas for the free-cluster invariant -/

lemma byteMask_eq_pow (k : Nat) (hk : k < 8) : byteMask k = 2 ^ (7 - k) := by
  interval_cases k <;> rfl

lemma and_pow_eq_iff (x m : Nat) : x &&& 2 ^ m = 2 ^ m ↔ x.testBit m = true := by
  cases h : x.testBit m <;>
    simp [Nat.and_two_pow, h, (Nat.two_pow_pos m).ne, eq_comm]

lemma bit_mask_iff (x k : Nat) (hk : k < 8) :
    (x &&& byteMask k = byteMask k) ↔ x.testBit (7 - k) = true := by
  rw [byteMask_eq_pow k hk, and_pow_eq_iff]

lemma mod256_testBit (x j : Nat) (hj : j < 8) : (x % 256).testBit j = x.testBit j := by
  have h : (256 : Nat) = 2 ^ 8 := rfl
  rw [h, Nat.testBit_mod_two_pow]
  simp [hj]

lemma byteSet_mask (b k j : Nat) (hk : k < 8) (hj : j < 8) :
    (byteSet b (byteMask k) &&& byteMask j = byteMask j) ↔
      (j = k ∨ b &&& byteMask j = byteMask j) := by
  rw [bit_mask_iff _ _ hj, bit_mask_iff _ _ hj]
  unfold byteSet
  rw [Nat.testBit_or, mod256_testBit _ _ (by omega), byteMask_eq_pow k hk,
    Nat.testBit_two_pow]
  simp only [Bool.or_eq_true, decide_eq_true_eq]
  constructor
  · rintro (h | h)
    · exact Or.inr h
    · exact Or.inl (by omega)
  · rintro (h | h)
    · exact Or.inr (by omega)
    · exact Or.inl h

lemma clr_byte_testBit : ∀ m < 8, ∀ i < 8, (255 - 2 ^ m).testBit i = decide (i ≠ m) := by
  decide

lemma byteClr_mask (b k j : Nat) (hk : k < 8) (hj : j < 8) :
    (byteClr b (byteMask k) &&& byteMask j = byteMask j) ↔
      (j ≠ k ∧ b &&& byteMask j = byteMask j) := by
  rw [bit_mask_iff _ _ hj, bit_mask_iff _ _ hj]
  unfold byteClr
  rw [byteMask_eq_pow k hk, Nat.testBit_and, mod256_testBit _ _ (by omega),
    clr_byte_testBit (7 - k) (by omega) (7 - j) (by omega)]
  simp only [Bool.and_eq_true, decide_eq_true_eq]
  constructor
  · rintro ⟨h1, h2⟩
    exact ⟨by omega, h1⟩
  · rintro ⟨h1, h2⟩
    exact ⟨h2, by omega⟩

lemma pos_eq_of_idx_bit (p q : Nat) (hidx : bmapByteIdx p = bmapByteIdx q)
    (hbit : p % BITS_PER_BLOCK % 8 = q % BITS_PER_BLOCK % 8) : p = q := by
  simp only [bmapByteIdx, BITS_PER_BLOCK, BLOCK_SIZE] at hidx hbit
  omega

lemma bmBit_upd_set (bm : Nat → Nat) (r q : Nat) :
    bmBit (upd bm (bmapByteIdx r)
      (byteSet (bm (bmapByteIdx r)) (byteMask (r % BITS_PER_BLOCK % 8)))) q ↔
      (q = r ∨ bmBit bm q) := by
  have hr8 : r % BITS_PER_BLOCK % 8 < 8 := Nat.mod_lt _ (by norm_num)
  have hq8 : q % BITS_PER_BLOCK % 8 < 8 := Nat.mod_lt _ (by norm_num)
  unfold bmBit upd
  by_cases hidx : bmapByteIdx q = bmapByteIdx r
  · rw [hidx, if_pos rfl, byteSet_mask _ _ _ hr8 hq8]
    constructor
    · rintro (hb | hb)
      · exact Or.inl (pos_eq_of_idx_bit q r hidx hb)
      · exact Or.inr hb
    · rintro (rfl | hb)
      · exact Or.inl rfl
      · exact Or.inr hb
  · rw [if_neg hidx]
    constructor
    · intro hb
      exact Or.inr hb
    · rintro (rfl | hb)
      · exact absurd rfl hidx
      · exact hb

lemma bmBit_upd_clr (bm : Nat → Nat) (r q : Nat) :
    bmBit (upd bm (bmapByteIdx r)
      (byteClr (bm (bmapByteIdx r)) (byteMask (r % BITS_PER_BLOCK % 8)))) q ↔
      (q ≠ r ∧ bmBit bm q) := by
  have hr8 : r % BITS_PER_BLOCK % 8 < 8 := Nat.mod_lt _ (by norm_num)
  have hq8 : q % BITS_PER_BLOCK % 8 < 8 := Nat.mod_lt _ (by norm_num)
  unfold bmBit upd
  by_cases hidx : bmapByteIdx q = bmapByteIdx r
  · rw [hidx, if_pos rfl, byteClr_mask _ _ _ hr8 hq8]
    constructor
    · rintro ⟨hb1, hb2⟩
      refine ⟨fun hqr => hb1 ?_, hb2⟩
      exact hqr ▸ rfl
    · rintro ⟨hb1, hb2⟩
      refine ⟨fun hb => hb1 (pos_eq_of_idx_bit q r hidx hb), hb2⟩
  · rw [if_neg hidx]
    constructor
    · intro hb
      refine ⟨fun hqr => hidx (hqr ▸ rfl), hb⟩
    · rintro ⟨_, hb⟩
      exact hb

lemma bmapFreeT_set (T : Nat) (bm : Nat → Nat) (r : Nat) (hr : r < T) :
    bmapFreeT T (upd bm (bmapByteIdx r)
      (byteSet (bm (bmapByteIdx r)) (byteMask (r % BITS_PER_BLOCK % 8)))) =
      insert r (bmapFreeT T bm) := by
  ext q
  simp only [bmapFreeT, Finset.mem_filter, Finset.mem_range, Finset.mem_insert,
    bmBit_upd_set]
  constructor
  · rintro ⟨hq, (rfl | hb)⟩
    · exact Or.inl rfl
    · exact Or.inr ⟨hq, hb⟩
  · rintro (rfl | ⟨hq, hb⟩)
    · exact ⟨hr, Or.inl rfl⟩
    · exact ⟨hq, Or.inr hb⟩

lemma bmapFreeT_clr (T : Nat) (bm : Nat → Nat) (r : Nat) :
    bmapFreeT T (upd bm (bmapByteIdx r)
      (byteClr (bm (bmapByteIdx r)) (byteMask (r % BITS_PER_BLOCK % 8)))) =
      (bmapFreeT T bm).erase r := by
  ext q
  simp only [bmapFreeT, Finset.mem_filter, Finset.mem_range, Finset.mem_erase,
    bmBit_upd_clr]
  constructor
  · rintro ⟨hq, hne, hb⟩
    exact ⟨hne, hq, hb⟩
  · rintro ⟨hne, hq, hb⟩
    exact ⟨hq, hne, hb⟩

/-! ### Cache-list helper lemmas -/

lemma insList_mem (sb : SOSuperBlock) (r : Nat) :
    r ∈ insList sb ↔
      ∃ k, k < sb.dzone_insert.cache_idx ∧ sb.dzone_insert.cache k = r := by
  simp [insList]

lemma inInsertCache_iff (sb : SOSuperBlock) (r : Nat) :
    inInsertCache sb r ↔ r ∈ insList sb := by
  simp [inInsertCache, insList]

lemma retrList_mem (sb : SOSuperBlock) (r : Nat)
    (hi : sb.dzone_retriev.cache_idx ≤ DZONE_CACHE_SIZE) :
    r ∈ retrList sb ↔
      ∃ k, sb.dzone_retriev.cache_idx ≤ k ∧ k < DZONE_CACHE_SIZE ∧
        sb.dzone_retriev.cache k = r := by
  simp only [retrList, List.mem_map, List.mem_range'_1]
  constructor
  · rintro ⟨k, ⟨hk1, hk2⟩, hk3⟩
    exact ⟨k, hk1, by omega, hk3⟩
  · rintro ⟨k, hk1, hk2, hk3⟩
    exact ⟨k, ⟨hk1, by omega⟩, hk3⟩

lemma inRetrievCache_iff (sb : SOSuperBlock) (r : Nat)
    (hi : sb.dzone_retriev.cache_idx ≤ DZONE_CACHE_SIZE) :
    inRetrievCache sb r ↔ r ∈ retrList sb := by
  rw [retrList_mem sb r hi]
  simp only [inRetrievCache, List.mem_range]
  constructor
  · rintro ⟨k, hk1, hk2, hk3⟩
    exact ⟨k, hk2, hk1, hk3⟩
  · rintro ⟨k, hk1, hk2, hk3⟩
    exact ⟨k, hk2, hk1, hk3⟩

lemma retrList_congr (sb1 sb2 : SOSuperBlock)
    (h : sb1.dzone_retriev = sb2.dzone_retriev) : retrList sb1 = retrList sb2 := by
  unfold retrList
  rw [h]

lemma insList_congr (sb1 sb2 : SOSuperBlock)
    (h : sb1.dzone_insert = sb2.dzone_insert) : insList sb1 = insList sb2 := by
  unfold insList
  rw [h]

lemma insList_nil (sb : SOSuperBlock) (h : sb.dzone_insert.cache_idx = 0) :
    insList sb = [] := by
  unfold insList
  rw [h]
  rfl

lemma retrList_nil (sb : SOSuperBlock) (h : sb.dzone_retriev.cache_idx = DZONE_CACHE_SIZE) :
    retrList sb = [] := by
  unfold retrList
  rw [h, Nat.sub_self]
  rfl

/-! ### The soDeplete loop -/

lemma soDepleteStep_ok (s : FSState) (n : Nat) (s1 : FSState)
    (h : soDepleteStep s n = .ok s1) :
    s1 = { s with
      bmap := upd s.bmap (bmapByteIdx (s.sb.dzone_insert.cache n))
        (byteSet (s.bmap (bmapByteIdx (s.sb.dzone_insert.cache n)))
          (byteMask (s.sb.dzone_insert.cache n % BITS_PER_BLOCK % 8))),
      sb := { s.sb with dzone_insert := { s.sb.dzone_insert with
        cache := upd s.sb.dzone_insert.cache n NULL_CLUSTER } } } := by
  simp only [soDepleteStep] at h
  split at h
  · exact absurd h (by simp)
  · exact (Except.ok.inj h).symm.trans rfl

lemma depl_loop_char : ∀ rem n : Nat, ∀ s s1 : FSState,
    soDepleteLoop s n rem = (.ok (), s1) →
    (s1.sb.dzone_total = s.sb.dzone_total ∧
     s1.sb.dzone_free = s.sb.dzone_free ∧
     s1.sb.dzone_retriev = s.sb.dzone_retriev ∧
     s1.sb.dzone_insert.cache_idx = s.sb.dzone_insert.cache_idx ∧
     s1.sb.fctable_size = s.sb.fctable_size ∧
     s1.sb.fctable_pos = s.sb.fctable_pos) ∧
    (∀ q, bmBit s1.bmap q ↔
      (bmBit s.bmap q ∨ ∃ k, n ≤ k ∧ k < n + rem ∧ s.sb.dzone_insert.cache k = q)) := by
  intro rem
  induction rem with
  | zero =>
    intro n s s1 h
    simp only [soDepleteLoop] at h
    obtain ⟨-, rfl⟩ := Prod.mk.inj h
    refine ⟨⟨rfl, rfl, rfl, rfl, rfl, rfl⟩, fun q => ?_⟩
    constructor
    · intro hb
      exact Or.inl hb
    · rintro (hb | ⟨k, hk1, hk2, -⟩)
      · exact hb
      · omega
  | succ rem ih =>
    intro n s s1 h
    simp only [soDepleteLoop] at h
    split at h
    · exact absurd (Prod.mk.inj h).1 (by simp)
    · rename_i s2 hstep
      have hs2 := soDepleteStep_ok s n s2 hstep
      obtain ⟨⟨f1, f2, f3, f4, f5, f6⟩, hbit⟩ := ih (n + 1) s2 s1 h
      subst hs2
      refine ⟨⟨f1, f2, f3, by simpa using f4, f5, f6⟩, fun q => ?_⟩
      rw [hbit q, bmBit_upd_set]
      constructor
      · rintro ((rfl | hb) | ⟨k, hk1, hk2, hk3⟩)
        · exact Or.inr ⟨n, by omega, by omega, rfl⟩
        · exact Or.inl hb
        · refine Or.inr ⟨k, by omega, by omega, ?_⟩
          rw [← hk3]
          show s.sb.dzone_insert.cache k = upd s.sb.dzone_insert.cache n NULL_CLUSTER k
          have hkn : k ≠ n := by omega
          simp [upd, hkn]
      · rintro (hb | ⟨k, hk1, hk2, hk3⟩)
        · exact Or.inl (Or.inr hb)
        · by_cases hkn : k = n
          · subst hkn
            exact Or.inl (Or.inl hk3.symm)
          · refine Or.inr ⟨k, by omega, by omega, ?_⟩
            show upd s.sb.dzone_insert.cache n NULL_CLUSTER k = q
            simp only [upd, if_neg hkn]
            exact hk3

lemma depl_loop_ok : ∀ rem n : Nat, ∀ s : FSState,
    (∀ k, n ≤ k → k < n + rem →
      s.sb.dzone_insert.cache k / (8 * BLOCK_SIZE) < s.sb.fctable_size) →
    ∃ s1, soDepleteLoop s n rem = (.ok (), s1) := by
  intro rem
  induction rem with
  | zero =>
    intro n s _
    exact ⟨s, rfl⟩
  | succ rem ih =>
    intro n s hld
    have hstep : soDepleteStep s n = .ok { s with
        bmap := upd s.bmap (bmapByteIdx (s.sb.dzone_insert.cache n))
          (byteSet (s.bmap (bmapByteIdx (s.sb.dzone_insert.cache n)))
            (byteMask (s.sb.dzone_insert.cache n % BITS_PER_BLOCK % 8))),
        sb := { s.sb with dzone_insert := { s.sb.dzone_insert with
          cache := upd s.sb.dzone_insert.cache n NULL_CLUSTER } } } := by
      have hn := hld n (by omega) (by omega)
      simp only [soDepleteStep, soLoadBlockBMapT]
      rw [if_neg (by omega)]
      rfl
    obtain ⟨s1, hs1⟩ := ih (n + 1)
      { s with
        bmap := upd s.bmap (bmapByteIdx (s.sb.dzone_insert.cache n))
          (byteSet (s.bmap (bmapByteIdx (s.sb.dzone_insert.cache n)))
            (byteMask (s.sb.dzone_insert.cache n % BITS_PER_BLOCK % 8))),
        sb := { s.sb with dzone_insert := { s.sb.dzone_insert with
          cache := upd s.sb.dzone_insert.cache n NULL_CLUSTER } } }
      (fun k hk1 hk2 => by
        show upd s.sb.dzone_insert.cache n NULL_CLUSTER k / (8 * BLOCK_SIZE) <
          s.sb.fctable_size
        have hkn : k ≠ n := by omega
        simp only [upd, if_neg hkn]
        exact hld k (by omega) (by omega))
    refine ⟨s1, ?_⟩
    simp only [soDepleteLoop, hstep]
    exact hs1

lemma depleteRaw_spec (s : FSState)
    (hload : ∀ k, k < s.sb.dzone_insert.cache_idx →
      s.sb.dzone_insert.cache k / (8 * BLOCK_SIZE) < s.sb.fctable_size)
    (hretr : s.sb.dzone_retriev.cache_idx ≤ DZONE_CACHE_SIZE) :
    ∃ s2, soDepleteRaw s = (.ok (), s2) ∧
      s2.sb.dzone_total = s.sb.dzone_total ∧
      s2.sb.dzone_free = s.sb.dzone_free ∧
      s2.sb.dzone_retriev = s.sb.dzone_retriev ∧
      s2.sb.dzone_insert.cache_idx = 0 ∧
      s2.sb.fctable_size = s.sb.fctable_size ∧
      (∀ q, bmBit s2.bmap q ↔ (bmBit s.bmap q ∨ q ∈ insList s.sb)) := by
  obtain ⟨s1, hs1⟩ := depl_loop_ok s.sb.dzone_insert.cache_idx 0 s
    (fun k _ hk2 => hload k (by omega))
  obtain ⟨⟨f1, f2, f3, f4, f5, f6⟩, hbit⟩ :=
    depl_loop_char s.sb.dzone_insert.cache_idx 0 s s1 hs1
  have hr1 : s1.sb.dzone_retriev.cache_idx ≤ DZONE_CACHE_SIZE := by
    rw [f3]
    exact hretr
  have hq : soQCheckDZ { s1 with sb := { s1.sb with
      dzone_insert := { s1.sb.dzone_insert with cache_idx := 0 } } }.sb = .ok () := by
    unfold soQCheckDZ
    rw [if_neg (not_not_intro ⟨hr1, Nat.zero_le _⟩)]
  refine ⟨{ s1 with sb := { s1.sb with
      dzone_insert := { s1.sb.dzone_insert with cache_idx := 0 } } }, ?_, f1, f2, f3,
    rfl, f5, fun q => ?_⟩
  · simp only [soDepleteRaw, hs1, hq]
  · rw [show ({ s1 with sb := { s1.sb with
        dzone_insert := { s1.sb.dzone_insert with cache_idx := 0 } } } : FSState).bmap =
        s1.bmap from rfl, hbit q, insList_mem]
    constructor
    · rintro (hb | ⟨k, _, hk2, hk3⟩)
      · exact Or.inl hb
      · exact Or.inr ⟨k, by omega, hk3⟩
    · rintro (hb | ⟨k, hk1, hk2⟩)
      · exact Or.inl hb
      · exact Or.inr ⟨k, by omega, by omega, hk2⟩

lemma depleteRaw_char (s s2 : FSState) (h : soDepleteRaw s = (.ok (), s2)) :
    s2.sb.dzone_total = s.sb.dzone_total ∧
    s2.sb.dzone_free = s.sb.dzone_free ∧
    s2.sb.dzone_retriev = s.sb.dzone_retriev ∧
    s2.sb.dzone_insert.cache_idx = 0 ∧
    s2.sb.fctable_size = s.sb.fctable_size ∧
    (∀ q, bmBit s2.bmap q ↔ (bmBit s.bmap q ∨ q ∈ insList s.sb)) := by
  unfold soDepleteRaw at h
  split at h
  · exact absurd (Prod.mk.inj h).1 (by simp)
  · rename_i u sl heq
    cases u
    obtain ⟨⟨f1, f2, f3, f4, f5, f6⟩, hbit⟩ :=
      depl_loop_char s.sb.dzone_insert.cache_idx 0 s sl heq
    dsimp only at h
    split at h
    · exact absurd (Prod.mk.inj h).1 (by simp)
    · obtain rfl := (Prod.mk.inj h).2.symm
      refine ⟨f1, f2, f3, rfl, f5, fun q => ?_⟩
      rw [show ({ sl with sb := { sl.sb with
          dzone_insert := { sl.sb.dzone_insert with cache_idx := 0 } } } : FSState).bmap =
          sl.bmap from rfl, hbit q, insList_mem]
      constructor
      · rintro (hb | ⟨k, _, hk2, hk3⟩)
        · exact Or.inl hb
        · exact Or.inr ⟨k, by omega, hk3⟩
      · rintro (hb | ⟨k, hk1, hk2⟩)
        · exact Or.inl hb
        · exact Or.inr ⟨k, by omega, by omega, hk2⟩

lemma soDeplete_char (s s1 : FSState) (h : soDeplete s = .ok s1) :
    s1.sb.dzone_total = s.sb.dzone_total ∧
    s1.sb.dzone_free = s.sb.dzone_free ∧
    s1.sb.dzone_retriev = s.sb.dzone_retriev ∧
    s1.sb.dzone_insert.cache_idx = 0 ∧
    (∀ q, bmBit s1.bmap q ↔ (bmBit s.bmap q ∨ q ∈ insList s.sb)) := by
  unfold soDeplete at h
  split at h
  · exact absurd h (by simp)
  · rename_i u sl heq
    cases u
    obtain rfl := Except.ok.inj h
    obtain ⟨f1, f2, f3, f4, f5, f6⟩ := depleteRaw_char s sl heq
    exact ⟨f1, f2, f3, f4, f6⟩

lemma soDeplete_DzInv (s s1 : FSState) (hinv : DzInv s) (h : soDeplete s = .ok s1) :
    DzInv s1 := by
  obtain ⟨fT, fF, fR, fI, hbit⟩ := soDeplete_char s s1 h
  unfold DzInv DzInvSB at hinv ⊢
  obtain ⟨h1, h2, h3, h4, h5, h6, h7⟩ := hinv
  have hretr : retrList s1.sb = retrList s.sb := retrList_congr _ _ (by rw [fR])
  have hins : insList s1.sb = [] := insList_nil _ fI
  refine ⟨by rw [fR]; exact h1, by rw [fI]; exact Nat.zero_le _,
    by rw [hretr]; exact h3, by rw [hins]; exact List.nodup_nil, ?_, ?_, ?_⟩
  · intro c hc
    rw [hretr] at hc
    obtain ⟨hc1, hc2, hc3⟩ := h5 c hc
    refine ⟨by rw [fT]; exact hc1, ?_, by rw [hins]; exact List.not_mem_nil c⟩
    rw [hbit c]
    rintro (hb | hb)
    · exact hc2 hb
    · exact hc3 hb
  · intro c hc
    rw [hins] at hc
    exact absurd hc (List.not_mem_nil c)
  · rw [hretr, hins, fT, fF]
    have hdisj : Disjoint (bmapFreeT s.sb.dzone_total s.bmap)
        (insList s.sb).toFinset := by
      rw [Finset.disjoint_left]
      intro a ha hain
      rw [List.mem_toFinset] at hain
      simp only [bmapFreeT, Finset.mem_filter] at ha
      exact (h6 a hain).2 ha.2
    have hset : bmapFreeT s.sb.dzone_total s1.bmap =
        bmapFreeT s.sb.dzone_total s.bmap ∪ (insList s.sb).toFinset := by
      ext q
      simp only [bmapFreeT, Finset.mem_filter, Finset.mem_range, Finset.mem_union,
        List.mem_toFinset, hbit q]
      constructor
      · rintro ⟨hq, hb | hq2⟩
        · exact Or.inl ⟨hq, hb⟩
        · exact Or.inr hq2
      · rintro (⟨hq, hb⟩ | hq2)
        · exact ⟨hq, Or.inl hb⟩
        · exact ⟨(h6 q hq2).1, Or.inr hq2⟩
    rw [hset, Finset.card_union_of_disjoint hdisj, List.toFinset_card_of_nodup h4]
    simp only [List.length_nil]
    omega

/-! ### Cache push and pop preserve the invariant -/

lemma retrList_cons (sb : SOSuperBlock) (h : sb.dzone_retriev.cache_idx < DZONE_CACHE_SIZE) :
    retrList sb = sb.dzone_retriev.cache sb.dzone_retriev.cache_idx ::
      (List.range' (sb.dzone_retriev.cache_idx + 1)
        (DZONE_CACHE_SIZE - (sb.dzone_retriev.cache_idx + 1))).map
        sb.dzone_retriev.cache := by
  unfold retrList
  have he : DZONE_CACHE_SIZE - sb.dzone_retriev.cache_idx =
      (DZONE_CACHE_SIZE - (sb.dzone_retriev.cache_idx + 1)) + 1 := by
    unfold DZONE_CACHE_SIZE at h ⊢
    omega
  rw [he, List.range'_succ, List.map_cons]

lemma pop_DzInv (s : FSState) (hinv : DzInv s)
    (hidx : s.sb.dzone_retriev.cache_idx < DZONE_CACHE_SIZE) :
    DzInv { s with sb := { s.sb with
      dzone_retriev :=
        { cache_idx := s.sb.dzone_retriev.cache_idx + 1,
          cache := (upd s.sb.dzone_retriev.cache s.sb.dzone_retriev.cache_idx NULL_CLUSTER) },
      dzone_free := s.sb.dzone_free - 1 } } := by
  unfold DzInv DzInvSB at hinv ⊢
  obtain ⟨h1, h2, h3, h4, h5, h6, h7⟩ := hinv
  have hcons := retrList_cons s.sb hidx
  have htail : retrList { s.sb with
      dzone_retriev :=
        { cache_idx := s.sb.dzone_retriev.cache_idx + 1,
          cache := (upd s.sb.dzone_retriev.cache s.sb.dzone_retriev.cache_idx NULL_CLUSTER) },
      dzone_free := s.sb.dzone_free - 1 } =
      (List.range' (s.sb.dzone_retriev.cache_idx + 1)
        (DZONE_CACHE_SIZE - (s.sb.dzone_retriev.cache_idx + 1))).map
        s.sb.dzone_retriev.cache := by
    unfold retrList
    dsimp only
    refine List.map_congr_left (fun k hk => ?_)
    rw [List.mem_range'_1] at hk
    have hkn : k ≠ s.sb.dzone_retriev.cache_idx := by omega
    simp [upd, hkn]
  have hil : insList { s.sb with
      dzone_retriev :=
        { cache_idx := s.sb.dzone_retriev.cache_idx + 1,
          cache := (upd s.sb.dzone_retriev.cache s.sb.dzone_retriev.cache_idx NULL_CLUSTER) },
      dzone_free := s.sb.dzone_free - 1 } = insList s.sb := rfl
  rw [hcons] at h3 h5 h7
  refine ⟨?_, h2, ?_, h4, ?_, ?_, ?_⟩
  · show s.sb.dzone_retriev.cache_idx + 1 ≤ DZONE_CACHE_SIZE
    omega
  · rw [htail]
    exact (List.nodup_cons.mp h3).2
  · intro c hc
    rw [htail] at hc
    rw [hil]
    exact h5 c (List.mem_cons_of_mem _ hc)
  · intro c hc
    rw [hil] at hc
    exact h6 c hc
  · rw [htail, hil]
    simp only [List.length_cons] at h7
    simp only [List.length_map, List.length_range']
    show (bmapFreeT s.sb.dzone_total s.bmap).card +
      (DZONE_CACHE_SIZE - (s.sb.dzone_retriev.cache_idx + 1)) +
      (insList s.sb).length = s.sb.dzone_free - 1
    rw [List.length_map, List.length_range'] at h7
    unfold DZONE_CACHE_SIZE at h7 hidx ⊢
    omega

lemma ins_append_DzInv (s : FSState) (c : Nat) (hinv : DzInv s)
    (hidx : s.sb.dzone_insert.cache_idx < DZONE_CACHE_SIZE)
    (hc : c < s.sb.dzone_total) (hbit : ¬ bmBit s.bmap c)
    (hins : c ∉ insList s.sb) (hretr : c ∉ retrList s.sb) :
    DzInv { s with sb := { s.sb with
      dzone_insert :=
        { cache_idx := s.sb.dzone_insert.cache_idx + 1,
          cache := (upd s.sb.dzone_insert.cache s.sb.dzone_insert.cache_idx c) },
      dzone_free := s.sb.dzone_free + 1 } } := by
  unfold DzInv DzInvSB at hinv ⊢
  obtain ⟨h1, h2, h3, h4, h5, h6, h7⟩ := hinv
  have hil : insList { s.sb with
      dzone_insert :=
        { cache_idx := s.sb.dzone_insert.cache_idx + 1,
          cache := (upd s.sb.dzone_insert.cache s.sb.dzone_insert.cache_idx c) },
      dzone_free := s.sb.dzone_free + 1 } = insList s.sb ++ [c] := by
    unfold insList
    dsimp only
    rw [List.range_succ, List.map_append]
    refine congrArg₂ (· ++ ·) ?_ ?_
    · refine List.map_congr_left (fun k hk => ?_)
      rw [List.mem_range] at hk
      have hkn : k ≠ s.sb.dzone_insert.cache_idx := by omega
      simp [upd, hkn]
    · simp [upd]
  have hrl : retrList { s.sb with
      dzone_insert :=
        { cache_idx := s.sb.dzone_insert.cache_idx + 1,
          cache := (upd s.sb.dzone_insert.cache s.sb.dzone_insert.cache_idx c) },
      dzone_free := s.sb.dzone_free + 1 } = retrList s.sb := rfl
  refine ⟨h1, ?_, ?_, ?_, ?_, ?_, ?_⟩
  · show s.sb.dzone_insert.cache_idx + 1 ≤ DZONE_CACHE_SIZE
    omega
  · rw [hrl]
    exact h3
  · rw [hil]
    rw [List.nodup_append]
    exact ⟨h4, List.nodup_singleton c,
      fun a ha hb => by rw [List.mem_singleton] at hb; subst hb; exact hins ha⟩
  · intro x hx
    rw [hrl] at hx
    obtain ⟨hx1, hx2, hx3⟩ := h5 x hx
    refine ⟨hx1, hx2, ?_⟩
    rw [hil, List.mem_append, List.mem_singleton]
    rintro (hm | rfl)
    · exact hx3 hm
    · exact hretr hx
  · intro x hx
    rw [hil, List.mem_append, List.mem_singleton] at hx
    rcases hx with hm | rfl
    · exact h6 x hm
    · exact ⟨hc, hbit⟩
  · rw [hil, hrl, List.length_append, List.length_singleton]
    show (bmapFreeT s.sb.dzone_total s.bmap).card + (retrList s.sb).length +
      ((insList s.sb).length + 1) = s.sb.dzone_free + 1
    omega

/-! ### soFreeDataCluster preserves the invariant -/

lemma free_DzInv (s : FSState) (c : Nat) (s1 : FSState) (hinv : DzInv s)
    (hbit : ¬ bmapBitSet s c) (hins : ¬ inInsertCache s.sb c)
    (hretr : ¬ inRetrievCache s.sb c)
    (h : soFreeDataCluster s c = .ok s1) : DzInv s1 := by
  have hinvC := hinv
  unfold DzInv DzInvSB at hinvC
  obtain ⟨h1, h2, h3, h4, h5, h6, h7⟩ := hinvC
  have hinsL : c ∉ insList s.sb := fun hm => hins ((inInsertCache_iff s.sb c).mpr hm)
  have hretrL : c ∉ retrList s.sb := fun hm =>
    hretr ((inRetrievCache_iff s.sb c h1).mpr hm)
  have hq : soQCheckDZ s.sb = .ok () := by
    unfold soQCheckDZ
    rw [if_neg (not_not_intro ⟨h1, h2⟩)]
  have hstat : soQCheckStatDC s c = .ok ALLOC_CLT := by
    unfold soQCheckStatDC
    rw [if_pos (Or.inr ⟨hbit, hins⟩)]
  unfold soFreeDataCluster at h
  rw [hq] at h
  dsimp only at h
  split at h
  · exact absurd h (by simp)
  · rename_i hrange
    have hc : c < s.sb.dzone_total := by omega
    split at h
    · exact absurd h (by simp)
    · rw [hstat] at h
      dsimp only at h
      rw [if_neg (by decide)] at h
      by_cases hfull : s.sb.dzone_insert.cache_idx = DZONE_CACHE_SIZE
      · rw [if_pos hfull] at h
        cases hd : soDeplete s with
        | error e =>
          rw [hd] at h
          exact absurd h (by simp)
        | ok sd =>
          rw [hd] at h
          dsimp only at h
          obtain ⟨fT, fF, fR, fI, hbit2⟩ := soDeplete_char s sd hd
          have hinv2 := soDeplete_DzInv s sd hinv hd
          obtain rfl := (Except.ok.inj h).symm
          refine ins_append_DzInv sd c hinv2 ?_ ?_ ?_ ?_ ?_
          · rw [fI]
            unfold DZONE_CACHE_SIZE
            omega
          · rw [fT]
            exact hc
          · rw [hbit2 c]
            rintro (hb | hb)
            · exact hbit hb
            · exact hinsL hb
          · rw [insList_nil sd.sb fI]
            exact List.not_mem_nil c
          · rw [retrList_congr sd.sb s.sb (by rw [fR])]
            exact hretrL
      · rw [if_neg hfull] at h
        dsimp only at h
        obtain rfl := (Except.ok.inj h).symm
        exact ins_append_DzInv s c hinv (by omega) hc hbit hinsL hretrL

/-! ### The soReplenish scan loops -/

lemma replLoop1_eq (start fuel : Nat) (s : FSState) (n pos : Nat) :
    replLoop1 start fuel s n pos =
      (let nBlk := pos / (8 * BLOCK_SIZE)
       let nByte := (pos % (8 * BLOCK_SIZE)) / 8
       let nBit := (pos % (8 * BLOCK_SIZE)) % 8
       match soLoadBlockBMapT s nBlk with
       | .error e => .error e
       | .ok _ =>
         let idx := nBlk * BLOCK_SIZE + nByte
         let mask := byteMask nBit
         let hit := s.bmap idx &&& mask = mask
         let s1 := if hit then
             { s with
               bmap := upd s.bmap idx (byteClr (s.bmap idx) mask),
               sb := { s.sb with dzone_retriev := { s.sb.dzone_retriev with
                         cache := upd s.sb.dzone_retriev.cache n pos } } }
           else s
         let n1 := if hit then n + 1 else n
         let pos1 := (pos + 1) % s.sb.dzone_total
         if n1 < DZONE_CACHE_SIZE ∧ pos1 ≠ start then
           match fuel with
           | 0 => .error EFUEL
           | f + 1 => replLoop1 start f s1 n1 pos1
         else .ok (s1, n1, pos1)) := by
  rw [replLoop1.eq_def]

lemma replLoop1_spec (start T : Nat) :
    ∀ fuel : Nat, ∀ s : FSState, ∀ n pos : Nat, ∀ s1 : FSState, ∀ n1 pos1 : Nat,
    replLoop1 start fuel s n pos = .ok (s1, n1, pos1) →
    s.sb.dzone_total = T → n < DZONE_CACHE_SIZE → pos < T →
    ∃ L : List Nat,
      n1 = n + L.length ∧ n1 ≤ DZONE_CACHE_SIZE ∧ L.Nodup ∧
      (∀ c ∈ L, c < T ∧ bmBit s.bmap c) ∧
      (∀ q, bmBit s1.bmap q ↔ (bmBit s.bmap q ∧ q ∉ L)) ∧
      (List.range' n L.length).map s1.sb.dzone_retriev.cache = L ∧
      (∀ k, k < n ∨ n1 ≤ k → s1.sb.dzone_retriev.cache k = s.sb.dzone_retriev.cache k) ∧
      s1.sb.dzone_retriev.cache_idx = s.sb.dzone_retriev.cache_idx ∧
      s1.sb.dzone_insert = s.sb.dzone_insert ∧
      s1.sb.dzone_total = T ∧ s1.sb.dzone_free = s.sb.dzone_free ∧
      s1.sb.fctable_size = s.sb.fctable_size ∧
      pos1 < T ∧ (n1 = DZONE_CACHE_SIZE ∨ pos1 = start) := by
  intro fuel
  induction fuel with
  | zero =>
    intro s n pos s1 n1 pos1 h hT hn hpos
    rw [replLoop1_eq] at h
    dsimp only at h
    cases hload : soLoadBlockBMapT s (pos / (8 * BLOCK_SIZE)) with
    | error e =>
      rw [hload] at h
      exact absurd h (by simp)
    | ok u =>
      cases u
      rw [hload] at h
      dsimp only at h
      have hT0 : 0 < s.sb.dzone_total := by omega
      by_cases hhit : s.bmap (pos / (8 * BLOCK_SIZE) * BLOCK_SIZE +
          pos % (8 * BLOCK_SIZE) / 8) &&& byteMask (pos % (8 * BLOCK_SIZE) % 8) =
          byteMask (pos % (8 * BLOCK_SIZE) % 8)
      · simp only [if_pos hhit] at h
        split at h
        · exact absurd h (by simp)
        · rename_i hexit
          obtain hinj := Except.ok.inj h
          obtain ⟨hs, hrest⟩ := Prod.mk.inj hinj
          obtain ⟨hn1, hp1⟩ := Prod.mk.inj hrest
          subst hs
          subst hn1
          subst hp1
          refine ⟨[pos], by simp, by omega, List.nodup_singleton pos, ?_, ?_, ?_, ?_,
            rfl, rfl, hT, rfl, rfl, by rw [hT] at hT0 ⊢; exact Nat.mod_lt _ hT0, ?_⟩
          · intro c hc
            rw [List.mem_singleton] at hc
            subst hc
            exact ⟨by omega, hhit⟩
          · intro q
            have hcl := bmBit_upd_clr s.bmap pos q
            rw [List.mem_singleton]
            constructor
            · intro hb
              have := hcl.mp hb
              exact ⟨this.2, this.1⟩
            · rintro ⟨hb, hne⟩
              exact hcl.mpr ⟨hne, hb⟩
          · show [upd s.sb.dzone_retriev.cache n pos n] = [pos]
            simp [upd]
          · intro k hk
            show upd s.sb.dzone_retriev.cache n pos k = s.sb.dzone_retriev.cache k
            have hkn : k ≠ n := by omega
            simp [upd, hkn]
          · by_cases he : n + 1 = DZONE_CACHE_SIZE
            · exact Or.inl he
            · refine Or.inr ?_
              by_contra hne
              exact hexit ⟨by omega, hne⟩
      · simp only [if_neg hhit] at h
        split at h
        · exact absurd h (by simp)
        · rename_i hexit
          obtain hinj := Except.ok.inj h
          obtain ⟨hs, hrest⟩ := Prod.mk.inj hinj
          obtain ⟨hn1, hp1⟩ := Prod.mk.inj hrest
          subst hs
          subst hn1
          subst hp1
          refine ⟨[], by simp, by omega, List.nodup_nil, by simp, by simp, rfl,
            fun k _ => rfl, rfl, rfl, hT, rfl, rfl,
            by rw [hT] at hT0 ⊢; exact Nat.mod_lt _ hT0, ?_⟩
          refine Or.inr ?_
          by_contra hne
          exact hexit ⟨by omega, hne⟩
  | succ f ih =>
    intro s n pos s1 n1 pos1 h hT hn hpos
    rw [replLoop1_eq] at h
    dsimp only at h
    cases hload : soLoadBlockBMapT s (pos / (8 * BLOCK_SIZE)) with
    | error e =>
      rw [hload] at h
      exact absurd h (by simp)
    | ok u =>
      cases u
      rw [hload] at h
      dsimp only at h
      have hT0 : 0 < s.sb.dzone_total := by omega
      have hpos2 : (pos + 1) % s.sb.dzone_total < T := by
        rw [hT] at hT0 ⊢
        exact Nat.mod_lt _ hT0
      by_cases hhit : s.bmap (pos / (8 * BLOCK_SIZE) * BLOCK_SIZE +
          pos % (8 * BLOCK_SIZE) / 8) &&& byteMask (pos % (8 * BLOCK_SIZE) % 8) =
          byteMask (pos % (8 * BLOCK_SIZE) % 8)
      · simp only [if_pos hhit] at h
        split at h
        · rename_i hcont
          obtain ⟨L2, g1, g2, g3, g4, g5, g6, g7, g8, g9, g10, g11, g12, g13, g14⟩ :=
            ih _ (n + 1) ((pos + 1) % s.sb.dzone_total) s1 n1 pos1 h hT hcont.1 hpos2
          have hbm2 : ∀ q, bmBit (upd s.bmap
              (pos / (8 * BLOCK_SIZE) * BLOCK_SIZE + pos % (8 * BLOCK_SIZE) / 8)
              (byteClr (s.bmap (pos / (8 * BLOCK_SIZE) * BLOCK_SIZE +
                pos % (8 * BLOCK_SIZE) / 8)) (byteMask (pos % (8 * BLOCK_SIZE) % 8)))) q ↔
              (q ≠ pos ∧ bmBit s.bmap q) := fun q => bmBit_upd_clr s.bmap pos q
          have hposL2 : pos ∉ L2 := fun hm => by
            have := (g4 pos hm).2
            exact ((hbm2 pos).mp this).1 rfl
          refine ⟨pos :: L2, ?_, g2, List.nodup_cons.mpr ⟨hposL2, g3⟩, ?_, ?_, ?_, ?_,
            g8, g9, g10, g11, g12, g13, g14⟩
          · rw [List.length_cons]
            omega
          · intro c hc
            rw [List.mem_cons] at hc
            rcases hc with rfl | hm
            · exact ⟨by omega, hhit⟩
            · obtain ⟨hlt, hb⟩ := g4 c hm
              exact ⟨hlt, ((hbm2 c).mp hb).2⟩
          · intro q
            rw [g5 q, hbm2 q, List.mem_cons]
            constructor
            · rintro ⟨⟨hne, hb⟩, hnm⟩
              exact ⟨hb, fun hor => by rcases hor with rfl | hm
                                       · exact hne rfl
                                       · exact hnm hm⟩
            · rintro ⟨hb, hnm⟩
              exact ⟨⟨fun hq => hnm (Or.inl hq), hb⟩, fun hm => hnm (Or.inr hm)⟩
          · rw [List.length_cons, List.range'_succ, List.map_cons]
            refine congrArg₂ List.cons ?_ g6
            rw [g7 n (Or.inl (by omega))]
            show upd s.sb.dzone_retriev.cache n pos n = pos
            simp [upd]
          · intro k hk
            rw [g7 k (by omega)]
            show upd s.sb.dzone_retriev.cache n pos k = s.sb.dzone_retriev.cache k
            have hkn : k ≠ n := by omega
            simp [upd, hkn]
        · rename_i hexit
          obtain hinj := Except.ok.inj h
          obtain ⟨hs, hrest⟩ := Prod.mk.inj hinj
          obtain ⟨hn1, hp1⟩ := Prod.mk.inj hrest
          subst hs
          subst hn1
          subst hp1
          refine ⟨[pos], by simp, by omega, List.nodup_singleton pos, ?_, ?_, ?_, ?_,
            rfl, rfl, hT, rfl, rfl, hpos2, ?_⟩
          · intro c hc
            rw [List.mem_singleton] at hc
            subst hc
            exact ⟨by omega, hhit⟩
          · intro q
            have hcl := bmBit_upd_clr s.bmap pos q
            rw [List.mem_singleton]
            constructor
            · intro hb
              have := hcl.mp hb
              exact ⟨this.2, this.1⟩
            · rintro ⟨hb, hne⟩
              exact hcl.mpr ⟨hne, hb⟩
          · show [upd s.sb.dzone_retriev.cache n pos n] = [pos]
            simp [upd]
          · intro k hk
            show upd s.sb.dzone_retriev.cache n pos k = s.sb.dzone_retriev.cache k
            have hkn : k ≠ n := by omega
            simp [upd, hkn]
          · by_cases he : n + 1 = DZONE_CACHE_SIZE
            · exact Or.inl he
            · refine Or.inr ?_
              by_contra hne
              exact hexit ⟨by omega, hne⟩
      · simp only [if_neg hhit] at h
        split at h
        · rename_i hcont
          obtain ⟨L2, g1, g2, g3, g4, g5, g6, g7, g8, g9, g10, g11, g12, g13, g14⟩ :=
            ih _ n ((pos + 1) % s.sb.dzone_total) s1 n1 pos1 h hT hcont.1 hpos2
          exact ⟨L2, g1, g2, g3, g4, g5, g6, g7, g8, g9, g10, g11, g12, g13, g14⟩
        · rename_i hexit
          obtain hinj := Except.ok.inj h
          obtain ⟨hs, hrest⟩ := Prod.mk.inj hinj
          obtain ⟨hn1, hp1⟩ := Prod.mk.inj hrest
          subst hs
          subst hn1
          subst hp1
          refine ⟨[], by simp, by omega, List.nodup_nil, by simp, by simp, rfl,
            fun k _ => rfl, rfl, rfl, hT, rfl, rfl, hpos2, ?_⟩
          refine Or.inr ?_
          by_contra hne
          exact hexit ⟨by omega, hne⟩

lemma replLoop2_eq (fuel : Nat) (s : FSState) (n pos : Nat) :
    replLoop2 fuel s n pos =
      (let nByte := (pos % (8 * BLOCK_SIZE)) / 8
       let nBit := (pos % (8 * BLOCK_SIZE)) % 8
       match soLoadBlockBMapT s nByte with
       | .error e => .error e
       | .ok _ =>
         let idx := nByte * BLOCK_SIZE + nByte
         let mask := byteMask nBit
         let hit := s.bmap idx &&& mask = mask
         let s1 := if hit then
             { s with
               bmap := upd s.bmap idx (byteClr (s.bmap idx) mask),
               sb := { s.sb with dzone_retriev := { s.sb.dzone_retriev with
                         cache := upd s.sb.dzone_retriev.cache n pos } } }
           else s
         let n1 := if hit then n + 1 else n
         let pos1 := (pos + 1) % s.sb.dzone_total
         if n1 < DZONE_CACHE_SIZE then
           match fuel with
           | 0 => .error EFUEL
           | f + 1 => replLoop2 f s1 n1 pos1
         else .ok (s1, n1, pos1)) := by
  rw [replLoop2.eq_def]

lemma replLoop2_spec (T : Nat) :
    ∀ fuel : Nat, ∀ s : FSState, ∀ n pos : Nat, ∀ s1 : FSState, ∀ n1 pos1 : Nat,
    replLoop2 fuel s n pos = .ok (s1, n1, pos1) →
    s.sb.dzone_total = T → s.sb.fctable_size = 1 → T ≤ BITS_PER_BLOCK →
    n < DZONE_CACHE_SIZE → pos < T →
    ∃ L : List Nat,
      n1 = n + L.length ∧ n1 = DZONE_CACHE_SIZE ∧ L.Nodup ∧
      (∀ c ∈ L, c < T ∧ bmBit s.bmap c) ∧
      (∀ q, bmBit s1.bmap q ↔ (bmBit s.bmap q ∧ q ∉ L)) ∧
      (List.range' n L.length).map s1.sb.dzone_retriev.cache = L ∧
      (∀ k, k < n ∨ n1 ≤ k → s1.sb.dzone_retriev.cache k = s.sb.dzone_retriev.cache k) ∧
      s1.sb.dzone_retriev.cache_idx = s.sb.dzone_retriev.cache_idx ∧
      s1.sb.dzone_insert = s.sb.dzone_insert ∧
      s1.sb.dzone_total = T ∧ s1.sb.dzone_free = s.sb.dzone_free ∧
      pos1 < T := by
  intro fuel
  induction fuel with
  | zero =>
    intro s n pos s1 n1 pos1 h hT hfct hT4 hn hpos
    rw [replLoop2_eq] at h
    dsimp only at h
    cases hload : soLoadBlockBMapT s (pos % (8 * BLOCK_SIZE) / 8) with
    | error e =>
      rw [hload] at h
      exact absurd h (by simp)
    | ok u =>
      cases u
      rw [hload] at h
      dsimp only at h
      have hbyte : ¬ (pos % (8 * BLOCK_SIZE) / 8 ≥ s.sb.fctable_size) := by
        intro hge
        unfold soLoadBlockBMapT at hload
        rw [if_pos hge] at hload
        exact absurd hload (by simp)
      have hBB : (8 : Nat) * BLOCK_SIZE = 4096 := rfl
      have hBPB : BITS_PER_BLOCK = 4096 := rfl
      have hmod : pos % (8 * BLOCK_SIZE) = pos := by
        rw [hBB]
        exact Nat.mod_eq_of_lt (by omega)
      have h8 : pos < 8 := by
        rw [hfct, hmod] at hbyte
        omega
      have hidx : pos % (8 * BLOCK_SIZE) / 8 * BLOCK_SIZE + pos % (8 * BLOCK_SIZE) / 8 =
          bmapByteIdx pos := by
        simp only [bmapByteIdx, BITS_PER_BLOCK, BLOCK_SIZE]
        omega
      rw [hidx] at h
      have hT0 : 0 < s.sb.dzone_total := by omega
      by_cases hhit : s.bmap (bmapByteIdx pos) &&&
          byteMask (pos % (8 * BLOCK_SIZE) % 8) = byteMask (pos % (8 * BLOCK_SIZE) % 8)
      · simp only [if_pos hhit] at h
        split at h
        · exact absurd h (by simp)
        · rename_i hexit
          obtain hinj := Except.ok.inj h
          obtain ⟨hs, hrest⟩ := Prod.mk.inj hinj
          obtain ⟨hn1, hp1⟩ := Prod.mk.inj hrest
          subst hs
          subst hn1
          subst hp1
          refine ⟨[pos], by simp, by omega, List.nodup_singleton pos, ?_, ?_, ?_, ?_,
            rfl, rfl, hT, rfl, by rw [hT] at hT0 ⊢; exact Nat.mod_lt _ hT0⟩
          · intro c hc
            rw [List.mem_singleton] at hc
            subst hc
            exact ⟨by omega, hhit⟩
          · intro q
            have hcl := bmBit_upd_clr s.bmap pos q
            rw [List.mem_singleton]
            constructor
            · intro hb
              have := hcl.mp hb
              exact ⟨this.2, this.1⟩
            · rintro ⟨hb, hne⟩
              exact hcl.mpr ⟨hne, hb⟩
          · show [upd s.sb.dzone_retriev.cache n pos n] = [pos]
            simp [upd]
          · intro k hk
            show upd s.sb.dzone_retriev.cache n pos k = s.sb.dzone_retriev.cache k
            have hkn : k ≠ n := by omega
            simp [upd, hkn]
      · simp only [if_neg hhit] at h
        split at h
        · exact absurd h (by simp)
        · rename_i hexit
          exact absurd hn hexit
  | succ f ih =>
    intro s n pos s1 n1 pos1 h hT hfct hT4 hn hpos
    rw [replLoop2_eq] at h
    dsimp only at h
    cases hload : soLoadBlockBMapT s (pos % (8 * BLOCK_SIZE) / 8) with
    | error e =>
      rw [hload] at h
      exact absurd h (by simp)
    | ok u =>
      cases u
      rw [hload] at h
      dsimp only at h
      have hbyte : ¬ (pos % (8 * BLOCK_SIZE) / 8 ≥ s.sb.fctable_size) := by
        intro hge
        unfold soLoadBlockBMapT at hload
        rw [if_pos hge] at hload
        exact absurd hload (by simp)
      have hBB : (8 : Nat) * BLOCK_SIZE = 4096 := rfl
      have hBPB : BITS_PER_BLOCK = 4096 := rfl
      have hmod : pos % (8 * BLOCK_SIZE) = pos := by
        rw [hBB]
        exact Nat.mod_eq_of_lt (by omega)
      have h8 : pos < 8 := by
        rw [hfct, hmod] at hbyte
        omega
      have hidx : pos % (8 * BLOCK_SIZE) / 8 * BLOCK_SIZE + pos % (8 * BLOCK_SIZE) / 8 =
          bmapByteIdx pos := by
        simp only [bmapByteIdx, BITS_PER_BLOCK, BLOCK_SIZE]
        omega
      rw [hidx] at h
      have hT0 : 0 < s.sb.dzone_total := by omega
      have hpos2 : (pos + 1) % s.sb.dzone_total < T := by
        rw [hT] at hT0 ⊢
        exact Nat.mod_lt _ hT0
      by_cases hhit : s.bmap (bmapByteIdx pos) &&&
          byteMask (pos % (8 * BLOCK_SIZE) % 8) = byteMask (pos % (8 * BLOCK_SIZE) % 8)
      · simp only [if_pos hhit] at h
        split at h
        · rename_i hcont
          obtain ⟨L2, g1, g2, g3, g4, g5, g6, g7, g8, g9, g10, g11, g12⟩ :=
            ih _ (n + 1) ((pos + 1) % s.sb.dzone_total) s1 n1 pos1 h hT hfct hT4
              hcont hpos2
          have hbm2 : ∀ q, bmBit (upd s.bmap (bmapByteIdx pos)
              (byteClr (s.bmap (bmapByteIdx pos))
                (byteMask (pos % (8 * BLOCK_SIZE) % 8)))) q ↔
              (q ≠ pos ∧ bmBit s.bmap q) := fun q => bmBit_upd_clr s.bmap pos q
          have hposL2 : pos ∉ L2 := fun hm => by
            have := (g4 pos hm).2
            exact ((hbm2 pos).mp this).1 rfl
          refine ⟨pos :: L2, ?_, g2, List.nodup_cons.mpr ⟨hposL2, g3⟩, ?_, ?_, ?_, ?_,
            g8, g9, g10, g11, g12⟩
          · rw [List.length_cons]
            omega
          · intro c hc
            rw [List.mem_cons] at hc
            rcases hc with rfl | hm
            · exact ⟨by omega, hhit⟩
            · obtain ⟨hlt, hb⟩ := g4 c hm
              exact ⟨hlt, ((hbm2 c).mp hb).2⟩
          · intro q
            rw [g5 q, hbm2 q, List.mem_cons]
            constructor
            · rintro ⟨⟨hne, hb⟩, hnm⟩
              exact ⟨hb, fun hor => by rcases hor with rfl | hm
                                       · exact hne rfl
                                       · exact hnm hm⟩
            · rintro ⟨hb, hnm⟩
              exact ⟨⟨fun hq => hnm (Or.inl hq), hb⟩, fun hm => hnm (Or.inr hm)⟩
          · rw [List.length_cons, List.range'_succ, List.map_cons]
            refine congrArg₂ List.cons ?_ g6
            rw [g7 n (Or.inl (by omega))]
            show upd s.sb.dzone_retriev.cache n pos n = pos
            simp [upd]
          · intro k hk
            rw [g7 k (by omega)]
            show upd s.sb.dzone_retriev.cache n pos k = s.sb.dzone_retriev.cache k
            have hkn : k ≠ n := by omega
            simp [upd, hkn]
        · rename_i hexit
          obtain hinj := Except.ok.inj h
          obtain ⟨hs, hrest⟩ := Prod.mk.inj hinj
          obtain ⟨hn1, hp1⟩ := Prod.mk.inj hrest
          subst hs
          subst hn1
          subst hp1
          refine ⟨[pos], by simp, by omega, List.nodup_singleton pos, ?_, ?_, ?_, ?_,
            rfl, rfl, hT, rfl, hpos2⟩
          · intro c hc
            rw [List.mem_singleton] at hc
            subst hc
            exact ⟨by omega, hhit⟩
          · intro q
            have hcl := bmBit_upd_clr s.bmap pos q
            rw [List.mem_singleton]
            constructor
            · intro hb
              have := hcl.mp hb
              exact ⟨this.2, this.1⟩
            · rintro ⟨hb, hne⟩
              exact hcl.mpr ⟨hne, hb⟩
          · show [upd s.sb.dzone_retriev.cache n pos n] = [pos]
            simp [upd]
          · intro k hk
            show upd s.sb.dzone_retriev.cache n pos k = s.sb.dzone_retriev.cache k
            have hkn : k ≠ n := by omega
            simp [upd, hkn]
      · simp only [if_neg hhit] at h
        split at h
        · rename_i hcont
          obtain ⟨L2, g1, g2, g3, g4, g5, g6, g7, g8, g9, g10, g11, g12⟩ :=
            ih _ n ((pos + 1) % s.sb.dzone_total) s1 n1 pos1 h hT hfct hT4 hcont hpos2
          exact ⟨L2, g1, g2, g3, g4, g5, g6, g7, g8, g9, g10, g11, g12⟩
        · rename_i hexit
          exact absurd hn hexit

/-! ### soReplenish preserves the invariant -/

lemma replenish_DzInv (s s2 : FSState) (hinv : DzInv s)
    (hfct : s.sb.fctable_size = 1) (hT4 : s.sb.dzone_total ≤ BITS_PER_BLOCK)
    (hpos : s.sb.fctable_pos < s.sb.dzone_total) (hfree : 1 ≤ s.sb.dzone_free)
    (hidx : s.sb.dzone_retriev.cache_idx = DZONE_CACHE_SIZE)
    (h : soReplenish s = .ok s2) :
    DzInv s2 ∧ s2.sb.dzone_retriev.cache_idx < DZONE_CACHE_SIZE ∧
    s2.sb.dzone_total = s.sb.dzone_total ∧ s2.sb.dzone_free = s.sb.dzone_free := by
  have hinvC := hinv
  unfold DzInv DzInvSB at hinvC
  obtain ⟨h1, h2, h3, h4, h5, h6, h7⟩ := hinvC
  have hretrnil : retrList s.sb = [] := retrList_nil s.sb hidx
  rw [hretrnil] at h7
  simp only [List.length_nil] at h7
  have hD : 0 < DZONE_CACHE_SIZE := by decide
  have hnclA : 1 ≤ (if s.sb.dzone_free < DZONE_CACHE_SIZE then s.sb.dzone_free
      else DZONE_CACHE_SIZE) := by
    split <;> omega
  have hnclB : (if s.sb.dzone_free < DZONE_CACHE_SIZE then s.sb.dzone_free
      else DZONE_CACHE_SIZE) ≤ DZONE_CACHE_SIZE := by
    split <;> omega
  unfold soReplenish at h
  dsimp only at h
  cases hl1 : replLoop1 s.sb.fctable_pos s.sb.dzone_total s
      (DZONE_CACHE_SIZE - (if s.sb.dzone_free < DZONE_CACHE_SIZE then s.sb.dzone_free
        else DZONE_CACHE_SIZE)) s.sb.fctable_pos with
  | error e =>
    rw [hl1] at h
    exact absurd h (by simp)
  | ok tr =>
    obtain ⟨s1, n1, pos1⟩ := tr
    rw [hl1] at h
    dsimp only at h
    obtain ⟨L1, g1, g2, g3, g4, g5, g6, g7, g8, g9, g10, g11, g12, g13, g14⟩ :=
      replLoop1_spec s.sb.fctable_pos s.sb.dzone_total s.sb.dzone_total s _ _ s1 n1
        pos1 hl1 rfl (by omega) hpos
    by_cases hn1 : n1 = DZONE_CACHE_SIZE
    · rw [if_neg (not_not_intro hn1)] at h
      dsimp only at h
      obtain rfl := (Except.ok.inj h).symm
      have hlen1 : L1.length = (if s.sb.dzone_free < DZONE_CACHE_SIZE then
          s.sb.dzone_free else DZONE_CACHE_SIZE) := by omega
      have hrl : retrList { s1.sb with
          dzone_retriev := { s1.sb.dzone_retriev with
            cache_idx := DZONE_CACHE_SIZE - (if s.sb.dzone_free < DZONE_CACHE_SIZE
              then s.sb.dzone_free else DZONE_CACHE_SIZE) },
          fctable_pos := pos1 } = L1 := by
        unfold retrList
        dsimp only
        rw [show DZONE_CACHE_SIZE - (DZONE_CACHE_SIZE -
          (if s.sb.dzone_free < DZONE_CACHE_SIZE then s.sb.dzone_free
            else DZONE_CACHE_SIZE)) = L1.length by omega]
        exact g6
      have hil : insList { s1.sb with
          dzone_retriev := { s1.sb.dzone_retriev with
            cache_idx := DZONE_CACHE_SIZE - (if s.sb.dzone_free < DZONE_CACHE_SIZE
              then s.sb.dzone_free else DZONE_CACHE_SIZE) },
          fctable_pos := pos1 } = insList s.sb := insList_congr _ _ g9
      refine ⟨?_, by dsimp only; omega, g10, g11⟩
      unfold DzInv DzInvSB
      refine ⟨by dsimp only; omega, ?_, ?_, ?_, ?_, ?_, ?_⟩
      · show s1.sb.dzone_insert.cache_idx ≤ DZONE_CACHE_SIZE
        rw [g9]
        exact h2
      · rw [hrl]
        exact g3
      · rw [hil]
        exact h4
      · intro c hc
        rw [hrl] at hc
        obtain ⟨hc1, hc2⟩ := g4 c hc
        refine ⟨?_, ?_, ?_⟩
        · show c < s1.sb.dzone_total
          rw [g10]
          exact hc1
        · show ¬ bmBit s1.bmap c
          rw [g5 c]
          rintro ⟨-, hm⟩
          exact hm hc
        · rw [hil]
          intro hm
          exact (h6 c hm).2 hc2
      · intro c hc
        rw [hil] at hc
        obtain ⟨hc1, hc2⟩ := h6 c hc
        refine ⟨?_, ?_⟩
        · show c < s1.sb.dzone_total
          rw [g10]
          exact hc1
        · show ¬ bmBit s1.bmap c
          rw [g5 c]
          rintro ⟨hb, -⟩
          exact hc2 hb
      · rw [hrl, hil]
        show (bmapFreeT s1.sb.dzone_total s1.bmap).card + L1.length +
          (insList s.sb).length = s1.sb.dzone_free
        rw [g10, g11]
        have hsub : L1.toFinset ⊆ bmapFreeT s.sb.dzone_total s.bmap := by
          intro c hc
          rw [List.mem_toFinset] at hc
          obtain ⟨hc1, hc2⟩ := g4 c hc
          simp only [bmapFreeT, Finset.mem_filter, Finset.mem_range]
          exact ⟨hc1, hc2⟩
        have hBeq : bmapFreeT s.sb.dzone_total s1.bmap =
            bmapFreeT s.sb.dzone_total s.bmap \ L1.toFinset := by
          ext q
          simp only [bmapFreeT, Finset.mem_filter, Finset.mem_range, Finset.mem_sdiff,
            List.mem_toFinset, g5 q]
          constructor
          · rintro ⟨hq, hb, hm⟩
            exact ⟨⟨hq, hb⟩, hm⟩
          · rintro ⟨⟨hq, hb⟩, hm⟩
            exact ⟨hq, hb, hm⟩
        rw [hBeq, Finset.card_sdiff hsub, List.toFinset_card_of_nodup g3]
        have hle := Finset.card_le_card hsub
        rw [List.toFinset_card_of_nodup g3] at hle
        omega
    · rw [if_pos hn1] at h
      have hload : ∀ k, k < s1.sb.dzone_insert.cache_idx →
          s1.sb.dzone_insert.cache k / (8 * BLOCK_SIZE) < s1.sb.fctable_size := by
        intro k hk
        rw [g9] at hk ⊢
        rw [g12, hfct]
        have hmem : s.sb.dzone_insert.cache k ∈ insList s.sb :=
          (insList_mem s.sb _).mpr ⟨k, hk, rfl⟩
        have hlt := (h6 _ hmem).1
        have hBPB : BITS_PER_BLOCK = 4096 := rfl
        rw [show (8 : Nat) * BLOCK_SIZE = 4096 from rfl]
        omega
      obtain ⟨d, hd, dT, dF, dR, dI, dS, dbit⟩ := depleteRaw_spec s1 hload
        (by rw [g8, hidx])
      rw [hd] at h
      dsimp only at h
      cases hl2 : replLoop2 ((s.sb.dzone_total + 1) * (DZONE_CACHE_SIZE + 1)) d n1
          pos1 with
      | error e =>
        rw [hl2] at h
        exact absurd h (by simp)
      | ok tr2 =>
        obtain ⟨s4, n4, pos4⟩ := tr2
        rw [hl2] at h
        dsimp only at h
        obtain rfl := (Except.ok.inj h).symm
        obtain ⟨L2, k1, k2, k3, k4, k5, k6, k7, k8, k9, k10, k11, k12⟩ :=
          replLoop2_spec s.sb.dzone_total _ d n1 pos1 s4 n4 pos4 hl2
            (by rw [dT, g10]) (by rw [dS, g12, hfct]) hT4 (by omega) g13
        have hdcache : d.sb.dzone_retriev.cache = s1.sb.dzone_retriev.cache := by
          rw [dR]
        have hinseq : insList s1.sb = insList s.sb := insList_congr _ _ g9
        have hlen12 : L1.length + L2.length = (if s.sb.dzone_free < DZONE_CACHE_SIZE
            then s.sb.dzone_free else DZONE_CACHE_SIZE) := by omega
        have hrl : retrList { s4.sb with
            dzone_retriev := { s4.sb.dzone_retriev with
              cache_idx := DZONE_CACHE_SIZE - (if s.sb.dzone_free < DZONE_CACHE_SIZE
                then s.sb.dzone_free else DZONE_CACHE_SIZE) },
            fctable_pos := pos4 } = L1 ++ L2 := by
          unfold retrList
          dsimp only
          rw [show DZONE_CACHE_SIZE - (DZONE_CACHE_SIZE -
            (if s.sb.dzone_free < DZONE_CACHE_SIZE then s.sb.dzone_free
              else DZONE_CACHE_SIZE)) = L2.length + L1.length by omega]
          rw [← List.range'_append_1, List.map_append]
          refine congrArg₂ (· ++ ·) ?_ ?_
          · refine Eq.trans (List.map_congr_left (fun k hk => ?_)) g6
            rw [List.mem_range'_1] at hk
            rw [k7 k (Or.inl (by omega)), hdcache]
          · rw [show DZONE_CACHE_SIZE - (if s.sb.dzone_free < DZONE_CACHE_SIZE
              then s.sb.dzone_free else DZONE_CACHE_SIZE) + L1.length = n1 by omega]
            exact k6
        have hil : insList { s4.sb with
            dzone_retriev := { s4.sb.dzone_retriev with
              cache_idx := DZONE_CACHE_SIZE - (if s.sb.dzone_free < DZONE_CACHE_SIZE
                then s.sb.dzone_free else DZONE_CACHE_SIZE) },
            fctable_pos := pos4 } = [] := by
          refine insList_nil _ ?_
          show s4.sb.dzone_insert.cache_idx = 0
          rw [k9]
          exact dI
        have hbit4 : ∀ q, bmBit s4.bmap q ↔
            (((bmBit s.bmap q ∧ q ∉ L1) ∨ q ∈ insList s.sb) ∧ q ∉ L2) := by
          intro q
          rw [k5 q, dbit q, g5 q, hinseq]
        have hdisj12 : ∀ c ∈ L1, c ∉ L2 := by
          intro c hc1 hc2
          have hbd := (k4 c hc2).2
          rw [dbit c, g5 c, hinseq] at hbd
          rcases hbd with ⟨-, hm⟩ | hm
          · exact hm hc1
          · exact (h6 c hm).2 (g4 c hc1).2
        refine ⟨?_, by dsimp only; omega, ?_, ?_⟩
        · unfold DzInv DzInvSB
          refine ⟨by dsimp only; omega, ?_, ?_, ?_, ?_, ?_, ?_⟩
          · show s4.sb.dzone_insert.cache_idx ≤ DZONE_CACHE_SIZE
            rw [k9, dI]
            exact Nat.zero_le _
          · rw [hrl]
            rw [List.nodup_append]
            exact ⟨g3, k3, hdisj12⟩
          · rw [hil]
            exact List.nodup_nil
          · intro c hc
            rw [hrl, List.mem_append] at hc
            refine ⟨?_, ?_, by rw [hil]; exact List.not_mem_nil c⟩
            · show c < s4.sb.dzone_total
              rw [k10]
              rcases hc with hm | hm
              · exact (g4 c hm).1
              · exact (k4 c hm).1
            · show ¬ bmBit s4.bmap c
              rw [hbit4 c]
              rcases hc with hm | hm
              · rintro ⟨(⟨-, hno⟩ | hins), -⟩
                · exact hno hm
                · exact (h6 c hins).2 (g4 c hm).2
              · rintro ⟨-, hno⟩
                exact hno hm
          · intro c hc
            rw [hil] at hc
            exact absurd hc (List.not_mem_nil c)
          · rw [hrl, hil]
            show (bmapFreeT s4.sb.dzone_total s4.bmap).card + (L1 ++ L2).length +
              ([] : List Nat).length = s4.sb.dzone_free
            rw [k10, show s4.sb.dzone_free = s.sb.dzone_free from by
              rw [k11, dF, g11]]
            have hsub1 : L1.toFinset ⊆ bmapFreeT s.sb.dzone_total s.bmap := by
              intro c hc
              rw [List.mem_toFinset] at hc
              simp only [bmapFreeT, Finset.mem_filter, Finset.mem_range]
              exact ⟨(g4 c hc).1, (g4 c hc).2⟩
            have hBd : bmapFreeT s.sb.dzone_total d.bmap =
                (bmapFreeT s.sb.dzone_total s.bmap \ L1.toFinset) ∪
                  (insList s.sb).toFinset := by
              ext q
              simp only [bmapFreeT, Finset.mem_filter, Finset.mem_range,
                Finset.mem_union, Finset.mem_sdiff, List.mem_toFinset, dbit q, g5 q,
                hinseq]
              constructor
              · rintro ⟨hq, ⟨hb, hm⟩ | hins⟩
                · exact Or.inl ⟨⟨hq, hb⟩, hm⟩
                · exact Or.inr hins
              · rintro (⟨⟨hq, hb⟩, hm⟩ | hins)
                · exact ⟨hq, Or.inl ⟨hb, hm⟩⟩
                · exact ⟨(h6 q hins).1, Or.inr hins⟩
            have hB4 : bmapFreeT s.sb.dzone_total s4.bmap =
                bmapFreeT s.sb.dzone_total d.bmap \ L2.toFinset := by
              ext q
              simp only [bmapFreeT, Finset.mem_filter, Finset.mem_range,
                Finset.mem_sdiff, List.mem_toFinset, k5 q]
              constructor
              · rintro ⟨hq, hb, hm⟩
                exact ⟨⟨hq, hb⟩, hm⟩
              · rintro ⟨⟨hq, hb⟩, hm⟩
                exact ⟨hq, hb, hm⟩
            have hsub2 : L2.toFinset ⊆ bmapFreeT s.sb.dzone_total d.bmap := by
              intro c hc
              rw [List.mem_toFinset] at hc
              simp only [bmapFreeT, Finset.mem_filter, Finset.mem_range]
              exact ⟨(k4 c hc).1, (k4 c hc).2⟩
            have hdisjBI : Disjoint (bmapFreeT s.sb.dzone_total s.bmap \ L1.toFinset)
                (insList s.sb).toFinset := by
              rw [Finset.disjoint_left]
              intro a ha hain
              rw [Finset.mem_sdiff] at ha
              rw [List.mem_toFinset] at hain
              simp only [bmapFreeT, Finset.mem_filter] at ha
              exact (h6 a hain).2 ha.1.2
            have e1 : (bmapFreeT s.sb.dzone_total s4.bmap).card =
                (bmapFreeT s.sb.dzone_total d.bmap).card - L2.length := by
              rw [hB4, Finset.card_sdiff hsub2, List.toFinset_card_of_nodup k3]
            have e2 : (bmapFreeT s.sb.dzone_total d.bmap).card =
                ((bmapFreeT s.sb.dzone_total s.bmap).card - L1.length) +
                  (insList s.sb).length := by
              rw [hBd, Finset.card_union_of_disjoint hdisjBI, Finset.card_sdiff hsub1,
                List.toFinset_card_of_nodup g3, List.toFinset_card_of_nodup h4]
            have e3 : L1.length ≤ (bmapFreeT s.sb.dzone_total s.bmap).card := by
              have hle := Finset.card_le_card hsub1
              rwa [List.toFinset_card_of_nodup g3] at hle
            have e4 : L2.length ≤ (bmapFreeT s.sb.dzone_total d.bmap).card := by
              have hle := Finset.card_le_card hsub2
              rwa [List.toFinset_card_of_nodup k3] at hle
            rw [List.length_append]
            simp only [List.length_nil]
            omega
        · show s4.sb.dzone_total = s.sb.dzone_total
          exact k10
        · show s4.sb.dzone_free = s.sb.dzone_free
          rw [k11, dF, g11]

/-! ### soAllocDataCluster preserves the invariant -/

lemma clean_DzInv (s0 : FSState) (v c : Nat) (s2 : FSState) (hinv : DzInv s0)
    (h : soCleanDataCluster s0 v c = .ok s2) : DzInv s2 ∧ s2.sb = s0.sb := by
  unfold soCleanDataCluster at h
  obtain rfl := (Except.ok.inj h).symm
  exact ⟨hinv, rfl⟩

lemma alloc_DzInv (s : FSState) (r : Nat) (s1 : FSState) (hinv : DzInv s)
    (hrep : s.sb.dzone_retriev.cache_idx = DZONE_CACHE_SIZE →
      s.sb.fctable_size = 1 ∧ s.sb.dzone_total ≤ BITS_PER_BLOCK ∧
      s.sb.fctable_pos < s.sb.dzone_total)
    (h : soAllocDataCluster s = .ok (r, s1)) : DzInv s1 := by
  have hinvC := hinv
  unfold DzInv DzInvSB at hinvC
  obtain ⟨hb1, hb2, -, -, -, -, -⟩ := hinvC
  unfold soAllocDataCluster at h
  split at h
  · exact absurd h (by simp)
  · rename_i hfree0
    split at h
    · exact absurd h (by simp)
    · by_cases hfull : s.sb.dzone_retriev.cache_idx = DZONE_CACHE_SIZE
      · rw [if_pos hfull] at h
        cases hr : soReplenish s with
        | error e =>
          rw [hr] at h
          exact absurd h (by simp)
        | ok sr =>
          rw [hr] at h
          dsimp only at h
          obtain ⟨hinvT, hltT, -, -⟩ := replenish_DzInv s sr hinv (hrep hfull).1
            (hrep hfull).2.1 (hrep hfull).2.2 (by omega) hfull hr
          cases hcv : soConvertRefCInMT sr
              (sr.sb.dzone_retriev.cache sr.sb.dzone_retriev.cache_idx) with
          | error e =>
            rw [hcv] at h
            exact absurd h (by simp)
          | ok pr =>
            obtain ⟨nBlk, off⟩ := pr
            rw [hcv] at h
            dsimp only at h
            cases hld : soLoadBlockCTInMT sr nBlk with
            | error e =>
              rw [hld] at h
              exact absurd h (by simp)
            | ok u2 =>
              cases u2
              rw [hld] at h
              dsimp only at h
              by_cases hmap : sr.ciu (nBlk * RPB + off) ≠ NULL_INODE
              · rw [if_pos hmap] at h
                cases hcl : soCleanDataCluster sr (sr.ciu (nBlk * RPB + off))
                    (sr.sb.dzone_retriev.cache sr.sb.dzone_retriev.cache_idx) with
                | error e =>
                  rw [hcl] at h
                  exact absurd h (by simp)
                | ok s2 =>
                  rw [hcl] at h
                  dsimp only at h
                  obtain ⟨hs2inv, hs2sb⟩ := clean_DzInv sr _ _ s2 hinvT hcl
                  obtain ⟨-, hs1⟩ := Prod.mk.inj (Except.ok.inj h)
                  obtain rfl := hs1.symm
                  refine pop_DzInv s2 hs2inv ?_
                  rw [hs2sb]
                  exact hltT
              · rw [if_neg hmap] at h
                dsimp only at h
                obtain ⟨-, hs1⟩ := Prod.mk.inj (Except.ok.inj h)
                obtain rfl := hs1.symm
                exact pop_DzInv sr hinvT hltT
      · rw [if_neg hfull] at h
        dsimp only at h
        have hltT : s.sb.dzone_retriev.cache_idx < DZONE_CACHE_SIZE :=
          lt_of_le_of_ne hb1 hfull
        cases hcv : soConvertRefCInMT s
            (s.sb.dzone_retriev.cache s.sb.dzone_retriev.cache_idx) with
        | error e =>
          rw [hcv] at h
          exact absurd h (by simp)
        | ok pr =>
          obtain ⟨nBlk, off⟩ := pr
          rw [hcv] at h
          dsimp only at h
          cases hld : soLoadBlockCTInMT s nBlk with
          | error e =>
            rw [hld] at h
            exact absurd h (by simp)
          | ok u2 =>
            cases u2
            rw [hld] at h
            dsimp only at h
            by_cases hmap : s.ciu (nBlk * RPB + off) ≠ NULL_INODE
            · rw [if_pos hmap] at h
              cases hcl : soCleanDataCluster s (s.ciu (nBlk * RPB + off))
                  (s.sb.dzone_retriev.cache s.sb.dzone_retriev.cache_idx) with
              | error e =>
                rw [hcl] at h
                exact absurd h (by simp)
              | ok s2 =>
                rw [hcl] at h
                dsimp only at h
                obtain ⟨hs2inv, hs2sb⟩ := clean_DzInv s _ _ s2 hinv hcl
                obtain ⟨-, hs1⟩ := Prod.mk.inj (Except.ok.inj h)
                obtain rfl := hs1.symm
                refine pop_DzInv s2 hs2inv ?_
                rw [hs2sb]
                exact hltT
            · rw [if_neg hmap] at h
              dsimp only at h
              obtain ⟨-, hs1⟩ := Prod.mk.inj (Except.ok.inj h)
              obtain rfl := hs1.symm
              exact pop_DzInv s hinv hltT

/-- C1 (amended): the free-cluster bookkeeping invariant DzInv — every
valid retrieval-cache or insertion-cache entry is an in-range cluster
with bitmap bit 0, the two caches are duplicate-free and disjoint, and
the number of set bitmap bits plus the two cache populations equals
dzone_free — is preserved by every successful soAllocDataCluster (with
the replenish-path side conditions when the retrieval cache is empty),
by every successful soFreeDataCluster of a cluster that is in none of
the three free locations, by every successful soDeplete, and by every
successful soReplenish on a device with a one-block bitmap table, a
scan position inside the data zone, at least one free cluster and an
exhausted retrieval cache.  The cluster-to-inode map is deliberately
absent from the invariant: the original four-way exactly-one partition
is refuted by C1_partition_counterexample. -/
theorem C1_dzone_partition_amended :
    (∀ s r s1, DzInv s →
      (s.sb.dzone_retriev.cache_idx = DZONE_CACHE_SIZE →
        s.sb.fctable_size = 1 ∧ s.sb.dzone_total ≤ BITS_PER_BLOCK ∧
        s.sb.fctable_pos < s.sb.dzone_total) →
      soAllocDataCluster s = .ok (r, s1) → DzInv s1) ∧
    (∀ s c s1, DzInv s → ¬ bmapBitSet s c → ¬ inInsertCache s.sb c →
      ¬ inRetrievCache s.sb c → soFreeDataCluster s c = .ok s1 → DzInv s1) ∧
    (∀ s s1, DzInv s → soDeplete s = .ok s1 → DzInv s1) ∧
    (∀ s s1, DzInv s → s.sb.fctable_size = 1 → s.sb.dzone_total ≤ BITS_PER_BLOCK →
      s.sb.fctable_pos < s.sb.dzone_total → 1 ≤ s.sb.dzone_free →
      s.sb.dzone_retriev.cache_idx = DZONE_CACHE_SIZE →
      soReplenish s = .ok s1 → DzInv s1) :=
  ⟨fun s r s1 hinv hrep h => alloc_DzInv s r s1 hinv hrep h,
   fun s c s1 hinv hb hi hr h => free_DzInv s c s1 hinv hb hi hr h,
   fun s s1 hinv h => soDeplete_DzInv s s1 hinv h,
   fun s s1 hinv h1 h2 h3 h4 h5 h => (replenish_DzInv s s1 hinv h1 h2 h3 h4 h5 h).1⟩

/-- C1 counterexample to the claimed four-way partition: allocReadyState
satisfies the spec partition (every cluster in exactly one of the four
cases, count of the first three equal to dzone_free), a single
successful soAllocDataCluster returns cluster 1, and in the resulting
state cluster 1 is in none of the four cases — its bitmap bit is 0, it
is in neither cache, and its map entry is NULL_INODE — so the partition
is not preserved by a successful allocation. -/
theorem C1_partition_counterexample :
    specPartition allocReadyState ∧
    soAllocDataCluster allocReadyState = .ok (1, c1AllocPost) ∧
    ¬ bmapBitSet c1AllocPost 1 ∧ ¬ inRetrievCache c1AllocPost.sb 1 ∧
    ¬ inInsertCache c1AllocPost.sb 1 ∧ c1AllocPost.ciu 1 = NULL_INODE ∧
    ¬ specPartition c1AllocPost :=
  ⟨by decide, rfl, by decide, by decide, by decide, by decide, by decide⟩

/-- Witness for the amended C1: each of the four preservation conjuncts
applied at a concrete state of the tiny device on which the operation
succeeds. -/
theorem C1_dzone_partition_amended_witness :
    (DzInv allocReadyState ∧ DzInv c1AllocPost) ∧
    (DzInv c1FreeState ∧ DzInv c1FreePost) ∧
    (DzInv c1DepState ∧ DzInv c1DepPost) ∧
    (DzInv c1RepState ∧ DzInv c1RepPost) :=
  ⟨⟨by decide, C1_dzone_partition_amended.1 allocReadyState 1 c1AllocPost (by decide)
      (fun hcontra => absurd hcontra (by decide)) rfl⟩,
   ⟨by decide, C1_dzone_partition_amended.2.1 c1FreeState 1 c1FreePost (by decide)
      (by decide) (by decide) (by decide) rfl⟩,
   ⟨by decide, C1_dzone_partition_amended.2.2.1 c1DepState c1DepPost (by decide) rfl⟩,
   ⟨by decide, C1_dzone_partition_amended.2.2.2 c1RepState c1RepPost (by decide) rfl
      (by decide) (by decide) (by decide) rfl rfl⟩⟩

/-! ### The formatter: loop lemmas for C8 -/

lemma fibmLoop_frame (zero : Bool) : ∀ rem i : Nat, ∀ s : FSState,
    (fibmLoop zero rem i s).itable = s.itable ∧
    (fibmLoop zero rem i s).sb = s.sb ∧
    (fibmLoop zero rem i s).ciu = s.ciu := by
  intro rem
  induction rem with
  | zero =>
    intro i s
    exact ⟨rfl, rfl, rfl⟩
  | succ rem ih =>
    intro i s
    simp only [fibmLoop]
    exact ih (i + 1) (fibmStep zero s i)

lemma fibmLoop_dz (zero : Bool) : ∀ rem i : Nat, ∀ s : FSState, ∀ c : Nat, c < i →
    (fibmLoop zero rem i s).dz c = s.dz c := by
  intro rem
  induction rem with
  | zero =>
    intro i s c _
    rfl
  | succ rem ih =>
    intro i s c hc
    simp only [fibmLoop]
    rw [ih (i + 1) (fibmStep zero s i) c (by omega)]
    show (if zero then upd s.dz i zeroClust else s.dz) c = s.dz c
    cases zero with
    | false => rfl
    | true =>
      show upd s.dz i zeroClust c = s.dz c
      have hci : c ≠ i := by omega
      simp [upd, hci]

lemma fibmStep_bit_self (zero : Bool) (s : FSState) (i : Nat) :
    bmBit (fibmStep zero s i).bmap i := by
  unfold fibmStep
  dsimp only
  exact (bmBit_upd_set _ i i).mpr (Or.inl rfl)

lemma fibmStep_bit_lt (zero : Bool) (s : FSState) (i q : Nat) (hq : q < i) :
    bmBit (fibmStep zero s i).bmap q ↔ bmBit s.bmap q := by
  unfold fibmStep
  dsimp only
  refine Iff.trans (bmBit_upd_set _ i q) ?_
  have hqi : ¬ q = i := by omega
  by_cases hz : i % BITS_PER_BLOCK / 8 = 0 ∧ i % BITS_PER_BLOCK % 8 = 0
  · rw [if_pos hz]
    have hno : ¬ (i / BITS_PER_BLOCK * BLOCK_SIZE ≤ bmapByteIdx q ∧
        bmapByteIdx q < (i / BITS_PER_BLOCK + 1) * BLOCK_SIZE) := by
      obtain ⟨hz1, hz2⟩ := hz
      simp only [bmapByteIdx, BITS_PER_BLOCK, BLOCK_SIZE] at hz1 hz2 ⊢
      omega
    unfold bmBit
    dsimp only
    rw [if_neg hno]
    simp [hqi]
  · rw [if_neg hz]
    simp [hqi]

lemma fibmLoop_bits (zero : Bool) : ∀ rem i : Nat, ∀ s : FSState,
    (∀ q, i ≤ q → q < i + rem → bmBit (fibmLoop zero rem i s).bmap q) ∧
    (∀ q, q < i → (bmBit (fibmLoop zero rem i s).bmap q ↔ bmBit s.bmap q)) := by
  intro rem
  induction rem with
  | zero =>
    intro i s
    refine ⟨fun q h1 h2 => by omega, fun q _ => Iff.rfl⟩
  | succ rem ih =>
    intro i s
    constructor
    · intro q h1 h2
      simp only [fibmLoop]
      by_cases hq : q = i
      · subst hq
        rw [(ih (q + 1) (fibmStep zero s q)).2 q (by omega)]
        exact fibmStep_bit_self zero s q
      · exact (ih (i + 1) (fibmStep zero s i)).1 q (by omega) (by omega)
    · intro q hq
      simp only [fibmLoop]
      rw [(ih (i + 1) (fibmStep zero s i)).2 q (by omega)]
      exact fibmStep_bit_lt zero s i q hq

lemma fillInBitMapT_sb (s : FSState) (zero : Bool) :
    (fillInBitMapT s zero).sb = s.sb := by
  unfold fillInBitMapT
  exact (fibmLoop_frame zero _ 1 _).2.1

lemma fillInBitMapT_itable (s : FSState) (zero : Bool) :
    (fillInBitMapT s zero).itable = s.itable := by
  unfold fillInBitMapT
  exact (fibmLoop_frame zero _ 1 _).1

lemma fillInBitMapT_dz0 (s : FSState) (zero : Bool) :
    (fillInBitMapT s zero).dz 0 = s.dz 0 := by
  unfold fillInBitMapT
  exact fibmLoop_dz zero _ 1 _ 0 (by omega)

lemma fillInBitMapT_bit0 (s : FSState) (zero : Bool) :
    ¬ bmBit (fillInBitMapT s zero).bmap 0 := by
  unfold fillInBitMapT
  intro h
  rw [(fibmLoop_bits zero _ 1 _).2 0 (by omega)] at h
  revert h
  show ¬ bmBit (upd (fun a => if a < BLOCK_SIZE then 0 else s.bmap a) 0 127) 0
  unfold bmBit upd
  dsimp only
  rw [if_pos (show bmapByteIdx 0 = 0 from rfl)]
  decide

lemma fillInBitMapT_bit_set (s : FSState) (zero : Bool) (c : Nat) (h1 : 1 ≤ c)
    (h2 : c < 1 + (s.sb.dzone_total - 1)) :
    bmBit (fillInBitMapT s zero).bmap c := by
  unfold fillInBitMapT
  exact (fibmLoop_bits zero _ 1 _).1 c h1 h2

/-! ### The formatter: per-inode formulas for C8 -/

lemma fillInINTInode_root (itotal uid gid now : Nat) (h2 : 2 < itotal) :
    fillInINTInode itotal uid gid now 0 =
      { mode := INODE_RD_OTH ||| INODE_WR_OTH ||| INODE_EX_OTH |||
          INODE_RD_GRP ||| INODE_WR_GRP ||| INODE_EX_GRP |||
          INODE_RD_USR ||| INODE_WR_USR ||| INODE_EX_USR ||| INODE_DIR,
        refcount := 2, owner := uid, group := gid, size := CLUSTER_SIZE,
        clucount := 1, vD1 := now, vD2 := now,
        d := upd (fun _ => NULL_CLUSTER) 0 0,
        i1 := NULL_CLUSTER, i2 := NULL_CLUSTER } := by
  unfold fillInINTInode
  dsimp only
  rw [if_neg (show ¬ (0 : Nat) = itotal - 1 by omega),
    if_neg (show ¬ (0 : Nat) = 1 by omega), if_pos rfl]

lemma fillInINTInode_free_fields (itotal uid gid now n : Nat) (h2 : 2 < itotal)
    (h32 : itotal ≤ 4294967296) (hn1 : 1 ≤ n) (hn2 : n < itotal) :
    (fillInINTInode itotal uid gid now n).mode = INODE_FREE ∧
    (fillInINTInode itotal uid gid now n).refcount = 0 ∧
    (fillInINTInode itotal uid gid now n).owner = 0 ∧
    (fillInINTInode itotal uid gid now n).group = 0 ∧
    (fillInINTInode itotal uid gid now n).size = 0 ∧
    (fillInINTInode itotal uid gid now n).clucount = 0 ∧
    (fillInINTInode itotal uid gid now n).vD1 =
      (if n = 1 then NULL_INODE else n - 1) ∧
    (fillInINTInode itotal uid gid now n).vD2 =
      (if n = itotal - 1 then NULL_INODE else n + 1) ∧
    (fillInINTInode itotal uid gid now n).d = (fun _ => NULL_CLUSTER) ∧
    (fillInINTInode itotal uid gid now n).i1 = NULL_CLUSTER ∧
    (fillInINTInode itotal uid gid now n).i2 = NULL_CLUSTER := by
  unfold fillInINTInode
  dsimp only
  rw [if_neg (show ¬ n = 0 by omega)]
  by_cases hone : n = 1
  · rw [if_pos hone, if_neg (show ¬ n = itotal - 1 by omega)]
    refine ⟨rfl, rfl, rfl, rfl, rfl, rfl, ?_, ?_, rfl, rfl, rfl⟩
    · rw [if_pos hone]
    · rw [if_neg (show ¬ n = itotal - 1 by omega)]
      show (n + 1) % 4294967296 = n + 1
      omega
  · rw [if_neg hone]
    by_cases hlast : n = itotal - 1
    · rw [if_pos hlast]
      refine ⟨rfl, rfl, rfl, rfl, rfl, rfl, ?_, ?_, rfl, rfl, rfl⟩
      · rw [if_neg hone]
        show (n + 4294967295) % 4294967296 = n - 1
        omega
      · rw [if_pos hlast]
    · rw [if_neg hlast]
      refine ⟨rfl, rfl, rfl, rfl, rfl, rfl, ?_, ?_, rfl, rfl, rfl⟩
      · rw [if_neg hone]
        show (n + 4294967295) % 4294967296 = n - 1
        omega
      · rw [if_neg hlast]
        show (n + 1) % 4294967296 = n + 1
        omega

/-- C8: after the formatter completes on a device with more than two
inodes (a whole number of inode-table blocks, below the 32-bit bound),
inode 0 is the in-use root directory with mode rwxrwxrwx, refcount 2,
size CLUSTER_SIZE and d 0 = 0; data cluster 0 holds dot and dot-dot,
both naming inode 0, followed by DPC - 2 clean-empty entries; every
other inode is free-clean and chains 1 to itotal - 1 through its
prev/next words, with ifree = itotal - 1, ihead = 1 and
itail = itotal - 1; and bitmap bit 0 is 0 while bits 1 to
dzone_total - 1 are 1, with dzone_free = dzone_total - 1. -/
theorem C8_mkfs_initial_state (ntotal itotal ctinm fcb nclust uid gid now : Nat)
    (zero : Bool) (F : FSState)
    (hF : F = mkfsState ntotal itotal ctinm fcb nclust zero (blankFS uid gid now))
    (h2 : 2 < itotal) (hmod : itotal % IPB = 0) (h32 : itotal ≤ 4294967296) :
    F.sb.ifree = itotal - 1 ∧ F.sb.ihead = 1 ∧ F.sb.itail = itotal - 1 ∧
    F.sb.itotal = itotal ∧ F.sb.dzone_total = nclust ∧
    F.sb.dzone_free = nclust - 1 ∧
    F.itable 0 =
      { mode := (INODE_RD_OTH ||| INODE_WR_OTH ||| INODE_EX_OTH |||
          INODE_RD_GRP ||| INODE_WR_GRP ||| INODE_EX_GRP |||
          INODE_RD_USR ||| INODE_WR_USR ||| INODE_EX_USR ||| INODE_DIR),
        refcount := 2, owner := uid, group := gid, size := CLUSTER_SIZE,
        clucount := 1, vD1 := now, vD2 := now,
        d := (upd (fun _ => NULL_CLUSTER) 0 0),
        i1 := NULL_CLUSTER, i2 := NULL_CLUSTER } ∧
    F.dz 0 = rootDirClust ∧
    (F.dz 0).de 0 = { name := strncpyName [46], nInode := 0 } ∧
    (F.dz 0).de 1 = { name := strncpyName [46, 46], nInode := 0 } ∧
    (∀ j, 2 ≤ j → j < DPC → (F.dz 0).de j =
      { name := strncpyName [], nInode := NULL_INODE }) ∧
    (∀ n, 1 ≤ n → n < itotal →
      (F.itable n).mode = INODE_FREE ∧ (F.itable n).refcount = 0 ∧
      (F.itable n).owner = 0 ∧ (F.itable n).group = 0 ∧
      (F.itable n).size = 0 ∧ (F.itable n).clucount = 0 ∧
      (F.itable n).vD1 = (if n = 1 then NULL_INODE else n - 1) ∧
      (F.itable n).vD2 = (if n = itotal - 1 then NULL_INODE else n + 1) ∧
      (F.itable n).d = (fun _ => NULL_CLUSTER) ∧
      (F.itable n).i1 = NULL_CLUSTER ∧ (F.itable n).i2 = NULL_CLUSTER) ∧
    ¬ bmapBitSet F 0 ∧
    (∀ c, 1 ≤ c → c < nclust → bmapBitSet F c) := by
  subst hF
  unfold mkfsState
  dsimp only
  have hmod8 : itotal % 8 = 0 := hmod
  refine ⟨?_, ?_, ?_, ?_, ?_, ?_, ?_, ?_, ?_, ?_, ?_, ?_, ?_, ?_⟩
  · rw [fillInBitMapT_sb]
    rfl
  · rw [fillInBitMapT_sb]
    rfl
  · rw [fillInBitMapT_sb]
    rfl
  · rw [fillInBitMapT_sb]
    rfl
  · rw [fillInBitMapT_sb]
    rfl
  · rw [fillInBitMapT_sb]
    rfl
  · rw [fillInBitMapT_itable]
    unfold fillInRootDir fillInCIT fillInINT
    dsimp only
    have h8 : 0 < (fillInSuperBlock ntotal itotal ctinm fcb nclust).itable_size *
        IPB := by
      show 0 < itotal / 8 * 8
      omega
    rw [if_pos h8]
    exact fillInINTInode_root _ _ _ _ h2
  · rw [fillInBitMapT_dz0]
    rfl
  · rw [fillInBitMapT_dz0]
    rfl
  · rw [fillInBitMapT_dz0]
    rfl
  · intro j hj1 hj2
    rw [fillInBitMapT_dz0]
    show rootDirClust.de j = _
    unfold rootDirClust
    dsimp only
    rw [if_neg (show ¬ j = 0 by omega), if_neg (show ¬ j = 1 by omega)]
  · intro n hn1 hn2
    rw [fillInBitMapT_itable]
    unfold fillInRootDir fillInCIT fillInINT
    dsimp only
    have hlt : n < (fillInSuperBlock ntotal itotal ctinm fcb nclust).itable_size *
        IPB := by
      show n < itotal / 8 * 8
      omega
    rw [if_pos hlt]
    exact fillInINTInode_free_fields _ _ _ _ n h2 h32 hn1 hn2
  · simp only [bmapBitSet]
    exact fillInBitMapT_bit0 _ zero
  · intro c hc1 hc2
    simp only [bmapBitSet]
    refine fillInBitMapT_bit_set _ zero c hc1 ?_
    show c < 1 + (nclust - 1)
    omega

/-- Witness for C8: the theorem applied to the concretely formatted tiny
device fmtState (44 blocks, 8 inodes, 10 clusters). -/
theorem C8_mkfs_initial_state_witness :
    fmtState.sb.ifree = 7 ∧ fmtState.sb.ihead = 1 ∧ fmtState.sb.itail = 7 ∧
    ¬ bmapBitSet fmtState 0 ∧ bmapBitSet fmtState 9 := by
  obtain ⟨c1, c2, c3, -, -, -, -, -, -, -, -, -, cb0, cbs⟩ :=
    C8_mkfs_initial_state 44 8 1 1 10 1000 1000 5000 false fmtState rfl
      (by decide) (by decide) (by decide)
  exact ⟨c1, c2, c3, cb0, cbs 9 (by decide) (by decide)⟩

end Sofs13
